import Mathlib

/-!
Verification development for the Thalassa cloud-provider load-balancer
controller.  The Go sources under pkg/provider are shallowly embedded:
pure helpers become Lean functions, the reconcile engine becomes an
explicit state-passing interpreter over a cloud-state record that also
logs every cloud-API call it makes.  Go machine integers are modelled as
Int/Nat with explicit wrapping where the code casts; Go maps keyed by
strings become association lists with Go map-lookup semantics (missing
key yields the zero value); Go identities are opaque strings.
-/

namespace ThalassaProvider

/-! ## String helpers (models of Go `strings` / `strconv` functions) -/

/-- Model of Go `strings.ToLower` restricted to ASCII (protocol and label
values in this code base are ASCII). -/
def lowerChar (c : Char) : Char :=
  if 65 ≤ c.toNat ∧ c.toNat ≤ 90 then Char.ofNat (c.toNat + 32) else c

def lowerStr (s : String) : String :=
  String.mk (s.data.map lowerChar)

/-- Model of Go `strings.TrimSpace` (ASCII whitespace). -/
def isSpaceChar (c : Char) : Bool :=
  c = ' ' ∨ c = '\t' ∨ c = '\n' ∨ c = '\r'

def trimListLeft (l : List Char) : List Char :=
  match l with
  | [] => []
  | c :: rest => if isSpaceChar c then trimListLeft rest else c :: rest

def trimStr (s : String) : String :=
  String.mk ((trimListLeft (trimListLeft s.data.reverse).reverse))

/-- Split a character list on a single separator character. -/
def splitChars (sep : Char) : List Char → List Char → List (List Char)
  | [], acc => [acc.reverse]
  | c :: rest, acc =>
    if c = sep then acc.reverse :: splitChars sep rest []
    else splitChars sep rest (c :: acc)

/-- Model of Go `strings.Split` with a one-character separator. -/
def splitStr (s : String) (sep : Char) : List String :=
  (splitChars sep s.data []).map String.mk

/-- Drop a leading occurrence of `pat` from `l`, if present. -/
def dropPat : List Char → List Char → Option (List Char)
  | [], l => some l
  | _ :: _, [] => none
  | p :: ps, c :: cs => if c = p then dropPat ps cs else none

/-- Split a character list on a nonempty multi-character separator (model
of Go `strings.Split` with a separator string such as "://").  Each step
consumes at least one character, so fuel equal to the input length
suffices. -/
def splitOnPatFuel (p : Char) (ps : List Char) : Nat → List Char → List Char → List (List Char)
  | 0, l, acc => [acc.reverse ++ l]
  | _ + 1, [], acc => [acc.reverse]
  | fuel + 1, c :: rest, acc =>
    match dropPat (p :: ps) (c :: rest) with
    | some remaining => acc.reverse :: splitOnPatFuel p ps fuel remaining []
    | none => splitOnPatFuel p ps fuel rest (c :: acc)

def splitStrOn (s : String) (sep : String) : List String :=
  match sep.data with
  | [] => [s]
  | p :: ps => (splitOnPatFuel p ps s.data.length s.data []).map String.mk

/-- Model of Go `strconv.ParseBool`. -/
def goParseBool (s : String) : Option Bool :=
  if ["1", "t", "T", "true", "TRUE", "True"].contains s then some true
  else if ["0", "f", "F", "false", "FALSE", "False"].contains s then some false
  else none

def digitVal (c : Char) : Option Nat :=
  if 48 ≤ c.toNat ∧ c.toNat ≤ 57 then some (c.toNat - 48) else none

def digitsVal : List Char → Option Nat
  | [] => none
  | l => l.foldl (fun acc c => match acc, digitVal c with
      | some n, some d => some (n * 10 + d)
      | _, _ => none) (some 0)

/-- Model of Go `strconv.Atoi`: optional sign, at least one digit, nothing
else; values outside the 64-bit range produce an error (callers then fall
back to the default). -/
def goAtoi (s : String) : Option Int :=
  let withSign : Option Int :=
    match s.data with
    | '+' :: rest => (digitsVal rest).map Int.ofNat
    | '-' :: rest => (digitsVal rest).map (fun n => -(Int.ofNat n))
    | l => (digitsVal l).map Int.ofNat
  match withSign with
  | some n =>
    if n > 9223372036854775807 ∨ n < -9223372036854775808 then none else some n
  | none => none

/-- Wrap an Int into Go `uint32` range. -/
def toUInt32Model (i : Int) : Nat :=
  (i % 4294967296).toNat

/-- Wrap an Int into Go `int32` range. -/
def toInt32Model (i : Int) : Int :=
  (i + 2147483648) % 4294967296 - 2147483648

/-! ## CIDR parsing (model of Go `net.ParseCIDR`)

An IP address is 4 octets (IPv4) or 8 groups of 16 bits (IPv6).  Go's
`ParseCIDR` splits on the first `/`, parses the address (IPv4 dotted quad
first, IPv6 otherwise), parses a decimal prefix length bounded by the
address width, and returns the network masked to the prefix.  `IP.To4`
succeeds on an IPv4 address or an IPv4-mapped IPv6 address
(`::ffff:a.b.c.d`). -/

inductive IpAddr where
  | v4 (a b c d : Nat)
  | v6 (groups : List Nat)
deriving DecidableEq, Repr

def hexVal (c : Char) : Option Nat :=
  if 48 ≤ c.toNat ∧ c.toNat ≤ 57 then some (c.toNat - 48)
  else if 97 ≤ c.toNat ∧ c.toNat ≤ 102 then some (c.toNat - 87)
  else if 65 ≤ c.toNat ∧ c.toNat ≤ 70 then some (c.toNat - 55)
  else none

def hexGroupVal (l : List Char) : Option Nat :=
  if l.length = 0 ∨ l.length > 4 then none
  else l.foldl (fun acc c => match acc, hexVal c with
    | some n, some d => some (n * 16 + d)
    | _, _ => none) (some 0)

/-- Parse one dotted-quad octet: digits only, value ≤ 255, no leading zero. -/
def octetVal (l : List Char) : Option Nat :=
  match l with
  | [] => none
  | ['0'] => some 0
  | '0' :: _ :: _ => none
  | _ =>
    match digitsVal l with
    | some n => if n ≤ 255 then some n else none
    | none => none

def parseIPv4 (s : String) : Option IpAddr :=
  match (splitChars '.' s.data []).map octetVal with
  | [some a, some b, some c, some d] => some (IpAddr.v4 a b c d)
  | _ => none

/-- Parse the groups on one side of a `::`; the last group may be an
embedded dotted quad and then counts as two 16-bit groups. -/
def v6SideGroups (side : List Char) : Option (List Nat) :=
  if side = [] then some []
  else
    (splitChars ':' side []).foldr
      (fun g acc => match acc with
        | none => none
        | some tail =>
          if g.contains '.' ∧ tail = [] then
            match parseIPv4 (String.mk g) with
            | some (IpAddr.v4 a b c d) => some [a * 256 + b, c * 256 + d]
            | _ => none
          else
            match hexGroupVal g with
            | some v => some (v :: tail)
            | none => none)
      (some [])

def parseIPv6 (s : String) : Option IpAddr :=
  if s.data.contains '%' then none
  else
    match splitOnPatFuel ':' [':'] s.data.length s.data [] with
    | [one] =>
      match v6SideGroups one with
      | some gs => if gs.length = 8 then some (IpAddr.v6 gs) else none
      | none => none
    | [left, right] =>
      match v6SideGroups left, v6SideGroups right with
      | some ls, some rs =>
        if ls.length + rs.length ≤ 7 then
          some (IpAddr.v6 (ls ++ List.replicate (8 - ls.length - rs.length) 0 ++ rs))
        else none
      | _, _ => none
    | _ => none

def parseIP (s : String) : Option IpAddr :=
  match parseIPv4 s with
  | some ip => some ip
  | none => parseIPv6 s

/-- Mask a value of `width` bits keeping the top `keep` bits. -/
def maskBits (width keep v : Nat) : Nat :=
  v / 2 ^ (width - keep) * 2 ^ (width - keep)

def maskIp (ip : IpAddr) (n : Nat) : IpAddr :=
  match ip with
  | IpAddr.v4 a b c d =>
    IpAddr.v4 (maskBits 8 (min n 8) a)
      (maskBits 8 (min (n - 8) 8) b)
      (maskBits 8 (min (n - 16) 8) c)
      (maskBits 8 (min (n - 24) 8) d)
  | IpAddr.v6 gs =>
    IpAddr.v6 ((List.range gs.length).zip gs |>.map
      (fun p => maskBits 16 (min (n - 16 * p.1) 16) p.2))

/-- Model of Go `net.ParseCIDR`, returning the masked network address. -/
def parseCIDR (s : String) : Option IpAddr :=
  match splitChars '/' s.data [] with
  | [addr, maskStr] =>
    match parseIPv4 (String.mk addr) with
    | some ip =>
      match digitsVal maskStr with
      | some n => if n ≤ 32 then some (maskIp ip n) else none
      | none => none
    | none =>
      match parseIPv6 (String.mk addr) with
      | some ip =>
        match digitsVal maskStr with
        | some n => if n ≤ 128 then some (maskIp ip n) else none
        | none => none
      | none => none
  | _ => none

/-- Model of Go `net.IP.To4`: an IPv4 address, or an IPv4-mapped IPv6
address, has a 4-byte form. -/
def ipTo4 (ip : IpAddr) : Option IpAddr :=
  match ip with
  | IpAddr.v4 a b c d => some (IpAddr.v4 a b c d)
  | IpAddr.v6 gs =>
    match gs with
    | [0, 0, 0, 0, 0, g5, g6, g7] =>
      if g5 = 65535 then some (IpAddr.v4 (g6 / 256) (g6 % 256) (g7 / 256) (g7 % 256))
      else none
    | _ => none

/-! ## Label maps

Go maps from string to string, with Go lookup semantics: a missing key
yields the empty string.  The controller builds its label maps with
distinct keys, so association lists are a faithful model. -/

abbrev LabelMap := List (String × String)

def labelsGet (ls : LabelMap) (k : String) : Option String :=
  (ls.find? (fun p => p.1 = k)).map (fun p => p.2)

/-- Go map index expression `m[k]`, yielding the zero value for a missing
key. -/
def labelsGetD (ls : LabelMap) (k : String) : String :=
  (labelsGet ls k).getD ""

/-- Model of `matchLabels` from loadbalancer.go: every expected pair must
be present (Go compares against the zero value on a missing key). -/
def matchLabels (expected actual : LabelMap) : Bool :=
  expected.all (fun p => labelsGetD actual p.1 = p.2)

/-- Insert a binding only when the key is absent (the merge loops in
loadbalancer_labels use `if _, ok := labels[key]; !ok`). -/
def insertIfAbsent (ls : LabelMap) (k v : String) : LabelMap :=
  if (labelsGet ls k).isSome then ls else ls ++ [(k, v)]

def mergeIfAbsent (base extra : LabelMap) : LabelMap :=
  extra.foldl (fun acc p => insertIfAbsent acc p.1 p.2) base

/-! ## Kubernetes objects (the fields the controller reads) -/

structure ServicePort where
  name : String
  protocol : String
  port : Int
  nodePort : Int
deriving DecidableEq, Repr

structure KService where
  name : String
  ns : String
  uid : String
  annotations : LabelMap
  ports : List ServicePort
  trafficPolicy : String
  healthCheckNodePort : Int
deriving DecidableEq, Repr

structure KNode where
  name : String
  providerID : String
deriving DecidableEq, Repr

structure KEndpoint where
  nodeName : Option String
  ready : Option Bool
  terminating : Option Bool
deriving DecidableEq, Repr

structure KEndpointSlice where
  name : String
  ns : String
  serviceNameLabel : Option String
  endpoints : List KEndpoint
deriving DecidableEq, Repr

def annGet (svc : KService) (k : String) : Option String :=
  labelsGet svc.annotations k

/-! ## Annotation keys and defaults (loadbalancer_consts.go) -/

def annSubnetID : String := "loadbalancer.k8s.thalassa.cloud/subnet"
def annInternal : String := "loadbalancer.k8s.thalassa.cloud/internal"
def annEnableProxyProtocol : String := "loadbalancer.k8s.thalassa.cloud/enable-proxy-protocol"
def annIdleConnectionTimeout : String := "loadbalancer.k8s.thalassa.cloud/idle-connection-timeout"
def annMaxConnections : String := "loadbalancer.k8s.thalassa.cloud/max-connections"
def annLoadbalancingPolicy : String := "loadbalancer.k8s.thalassa.cloud/loadbalancing-policy"
def annHealthCheckEnabled : String := "loadbalancer.k8s.thalassa.cloud/health-check-enabled"
def annHealthCheckPath : String := "loadbalancer.k8s.thalassa.cloud/health-check-path"
def annHealthCheckPort : String := "loadbalancer.k8s.thalassa.cloud/health-check-port"
def annHealthCheckProtocol : String := "loadbalancer.k8s.thalassa.cloud/health-check-protocol"
def annHealthCheckInterval : String := "loadbalancer.k8s.thalassa.cloud/health-check-interval"
def annHealthCheckTimeout : String := "loadbalancer.k8s.thalassa.cloud/health-check-timeout"
def annHealthCheckUpThreshold : String := "loadbalancer.k8s.thalassa.cloud/health-check-up-threshold"
def annHealthCheckDownThreshold : String := "loadbalancer.k8s.thalassa.cloud/health-check-down-threshold"
def annAclAllowedSources : String := "loadbalancer.k8s.thalassa.cloud/acl-allowed-sources"
def annAclAllowedSourcesPort : String := "loadbalancer.k8s.thalassa.cloud/acl-port"
def annSecurityGroups : String := "loadbalancer.k8s.thalassa.cloud/security-groups"
def annCreateSecurityGroup : String := "loadbalancer.k8s.thalassa.cloud/create-security-group"

def DefaultIdleConnectionTimeout : Int := 6000
def DefaultMaxConnections : Int := 10000
def DefaultEnableProxyProtocol : Bool := false
def DefaultLoadbalancingPolicy : String := "ROUND_ROBIN"

def DefaultHealthCheckPath : String := "/healthz"
def DefaultHealthCheckTimeoutSeconds : Int := 5
def DefaultHealthCheckPeriodSeconds : Int := 10
def DefaultHealthCheckHealthyThreshold : Int := 2
def DefaultHealthCheckUnhealthyThreshold : Int := 3
def DefaultHealthCheckProtocol : String := "http"

/-! ## Annotation getters (loadbalancer_features.go)

Go returns (value, error) pairs; the second component records whether a
parse error occurred (the returned value is then the default). -/

def getStringAnn (svc : KService) (key defaultValue : String) : String × Bool :=
  match annGet svc key with
  | some val => (val, false)
  | none => (defaultValue, false)

def getIntAnn (svc : KService) (key : String) (defaultValue : Int) : Int × Bool :=
  match annGet svc key with
  | some val =>
    match goAtoi val with
    | some c => (c, false)
    | none => (defaultValue, true)
  | none => (defaultValue, false)

def getBoolAnn (svc : KService) (key : String) (defaultValue : Bool) : Bool × Bool :=
  match annGet svc key with
  | some val =>
    match goParseBool val with
    | some enabled => (enabled, false)
    | none => (defaultValue, true)
  | none => (defaultValue, false)

/-- Model of `GetLoadbalancingPolicy`: value of the annotation validated
against the three iaas policy constants; an invalid value yields
ROUND_ROBIN together with an error message. -/
def GetLoadbalancingPolicy (svc : KService) : String × Option String :=
  let policy := (getStringAnn svc annLoadbalancingPolicy DefaultLoadbalancingPolicy).1
  if policy = "ROUND_ROBIN" ∨ policy = "RANDOM" ∨ policy = "MAGLEV" then (policy, none)
  else ("ROUND_ROBIN",
    some ("invalid loadbalancing policy: " ++ policy ++
      ", must be one of: ROUND_ROBIN, RANDOM, MAGLEV"))

/-! ## Label scheme (loadbalancer_labels.go) -/

structure LBCfg where
  cluster : String
  vpcIdentity : String
  defaultSubnet : String
  additionalLabels : LabelMap
deriving Repr

def getLabelsForVpcLoadbalancer (cfg : LBCfg) (svc : KService) : LabelMap :=
  mergeIfAbsent
    [("k8s.thalassa.cloud/kubernetes-cluster", cfg.cluster),
     ("k8s.thalassa.cloud/cloud-provider-managed", "true"),
     ("k8s.thalassa.cloud/kubernetes-service-name", svc.name),
     ("k8s.thalassa.cloud/kubernetes-service-namespace", svc.ns),
     ("k8s.thalassa.cloud/kubernetes-service-uid", svc.uid)]
    cfg.additionalLabels

def getAnnotationsForVpcLoadbalancer (_cfg : LBCfg) (_svc : KService) : LabelMap :=
  []

def getLabelsForVpcLoadbalancerTargetGroup (cfg : LBCfg) (svc : KService)
    (port : Int) (protocol : String) : LabelMap :=
  mergeIfAbsent (getLabelsForVpcLoadbalancer cfg svc)
    [("k8s.thalassa.cloud/kubernetes-service-port", toString port),
     ("k8s.thalassa.cloud/kubernetes-service-protocol", lowerStr protocol)]

/-- Model of `cloudprovider.DefaultLoadBalancerName`: "a" plus the Service
UID with dashes removed, truncated to 32 characters. -/
def defaultLoadBalancerName (svc : KService) : String :=
  String.mk ((("a" ++ svc.uid).data.filter (fun c => c ≠ '-')).take 32)

def getPortName (lbName : String) (port : ServicePort) : String :=
  if port.name ≠ "" then lbName ++ "-" ++ port.name
  else lbName ++ "-" ++ lowerStr port.protocol ++ "-p" ++ toString port.port

/-! ## ACL parsing (loadbalancer_listeners.go) -/

/-- Model of `parseAclSources`: comma-split, trim, skip empty entries and
entries that are not valid CIDRs. -/
def parseAclSources (sourcesStr : String) : List String :=
  (splitStr sourcesStr ',').filterMap (fun source =>
    let source := trimStr source
    if source = "" then none
    else if (parseCIDR source).isSome then some source else none)

def removeDupAux (seen : List String) : List String → List String
  | [] => []
  | item :: rest =>
    if seen.contains item then removeDupAux seen rest
    else item :: removeDupAux (item :: seen) rest

/-- Model of `removeDuplicateStrings`: drop later duplicates, keeping the
first occurrence of each string. -/
def removeDuplicateStrings (input : List String) : List String :=
  removeDupAux [] input

def getPerPortAclAllowedSources (svc : KService) (port : ServicePort) : List String :=
  let fromName :=
    if port.name ≠ "" then
      match annGet svc (annAclAllowedSourcesPort ++ "-" ++ port.name) with
      | some val => parseAclSources val
      | none => []
    else []
  let fromNumber :=
    match annGet svc (annAclAllowedSourcesPort ++ "-" ++ toString port.port) with
    | some val => parseAclSources val
    | none => []
  removeDuplicateStrings (fromName ++ fromNumber)

/-! ## Cloud objects (the iaas fields the controller reads or writes) -/

structure ListenerTGRef where
  identity : String
  name : String
deriving DecidableEq, Repr

structure VpcLoadbalancerListener where
  identity : String
  name : String
  description : String
  port : Int
  protocol : String
  targetGroup : Option ListenerTGRef
  allowedSources : List String
  labels : LabelMap
  annotations : LabelMap
  connectionIdleTimeout : Option Nat
  maxConnections : Option Nat
deriving DecidableEq, Repr

structure BackendHealthCheck where
  port : Int
  protocol : String
  path : String
  timeoutSeconds : Int
  periodSeconds : Int
  healthyThreshold : Int
  unhealthyThreshold : Int
deriving DecidableEq, Repr

structure VpcLoadbalancerTargetGroup where
  identity : String
  name : String
  description : String
  protocol : String
  targetPort : Int
  labels : LabelMap
  annotations : LabelMap
  healthCheck : Option BackendHealthCheck
  enableProxyProtocol : Option Bool
  loadbalancingPolicy : Option String
  loadbalancerListeners : List String
  serverAttachments : List String
deriving DecidableEq, Repr

structure SecurityGroupRule where
  name : String
  ipVersion : String
  protocol : String
  priority : Int
  remoteType : String
  remoteAddress : Option String
  portRangeMin : Int
  portRangeMax : Int
  policy : String
deriving DecidableEq, Repr

/-! ## Desired-state builders -/

/-- Model of `desiredVpcLoadbalancerListener` (the ACL-combining version
of loadbalancer_listeners.go). -/
def desiredVpcLoadbalancerListener (cfg : LBCfg) (svc : KService) :
    List VpcLoadbalancerListener :=
  let globalAclAllowedSources :=
    match annGet svc annAclAllowedSources with
    | some val => parseAclSources val
    | none => []
  let connectionTimeout := (getIntAnn svc annIdleConnectionTimeout DefaultIdleConnectionTimeout).1
  let maxConnections := (getIntAnn svc annMaxConnections DefaultMaxConnections).1
  svc.ports.map (fun port =>
    let perPortAclAllowedSources := getPerPortAclAllowedSources svc port
    let combinedAclAllowedSources :=
      removeDuplicateStrings (globalAclAllowedSources ++ perPortAclAllowedSources)
    { identity := ""
      name := getPortName (defaultLoadBalancerName svc) port
      description := "Listener for Kubernetes service " ++ svc.name
      protocol := lowerStr port.protocol
      port := port.port
      targetGroup := some { identity := "", name := port.name }
      allowedSources := combinedAclAllowedSources
      labels := getLabelsForVpcLoadbalancerTargetGroup cfg svc port.port port.protocol
      annotations := getAnnotationsForVpcLoadbalancer cfg svc
      connectionIdleTimeout := some (toUInt32Model connectionTimeout)
      maxConnections := some (toUInt32Model maxConnections) })

/-- Model of `getDesiredVpcLoadbalancerTargetGroups`
(loadbalancer_targetgroups.go); the node list argument is unused in the
source and omitted here. -/
def getDesiredVpcLoadbalancerTargetGroups (cfg : LBCfg) (svc : KService) :
    Except String (List VpcLoadbalancerTargetGroup) :=
  let enableProxyProtocol := (getBoolAnn svc annEnableProxyProtocol DefaultEnableProxyProtocol).1
  match GetLoadbalancingPolicy svc with
  | (_, some e) => Except.error e
  | (loadbalancingPolicy, none) =>
    let healthCheckEnabled := (getBoolAnn svc annHealthCheckEnabled false).1
    let healthCheckPath := (getStringAnn svc annHealthCheckPath DefaultHealthCheckPath).1
    let healthCheckPort := (getIntAnn svc annHealthCheckPort (-1)).1
    let healthCheckProtocol := (getStringAnn svc annHealthCheckProtocol DefaultHealthCheckProtocol).1
    let healthCheckTimeoutSeconds := (getIntAnn svc annHealthCheckTimeout DefaultHealthCheckTimeoutSeconds).1
    let healthCheckPeriodSeconds := (getIntAnn svc annHealthCheckInterval DefaultHealthCheckPeriodSeconds).1
    let healthCheckHealthyThreshold := (getIntAnn svc annHealthCheckUpThreshold DefaultHealthCheckHealthyThreshold).1
    let healthCheckUnhealthyThreshold := (getIntAnn svc annHealthCheckDownThreshold DefaultHealthCheckUnhealthyThreshold).1
    let lbName := defaultLoadBalancerName svc
    Except.ok (svc.ports.map (fun svcPort =>
      let backend : VpcLoadbalancerTargetGroup :=
        { identity := ""
          name := getPortName lbName svcPort
          description := ""
          targetPort := svcPort.nodePort
          protocol := lowerStr svcPort.protocol
          labels := getLabelsForVpcLoadbalancerTargetGroup cfg svc svcPort.port svcPort.protocol
          annotations := []
          healthCheck := none
          enableProxyProtocol := some enableProxyProtocol
          loadbalancingPolicy := some loadbalancingPolicy
          loadbalancerListeners := []
          serverAttachments := [] }
      if svc.healthCheckNodePort > 0 then
        let port := if healthCheckPort > 0 then toInt32Model healthCheckPort
                    else svc.healthCheckNodePort
        let hc : BackendHealthCheck :=
          { port := port
            protocol := "http"
            path := healthCheckPath
            timeoutSeconds := healthCheckTimeoutSeconds
            periodSeconds := healthCheckPeriodSeconds
            healthyThreshold := toInt32Model healthCheckHealthyThreshold
            unhealthyThreshold := toInt32Model healthCheckUnhealthyThreshold }
        { backend with healthCheck := some hc }
      else if healthCheckPort ≠ -1 ∧ healthCheckEnabled then
        let hc : BackendHealthCheck :=
          { port := toInt32Model healthCheckPort
            protocol := healthCheckProtocol
            path := healthCheckPath
            timeoutSeconds := healthCheckTimeoutSeconds
            periodSeconds := healthCheckPeriodSeconds
            healthyThreshold := toInt32Model healthCheckHealthyThreshold
            unhealthyThreshold := toInt32Model healthCheckUnhealthyThreshold }
        { backend with healthCheck := some hc }
      else backend))

/-- Model of `buildIngressRulesFromListeners` (loadbalancer.go).  The
priority variable is initialised to 100 and never incremented in the
source, so every rule carries priority 100. -/
def buildIngressRulesFromListeners (listeners : List VpcLoadbalancerListener) :
    List SecurityGroupRule :=
  let priority : Int := 100
  (listeners.map (fun l =>
    l.allowedSources.map (fun src =>
      let ipVer :=
        match parseCIDR src with
        | some network => if (ipTo4 network).isNone then "ipv6" else "ipv4"
        | none => "ipv4"
      let proto := if lowerStr l.protocol = "udp" then "udp" else "tcp"
      ({ name := lowerStr l.protocol ++ "-" ++ toString l.port
         ipVersion := ipVer
         protocol := proto
         priority := priority
         remoteType := "address"
         remoteAddress := some src
         portRangeMin := toInt32Model l.port
         portRangeMax := toInt32Model l.port
         policy := "allow" } : SecurityGroupRule)))).flatten

/-- The fixed egress rules of `ensureManagedSecurityGroup`. -/
def managedEgressRules : List SecurityGroupRule :=
  [{ name := "allow-all-outbound", ipVersion := "ipv4", protocol := "all",
     priority := 100, remoteType := "address", remoteAddress := some "0.0.0.0/0",
     portRangeMin := 0, portRangeMax := 0, policy := "" },
   { name := "allow-all-outbound", ipVersion := "ipv6", protocol := "all",
     priority := 110, remoteType := "address", remoteAddress := some "::/0",
     portRangeMin := 0, portRangeMax := 0, policy := "" }]

/-! ## Node filter (nodefilter.go) -/

def listSlicesForService (slices : List KEndpointSlice) (svc : KService) :
    List KEndpointSlice :=
  slices.filter (fun sl => sl.ns = svc.ns ∧ sl.serviceNameLabel = some svc.name)

/-- The node names collected by `NodeFilter.Filter`: every endpoint with a
node name, ready not explicitly false, terminating not explicitly true. -/
def readyNodeNames (slices : List KEndpointSlice) : List String :=
  (slices.map (fun sl => sl.endpoints.filterMap (fun ep =>
    match ep.nodeName with
    | none => none
    | some nm =>
      if ep.ready = some false then none
      else if ep.terminating = some true then none
      else some nm))).flatten

/-- Model of `NodeFilter.Filter`. -/
def nodeFilterFilter (slices : List KEndpointSlice) (svc : KService)
    (nodes : List KNode) : List KNode :=
  if svc.trafficPolicy ≠ "Local" then nodes
  else
    let matched := listSlicesForService slices svc
    if matched.isEmpty then nodes
    else
      let readyNodes := readyNodeNames matched
      if readyNodes.isEmpty then nodes
      else nodes.filter (fun n => readyNodes.contains n.name)

/-! ## Endpoint-slice watcher (endpointslices.go) -/

def getServiceKeyFromEndpointSlice (sl : KEndpointSlice) : String :=
  match sl.serviceNameLabel with
  | none => ""
  | some serviceName => sl.ns ++ "/" ++ serviceName

/-- The set of node names contributing ready endpoints, as collected by
`hasNodeAssignmentChanged` (a Go map; modelled as a first-occurrence
deduplicated list, whose length is the map cardinality). -/
def sliceReadyNodeSet (sl : KEndpointSlice) : List String :=
  sl.endpoints.foldl (fun acc ep =>
    match ep.nodeName, ep.ready with
    | some nm, some r => if r ∧ ¬ acc.contains nm then acc ++ [nm] else acc
    | _, _ => acc) []

def hasNodeAssignmentChanged (oldSl newSl : KEndpointSlice) : Bool :=
  let oldNodes := sliceReadyNodeSet oldSl
  let newNodes := sliceReadyNodeSet newSl
  if oldNodes.length ≠ newNodes.length then true
  else oldNodes.any (fun nodeName => ¬ newNodes.contains nodeName)

/-- Model of `handleEndpointSliceUpdate`: returns whether the resync
callback is invoked for the owning Service. -/
def handleEndpointSliceUpdate (tracked : List String)
    (oldSl newSl : KEndpointSlice) : Bool :=
  let serviceKey := getServiceKeyFromEndpointSlice newSl
  if serviceKey = "" then false
  else if ¬ tracked.contains serviceKey then false
  else hasNodeAssignmentChanged oldSl newSl

/-! ## Cloud state and cloud-API requests

Modelled from the spec: the iaas client is an external collaborator with
typed list/get/create/update/delete calls per kind plus a target-group
attachment batch replace (spec section 6).  The model keeps all objects of
the tenant VPC in one record, gives created objects fresh identities from
a counter, and makes every call total (the remote-error branches of the
source are unreachable in the model).  The cloud is modelled as instantly
converged: a created load balancer is immediately "ready" and carries the
state's provisioning IPs, so the source's poll loops reduce to a single
check. -/

structure VpcLoadbalancer where
  identity : String
  name : String
  description : String
  labels : LabelMap
  annotations : LabelMap
  subnetIdentity : String
  internal : Bool
  securityGroups : List String
  deleteProtection : Bool
  status : String
  ipAddresses : List String
  hostname : String
deriving DecidableEq, Repr

structure SecurityGroup where
  identity : String
  name : String
  description : String
  labels : LabelMap
  annotations : LabelMap
  objectVersion : Int
  allowSameGroupTraffic : Bool
  ingressRules : List SecurityGroupRule
  egressRules : List SecurityGroupRule
deriving DecidableEq, Repr

structure Subnet where
  identity : String
  slug : String
deriving DecidableEq, Repr

structure CreateLoadbalancerReq where
  name : String
  description : String
  labels : LabelMap
  annotations : LabelMap
  subnet : String
  internalLoadbalancer : Bool
  securityGroupAttachments : List String
deriving DecidableEq, Repr

/-- The update request of `iaas.UpdateLoadbalancer` as used by the source:
it carries no internal flag (spec: the internal flag, once set, is never
updated). -/
structure UpdateLoadbalancerReq where
  name : String
  description : String
  labels : LabelMap
  annotations : LabelMap
  subnet : Option String
  deleteProtection : Bool
  securityGroupAttachments : List String
deriving DecidableEq, Repr

structure CreateTargetGroupReq where
  vpc : String
  name : String
  description : String
  protocol : String
  targetPort : Int
  labels : LabelMap
  annotations : LabelMap
  healthCheck : Option BackendHealthCheck
  enableProxyProtocol : Option Bool
  loadbalancingPolicy : Option String
deriving DecidableEq, Repr

structure UpdateTargetGroupReq where
  name : String
  description : String
  protocol : String
  targetPort : Int
  labels : LabelMap
  annotations : LabelMap
  healthCheck : Option BackendHealthCheck
  enableProxyProtocol : Option Bool
  loadbalancingPolicy : Option String
deriving DecidableEq, Repr

structure CreateListenerReq where
  name : String
  description : String
  labels : LabelMap
  annotations : LabelMap
  port : Int
  protocol : String
  targetGroup : String
  allowedSources : List String
  connectionIdleTimeout : Option Nat
  maxConnections : Option Nat
deriving DecidableEq, Repr

structure UpdateListenerReq where
  name : String
  description : String
  labels : LabelMap
  annotations : LabelMap
  port : Int
  protocol : String
  targetGroup : String
  allowedSources : List String
  connectionIdleTimeout : Option Nat
  maxConnections : Option Nat
deriving DecidableEq, Repr

structure CreateSecurityGroupReq where
  name : String
  description : String
  labels : LabelMap
  annotations : LabelMap
  vpcIdentity : String
  allowSameGroupTraffic : Bool
  ingressRules : List SecurityGroupRule
  egressRules : List SecurityGroupRule
deriving DecidableEq, Repr

structure UpdateSecurityGroupReq where
  name : String
  description : String
  labels : LabelMap
  annotations : LabelMap
  objectVersion : Int
  allowSameGroupTraffic : Bool
  ingressRules : List SecurityGroupRule
  egressRules : List SecurityGroupRule
deriving DecidableEq, Repr

/-- Every cloud-API call the reconcile engine can make, with the payloads
of the mutating ones. -/
inductive CloudCall where
  | listLoadbalancers
  | getVpc
  | listListeners (lbId : String)
  | listTargetGroups
  | listSecurityGroups
  | createLoadbalancer (req : CreateLoadbalancerReq)
  | updateLoadbalancer (lbId : String) (req : UpdateLoadbalancerReq)
  | deleteLoadbalancer (lbId : String)
  | createTargetGroup (req : CreateTargetGroupReq)
  | updateTargetGroup (tgId : String) (req : UpdateTargetGroupReq)
  | deleteTargetGroup (tgId : String)
  | setTargetGroupAttachments (tgId : String) (servers : List String)
  | createListener (lbId : String) (req : CreateListenerReq)
  | updateListener (lbId : String) (listenerId : String) (req : UpdateListenerReq)
  | deleteListener (lbId : String) (listenerId : String)
  | createSecurityGroup (req : CreateSecurityGroupReq)
  | updateSecurityGroup (sgId : String) (req : UpdateSecurityGroupReq)
  | deleteSecurityGroup (sgId : String)
deriving DecidableEq, Repr

def CloudCall.isMutation : CloudCall → Bool
  | .listLoadbalancers | .getVpc | .listListeners _
  | .listTargetGroups | .listSecurityGroups => false
  | _ => true

def CloudCall.isCreateOrDelete : CloudCall → Bool
  | .createLoadbalancer _ | .deleteLoadbalancer _
  | .createTargetGroup _ | .deleteTargetGroup _
  | .createListener _ _ | .deleteListener _ _
  | .createSecurityGroup _ | .deleteSecurityGroup _ => true
  | _ => false

structure CloudState where
  subnets : List Subnet
  lbs : List VpcLoadbalancer
  tgs : List VpcLoadbalancerTargetGroup
  listeners : List (String × VpcLoadbalancerListener)
  sgs : List SecurityGroup
  provisionIps : List String
  provisionHostname : String
  nextId : Nat
deriving Repr

/-- Fresh identities are distinct strings generated from the counter;
`freshIdentity n` has length `n + 1`, so it differs from every identity of
bounded length already in the state. -/
def freshIdentity (n : Nat) : String :=
  String.mk (List.replicate (n + 1) 'i')

def CloudState.usedIds (st : CloudState) : List String :=
  st.lbs.map (fun lb => lb.identity) ++ st.tgs.map (fun tg => tg.identity) ++
  st.listeners.map (fun p => p.1) ++ st.listeners.map (fun p => p.2.identity) ++
  st.sgs.map (fun sg => sg.identity)

/-- Well-formedness of a cloud state: all identities are shorter than the
next fresh identity, target groups carry the nonempty identities the
cloud assigns, and the cloud never hands out the same identity to two
target groups or to two listeners. -/
def CloudState.wf (st : CloudState) : Prop :=
  (∀ s ∈ st.usedIds, s.length ≤ st.nextId) ∧ (∀ tg ∈ st.tgs, tg.identity ≠ "") ∧
  (st.tgs.map (fun tg => tg.identity)).Nodup ∧
  (st.listeners.map (fun p => p.2.identity)).Nodup

/-! ### Cloud-API call effects -/

def applyCreateLB (st : CloudState) (req : CreateLoadbalancerReq) :
    VpcLoadbalancer × CloudState :=
  let lb : VpcLoadbalancer :=
    { identity := freshIdentity st.nextId
      name := req.name
      description := req.description
      labels := req.labels
      annotations := req.annotations
      subnetIdentity := req.subnet
      internal := req.internalLoadbalancer
      securityGroups := req.securityGroupAttachments
      deleteProtection := false
      status := "ready"
      ipAddresses := st.provisionIps
      hostname := st.provisionHostname }
  (lb, { st with lbs := st.lbs ++ [lb], nextId := st.nextId + 1 })

def applyUpdateLB (st : CloudState) (id : String) (req : UpdateLoadbalancerReq) :
    CloudState :=
  { st with lbs := st.lbs.map (fun lb =>
      if lb.identity = id then
        { lb with
          name := req.name
          description := req.description
          labels := req.labels
          annotations := req.annotations
          subnetIdentity := req.subnet.getD lb.subnetIdentity
          deleteProtection := req.deleteProtection
          securityGroups := req.securityGroupAttachments }
      else lb) }

/-- Deleting a load balancer also deletes its listeners (the cloud owns
listeners through the balancer), releasing their target-group
back-references. -/
def applyDeleteLB (st : CloudState) (id : String) : CloudState :=
  let goneListeners := (st.listeners.filter (fun p => p.1 = id)).map (fun p => p.2.identity)
  { st with
    lbs := st.lbs.filter (fun lb => lb.identity ≠ id)
    listeners := st.listeners.filter (fun p => p.1 ≠ id)
    tgs := st.tgs.map (fun tg =>
      { tg with loadbalancerListeners :=
          tg.loadbalancerListeners.filter (fun lid => ¬ goneListeners.contains lid) }) }

def applyCreateTG (st : CloudState) (req : CreateTargetGroupReq) :
    VpcLoadbalancerTargetGroup × CloudState :=
  let tg : VpcLoadbalancerTargetGroup :=
    { identity := freshIdentity st.nextId
      name := req.name
      description := req.description
      protocol := req.protocol
      targetPort := req.targetPort
      labels := req.labels
      annotations := req.annotations
      healthCheck := req.healthCheck
      enableProxyProtocol := req.enableProxyProtocol
      loadbalancingPolicy := req.loadbalancingPolicy
      loadbalancerListeners := []
      serverAttachments := [] }
  (tg, { st with tgs := st.tgs ++ [tg], nextId := st.nextId + 1 })

def tgApplyUpdate (tg : VpcLoadbalancerTargetGroup) (req : UpdateTargetGroupReq) :
    VpcLoadbalancerTargetGroup :=
  { tg with
    name := req.name
    description := req.description
    protocol := req.protocol
    targetPort := req.targetPort
    labels := req.labels
    annotations := req.annotations
    healthCheck := req.healthCheck
    enableProxyProtocol := req.enableProxyProtocol
    loadbalancingPolicy := req.loadbalancingPolicy }

def emptyTG : VpcLoadbalancerTargetGroup :=
  { identity := "", name := "", description := "", protocol := "", targetPort := 0,
    labels := [], annotations := [], healthCheck := none, enableProxyProtocol := none,
    loadbalancingPolicy := none, loadbalancerListeners := [], serverAttachments := [] }

def applyUpdateTG (st : CloudState) (id : String) (req : UpdateTargetGroupReq) :
    VpcLoadbalancerTargetGroup × CloudState :=
  let st2 := { st with tgs := st.tgs.map (fun tg =>
    if tg.identity = id then tgApplyUpdate tg req else tg) }
  (((st2.tgs.find? (fun tg => tg.identity = id)).getD emptyTG), st2)

def applyDeleteTG (st : CloudState) (id : String) : CloudState :=
  { st with tgs := st.tgs.filter (fun tg => tg.identity ≠ id) }

def applySetTGAttachments (st : CloudState) (id : String) (servers : List String) :
    CloudState :=
  { st with tgs := st.tgs.map (fun tg =>
      if tg.identity = id then { tg with serverAttachments := servers } else tg) }

def applyCreateListener (st : CloudState) (lbId : String) (req : CreateListenerReq) :
    CloudState :=
  let newId := freshIdentity st.nextId
  let tgName := ((st.tgs.find? (fun tg => tg.identity = req.targetGroup)).map
    (fun tg => tg.name)).getD ""
  let l : VpcLoadbalancerListener :=
    { identity := newId
      name := req.name
      description := req.description
      port := req.port
      protocol := req.protocol
      targetGroup := some { identity := req.targetGroup, name := tgName }
      allowedSources := req.allowedSources
      labels := req.labels
      annotations := req.annotations
      connectionIdleTimeout := req.connectionIdleTimeout
      maxConnections := req.maxConnections }
  { st with
    listeners := st.listeners ++ [(lbId, l)]
    tgs := st.tgs.map (fun tg =>
      if tg.identity = req.targetGroup then
        { tg with loadbalancerListeners := tg.loadbalancerListeners ++ [newId] }
      else tg)
    nextId := st.nextId + 1 }

/-- Listener update replaces the listener's fields; the listener
back-references held by target groups are not re-derived on update. -/
def applyUpdateListener (st : CloudState) (lbId listenerId : String)
    (req : UpdateListenerReq) : CloudState :=
  let tgName := ((st.tgs.find? (fun tg => tg.identity = req.targetGroup)).map
    (fun tg => tg.name)).getD ""
  { st with listeners := st.listeners.map (fun p =>
      if p.1 = lbId ∧ p.2.identity = listenerId then
        (p.1, { p.2 with
          name := req.name
          description := req.description
          port := req.port
          protocol := req.protocol
          targetGroup := some { identity := req.targetGroup, name := tgName }
          allowedSources := req.allowedSources
          labels := req.labels
          annotations := req.annotations
          connectionIdleTimeout := req.connectionIdleTimeout
          maxConnections := req.maxConnections })
      else p) }

def applyDeleteListener (st : CloudState) (lbId listenerId : String) : CloudState :=
  { st with
    listeners := st.listeners.filter (fun p => ¬(p.1 = lbId ∧ p.2.identity = listenerId))
    tgs := st.tgs.map (fun tg =>
      { tg with loadbalancerListeners :=
          tg.loadbalancerListeners.filter (fun lid => lid ≠ listenerId) }) }

def applyCreateSG (st : CloudState) (req : CreateSecurityGroupReq) :
    SecurityGroup × CloudState :=
  let sg : SecurityGroup :=
    { identity := freshIdentity st.nextId
      name := req.name
      description := req.description
      labels := req.labels
      annotations := req.annotations
      objectVersion := 0
      allowSameGroupTraffic := req.allowSameGroupTraffic
      ingressRules := req.ingressRules
      egressRules := req.egressRules }
  (sg, { st with sgs := st.sgs ++ [sg], nextId := st.nextId + 1 })

def sgApplyUpdate (sg : SecurityGroup) (req : UpdateSecurityGroupReq) : SecurityGroup :=
  { sg with
    name := req.name
    description := req.description
    labels := req.labels
    annotations := req.annotations
    allowSameGroupTraffic := req.allowSameGroupTraffic
    ingressRules := req.ingressRules
    egressRules := req.egressRules
    objectVersion := sg.objectVersion + 1 }

def emptySG : SecurityGroup :=
  { identity := "", name := "", description := "", labels := [], annotations := [],
    objectVersion := 0, allowSameGroupTraffic := false, ingressRules := [],
    egressRules := [] }

def applyUpdateSG (st : CloudState) (id : String) (req : UpdateSecurityGroupReq) :
    SecurityGroup × CloudState :=
  let st2 := { st with sgs := st.sgs.map (fun sg =>
    if sg.identity = id then sgApplyUpdate sg req else sg) }
  (((st2.sgs.find? (fun sg => sg.identity = id)).getD emptySG), st2)

def applyDeleteSG (st : CloudState) (id : String) : CloudState :=
  { st with sgs := st.sgs.filter (fun sg => sg.identity ≠ id) }

/-! ### Cloud-API list calls -/

def listLoadbalancersInVpc (st : CloudState) : List VpcLoadbalancer :=
  st.lbs

def listListenersOf (st : CloudState) (lbId : String) : List VpcLoadbalancerListener :=
  (st.listeners.filter (fun p => p.1 = lbId)).map (fun p => p.2)

def listTargetGroupsByLabels (st : CloudState) (lbls : LabelMap) :
    List VpcLoadbalancerTargetGroup :=
  st.tgs.filter (fun tg => matchLabels lbls tg.labels)

def listSecurityGroupsInVpc (st : CloudState) : List SecurityGroup :=
  st.sgs

def listSecurityGroupsByLabels (st : CloudState) (lbls : LabelMap) :
    List SecurityGroup :=
  st.sgs.filter (fun sg => matchLabels lbls sg.labels)

/-! ## The reconcile engine (loadbalancer.go, loadbalancer_listeners.go,
loadbalancer_targetgroups.go)

Each function returns its result together with the successor cloud state
and the list of cloud-API calls it performed, in order.  Go loops that
abort on a remote error become plain recursions: the modelled cloud never
fails, so those branches are unreachable. -/

/-- Model of `fetchVpcLoadbalancerFromCloud`: list the VPC's load
balancers, return the first whose labels contain the canonical labels,
falling back to the first whose name is the computed name. -/
def fetchVpcLoadbalancerFromCloud (cfg : LBCfg) (svc : KService) (st : CloudState) :
    Option VpcLoadbalancer × List CloudCall :=
  let loadbalancersInVpc := listLoadbalancersInVpc st
  let result :=
    if loadbalancersInVpc.isEmpty then none
    else
      let lbls := getLabelsForVpcLoadbalancer cfg svc
      match loadbalancersInVpc.find? (fun lb => matchLabels lbls lb.labels) with
      | some lb => some lb
      | none =>
        let lbName := defaultLoadBalancerName svc
        loadbalancersInVpc.find? (fun lb => lb.name = lbName)
  (result, [CloudCall.listLoadbalancers])

/-- Model of `getTargetGroupIdentityForListener`: first target group whose
labels contain the desired port/protocol labels, or "" when none match. -/
def getTargetGroupIdentityForListener (cfg : LBCfg) (svc : KService)
    (listener : VpcLoadbalancerListener)
    (targetGroups : List VpcLoadbalancerTargetGroup) : String :=
  let desiredLabels := getLabelsForVpcLoadbalancerTargetGroup cfg svc listener.port listener.protocol
  match targetGroups.find? (fun tg => matchLabels desiredLabels tg.labels) with
  | some tg => tg.identity
  | none => ""

/-- The `%s:%d` map key of target-group reconciliation. -/
def tgKey (tg : VpcLoadbalancerTargetGroup) : String :=
  tg.protocol ++ ":" ++ toString tg.targetPort

def hasTgKey (l : List VpcLoadbalancerTargetGroup) (k : String) : Bool :=
  l.any (fun tg => tgKey tg = k)

/-- Go map built by inserting in list order: a lookup returns the last
element with the key. -/
def lastWithKey (l : List VpcLoadbalancerTargetGroup) (k : String) :
    Option VpcLoadbalancerTargetGroup :=
  l.foldl (fun acc tg => if tgKey tg = k then some tg else acc) none

/-- Model of `upgradeTargetGroupAttachments`: parse `provider://id` node
provider IDs (skipping malformed ones) and batch-replace the target
group's attachments. -/
def upgradeTargetGroupAttachments (tg : VpcLoadbalancerTargetGroup)
    (nodes : List KNode) (st : CloudState) : CloudState × List CloudCall :=
  let attachments := nodes.filterMap (fun node =>
    let providerId := node.providerID
    if providerId = "" then none
    else
      let providerIdParts := splitStrOn providerId "://"
      if providerIdParts.length ≠ 2 then none
      else some (providerIdParts.getD 1 ""))
  (applySetTGAttachments st tg.identity attachments,
   [CloudCall.setTargetGroupAttachments tg.identity attachments])

/-- The create-missing loop of `createOrUpdateTargetGroups`, iterating the
desired target groups against the snapshot of existing keys. -/
def createMissingTGs (cfg : LBCfg) (nodes : List KNode)
    (existing : List VpcLoadbalancerTargetGroup) :
    List VpcLoadbalancerTargetGroup → CloudState →
    List VpcLoadbalancerTargetGroup × CloudState × List CloudCall
  | [], st => ([], st, [])
  | targetGroup :: rest, st =>
    if hasTgKey existing (tgKey targetGroup) then
      createMissingTGs cfg nodes existing rest st
    else
      let req : CreateTargetGroupReq :=
        { vpc := cfg.vpcIdentity
          name := targetGroup.name
          description := targetGroup.description
          protocol := targetGroup.protocol
          targetPort := targetGroup.targetPort
          labels := targetGroup.labels
          annotations := targetGroup.annotations
          healthCheck := targetGroup.healthCheck
          enableProxyProtocol := targetGroup.enableProxyProtocol
          loadbalancingPolicy := targetGroup.loadbalancingPolicy }
      let c := applyCreateTG st req
      let a := upgradeTargetGroupAttachments c.1 nodes c.2
      let r := createMissingTGs cfg nodes existing rest a.1
      (c.1 :: r.1, r.2.1, CloudCall.createTargetGroup req :: (a.2 ++ r.2.2))

/-- The update loop of `createOrUpdateTargetGroups`, iterating the
existing target groups; ones whose key is not desired, or whose identity
is empty, are skipped. -/
def updateExistingTGs (nodes : List KNode)
    (desired : List VpcLoadbalancerTargetGroup) :
    List VpcLoadbalancerTargetGroup → CloudState →
    List VpcLoadbalancerTargetGroup × CloudState × List CloudCall
  | [], st => ([], st, [])
  | targetGroup :: rest, st =>
    match lastWithKey desired (tgKey targetGroup) with
    | none => updateExistingTGs nodes desired rest st
    | some desiredTargetGroup =>
      if targetGroup.identity = "" then updateExistingTGs nodes desired rest st
      else
        let req : UpdateTargetGroupReq :=
          { name := desiredTargetGroup.name
            description := desiredTargetGroup.description
            protocol := desiredTargetGroup.protocol
            targetPort := desiredTargetGroup.targetPort
            labels := desiredTargetGroup.labels
            annotations := desiredTargetGroup.annotations
            healthCheck := desiredTargetGroup.healthCheck
            enableProxyProtocol := desiredTargetGroup.enableProxyProtocol
            loadbalancingPolicy := desiredTargetGroup.loadbalancingPolicy }
        let u := applyUpdateTG st targetGroup.identity req
        let a := upgradeTargetGroupAttachments u.1 nodes u.2
        let r := updateExistingTGs nodes desired rest a.1
        (u.1 :: r.1, r.2.1, CloudCall.updateTargetGroup targetGroup.identity req :: (a.2 ++ r.2.2))

/-- Model of `createOrUpdateTargetGroups`: list the service's target
groups once, create the desired ones whose key is absent, then update the
existing ones whose key is desired, setting attachments after each. -/
def createOrUpdateTargetGroups (cfg : LBCfg) (svc : KService)
    (desiredTargetGroups : List VpcLoadbalancerTargetGroup)
    (nodes : List KNode) (st : CloudState) :
    List VpcLoadbalancerTargetGroup × CloudState × List CloudCall :=
  let existingTargetGroups := listTargetGroupsByLabels st (getLabelsForVpcLoadbalancer cfg svc)
  let c := createMissingTGs cfg nodes existingTargetGroups desiredTargetGroups st
  let u := updateExistingTGs nodes desiredTargetGroups existingTargetGroups c.2.1
  (c.1 ++ u.1, u.2.1, CloudCall.listTargetGroups :: (c.2.2 ++ u.2.2))

/-- The listener port maps of `updateVpcLoadbalancerListener` (Go maps;
the last listener with a port wins). -/
def portMapLookup (l : List VpcLoadbalancerListener) (port : Int) :
    Option VpcLoadbalancerListener :=
  l.foldl (fun acc x => if x.port = port then some x else acc) none

def portMapHas (l : List VpcLoadbalancerListener) (port : Int) : Bool :=
  l.any (fun x => x.port = port)

/-- The delete-or-update loop of `updateVpcLoadbalancerListener` over the
existing listeners: a listener whose port is not desired is deleted; one
whose port is desired is updated in place to the desired listener, unless
no target-group identity resolves (then it is skipped with a warning). -/
def deleteOrUpdateListeners (cfg : LBCfg) (svc : KService) (lb : VpcLoadbalancer)
    (desiredListeners : List VpcLoadbalancerListener)
    (targetGroups : List VpcLoadbalancerTargetGroup) :
    List VpcLoadbalancerListener → CloudState → CloudState × List CloudCall
  | [], st => (st, [])
  | listener :: rest, st =>
    match portMapLookup desiredListeners listener.port with
    | none =>
      let st1 := applyDeleteListener st lb.identity listener.identity
      let r := deleteOrUpdateListeners cfg svc lb desiredListeners targetGroups rest st1
      (r.1, CloudCall.deleteListener lb.identity listener.identity :: r.2)
    | some listenerToUpdate =>
      let targetGroupIdentity := getTargetGroupIdentityForListener cfg svc listenerToUpdate targetGroups
      if targetGroupIdentity = "" then
        deleteOrUpdateListeners cfg svc lb desiredListeners targetGroups rest st
      else
        let req : UpdateListenerReq :=
          { name := listenerToUpdate.name
            description := listenerToUpdate.description
            labels := listenerToUpdate.labels
            annotations := listenerToUpdate.annotations
            port := listenerToUpdate.port
            protocol := listenerToUpdate.protocol
            targetGroup := targetGroupIdentity
            connectionIdleTimeout := listenerToUpdate.connectionIdleTimeout
            maxConnections := listenerToUpdate.maxConnections
            allowedSources := listenerToUpdate.allowedSources }
        let st1 := applyUpdateListener st lb.identity listener.identity req
        let r := deleteOrUpdateListeners cfg svc lb desiredListeners targetGroups rest st1
        (r.1, CloudCall.updateListener lb.identity listener.identity req :: r.2)

/-- The create loop of `updateVpcLoadbalancerListener` over the desired
listeners, checked against the snapshot of existing ports. -/
def createMissingListeners (cfg : LBCfg) (svc : KService) (lb : VpcLoadbalancer)
    (existingSnapshot : List VpcLoadbalancerListener)
    (targetGroups : List VpcLoadbalancerTargetGroup) :
    List VpcLoadbalancerListener → CloudState → CloudState × List CloudCall
  | [], st => (st, [])
  | listener :: rest, st =>
    if portMapHas existingSnapshot listener.port then
      createMissingListeners cfg svc lb existingSnapshot targetGroups rest st
    else
      let targetGroupIdentity := getTargetGroupIdentityForListener cfg svc listener targetGroups
      if targetGroupIdentity = "" then
        createMissingListeners cfg svc lb existingSnapshot targetGroups rest st
      else
        let req : CreateListenerReq :=
          { name := listener.name
            description := listener.description
            labels := listener.labels
            annotations := listener.annotations
            port := listener.port
            protocol := listener.protocol
            targetGroup := targetGroupIdentity
            allowedSources := listener.allowedSources
            connectionIdleTimeout := listener.connectionIdleTimeout
            maxConnections := listener.maxConnections }
        let st1 := applyCreateListener st lb.identity req
        let r := createMissingListeners cfg svc lb existingSnapshot targetGroups rest st1
        (r.1, CloudCall.createListener lb.identity req :: r.2)

/-- Model of `updateVpcLoadbalancerListener`: list the load balancer's
listeners; when the desired and existing lists are not deeply equal, walk
the existing listeners deleting stale ones and updating the rest; then
create every desired listener whose port was absent from the listing. -/
def updateVpcLoadbalancerListener (cfg : LBCfg) (svc : KService)
    (lb : VpcLoadbalancer) (desiredListeners : List VpcLoadbalancerListener)
    (targetGroups : List VpcLoadbalancerTargetGroup) (st : CloudState) :
    CloudState × List CloudCall :=
  let existingListenersForLoadBalancer := listListenersOf st lb.identity
  let d :=
    if desiredListeners ≠ existingListenersForLoadBalancer then
      deleteOrUpdateListeners cfg svc lb desiredListeners targetGroups
        existingListenersForLoadBalancer st
    else (st, [])
  let c :=
    createMissingListeners cfg svc lb existingListenersForLoadBalancer targetGroups
      desiredListeners d.1
  (c.1, CloudCall.listListeners lb.identity :: (d.2 ++ c.2))

/-- The deletion loop of `cleanupUnusedTargetGroups`: a target group with
attached listeners is skipped; one whose key is not desired is deleted. -/
def cleanupTGsLoop (desiredTargetGroups : List VpcLoadbalancerTargetGroup) :
    List VpcLoadbalancerTargetGroup → CloudState → CloudState × List CloudCall
  | [], st => (st, [])
  | targetGroup :: rest, st =>
    if ¬ targetGroup.loadbalancerListeners.isEmpty then
      cleanupTGsLoop desiredTargetGroups rest st
    else if ¬ hasTgKey desiredTargetGroups (tgKey targetGroup) then
      let st1 := applyDeleteTG st targetGroup.identity
      let r := cleanupTGsLoop desiredTargetGroups rest st1
      (r.1, CloudCall.deleteTargetGroup targetGroup.identity :: r.2)
    else
      cleanupTGsLoop desiredTargetGroups rest st

/-- Model of `cleanupUnusedTargetGroups`. -/
def cleanupUnusedTargetGroups (cfg : LBCfg) (svc : KService)
    (desiredTargetGroups : List VpcLoadbalancerTargetGroup) (st : CloudState) :
    CloudState × List CloudCall :=
  let existingTargetGroups := listTargetGroupsByLabels st (getLabelsForVpcLoadbalancer cfg svc)
  let r := cleanupTGsLoop desiredTargetGroups existingTargetGroups st
  (r.1, CloudCall.listTargetGroups :: r.2)

def getSecurityGroupsForService (svc : KService) : List String :=
  match annGet svc annSecurityGroups with
  | some val => splitStr val ','
  | none => []

def shouldCreateSecurityGroup (svc : KService) : Bool :=
  match annGet svc annCreateSecurityGroup with
  | some val => (goParseBool val).getD false
  | none => false

def getSubnetIdentityForService (cfg : LBCfg) (svc : KService) : String :=
  match annGet svc annSubnetID with
  | some val => if val ≠ "" then val else cfg.defaultSubnet
  | none => cfg.defaultSubnet

/-- Model of `verifySecurityGroupsExist`: with no requested groups, no
call is made; otherwise the VPC's groups are listed and the first
requested identity not present yields an error. -/
def verifySecurityGroupsExist (cfg : LBCfg) (securityGroups : List String)
    (st : CloudState) : Except String Unit × List CloudCall :=
  if securityGroups.isEmpty then (Except.ok (), [])
  else
    let securityGroupsInVpc := listSecurityGroupsInVpc st
    match securityGroups.find? (fun sgId =>
      ¬ securityGroupsInVpc.any (fun s => s.identity = sgId)) with
    | some missing =>
      (Except.error ("security group " ++ missing ++ " does not exist in vpc " ++ cfg.vpcIdentity),
       [CloudCall.listSecurityGroups])
    | none => (Except.ok (), [CloudCall.listSecurityGroups])

/-- Model of `findManagedSecurityGroup`. -/
def findManagedSecurityGroup (cfg : LBCfg) (svc : KService) (st : CloudState) :
    Option SecurityGroup × List CloudCall :=
  let lbls := getLabelsForVpcLoadbalancer cfg svc
  let securityGroupsInVpc := listSecurityGroupsByLabels st lbls
  (securityGroupsInVpc.find? (fun sg => matchLabels lbls sg.labels),
   [CloudCall.listSecurityGroups])

def generateSecurityGroupName (lbName : String) : String :=
  let base := "sg-" ++ lbName
  if base.length > 16 then String.mk (base.data.take 16) else base

/-- Model of `ensureManagedSecurityGroup`: find the managed group by
labels; create it with the derived rules when absent, update it in place
otherwise. -/
def ensureManagedSecurityGroup (cfg : LBCfg) (svc : KService)
    (desiredListeners : List VpcLoadbalancerListener) (st : CloudState) :
    SecurityGroup × CloudState × List CloudCall :=
  let f := findManagedSecurityGroup cfg svc st
  let cs0 := f.2
  let lbls := getLabelsForVpcLoadbalancer cfg svc
  let annots := getAnnotationsForVpcLoadbalancer cfg svc
  let ingress := buildIngressRulesFromListeners desiredListeners
  let egress := managedEgressRules
  match f.1 with
  | none =>
    let req : CreateSecurityGroupReq :=
      { name := generateSecurityGroupName svc.name
        description := "Security group for Kubernetes service " ++ svc.name
        labels := lbls
        annotations := annots
        vpcIdentity := cfg.vpcIdentity
        allowSameGroupTraffic := true
        ingressRules := ingress
        egressRules := egress }
    let c := applyCreateSG st req
    (c.1, c.2, cs0 ++ [CloudCall.createSecurityGroup req])
  | some sg =>
    let req : UpdateSecurityGroupReq :=
      { name := sg.name
        description := sg.description
        labels := lbls
        annotations := annots
        objectVersion := sg.objectVersion
        allowSameGroupTraffic := true
        ingressRules := ingress
        egressRules := egress }
    let u := applyUpdateSG st sg.identity req
    (u.1, u.2, cs0 ++ [CloudCall.updateSecurityGroup sg.identity req])

/-- Model of `updateVpcLoadbalancer`: reconcile the managed security
group, then update the load balancer when the desired security-group list
(with order) or the subnet differs; the update request preserves the
balancer's name, description, labels and annotations and carries no
internal flag. -/
def updateVpcLoadbalancer (cfg : LBCfg) (svc : KService)
    (vpcLoadbalancer : VpcLoadbalancer)
    (desiredListeners : List VpcLoadbalancerListener) (st : CloudState) :
    Except String Unit × CloudState × List CloudCall :=
  let desiredSecurityGroups := getSecurityGroupsForService svc
  let v := verifySecurityGroupsExist cfg desiredSecurityGroups st
  let cs1 := v.2
  match v.1 with
  | Except.error e =>
    (Except.error ("failed to verify security groups: " ++ e), st, cs1)
  | Except.ok _ =>
    let currentSecurityGroupIdentities := vpcLoadbalancer.securityGroups
    let e :=
      if shouldCreateSecurityGroup svc then
        let m := ensureManagedSecurityGroup cfg svc desiredListeners st
        (desiredSecurityGroups ++ [m.1.identity], m.2.1, m.2.2)
      else (desiredSecurityGroups, st, [])
    let desiredSecurityGroups2 := e.1
    let st2 := e.2.1
    let cs2 := e.2.2
    let preferredSubnetIdentity0 := getSubnetIdentityForService cfg svc
    let preferredSubnetIdentity :=
      if preferredSubnetIdentity0 = "" then vpcLoadbalancer.subnetIdentity
      else preferredSubnetIdentity0
    if desiredSecurityGroups2 ≠ currentSecurityGroupIdentities ∨
        vpcLoadbalancer.subnetIdentity ≠ preferredSubnetIdentity then
      let req : UpdateLoadbalancerReq :=
        { name := vpcLoadbalancer.name
          description := vpcLoadbalancer.description
          labels := vpcLoadbalancer.labels
          annotations := vpcLoadbalancer.annotations
          subnet := some preferredSubnetIdentity
          deleteProtection := vpcLoadbalancer.deleteProtection
          securityGroupAttachments := desiredSecurityGroups2 }
      (Except.ok (), applyUpdateLB st2 vpcLoadbalancer.identity req,
       cs1 ++ cs2 ++ [CloudCall.updateLoadbalancer vpcLoadbalancer.identity req])
    else (Except.ok (), st2, cs1 ++ cs2)

structure LoadBalancerIngress where
  ip : String
  hostname : String
  ipMode : String
deriving DecidableEq, Repr

/-- The ingress-status loop shared by `GetLoadBalancer`,
`EnsureLoadBalancer` and the reconcile body: one entry per non-empty
entry of the balancer's ExternalIpAddresses, carrying the hostname and
IP-mode Proxy. -/
def loadbalancerStatusIngress (lb : VpcLoadbalancer) : List LoadBalancerIngress :=
  lb.ipAddresses.filterMap (fun ip =>
    if ip ≠ "" then some { ip := ip, hostname := lb.hostname, ipMode := "Proxy" }
    else none)

/-- Model of `updateVpcLoadbalancerListenersAndTargetGroups`: target
groups first, then listeners, then unused target-group cleanup, then the
load-balancer attribute update, returning the status built from the
balancer fetched at entry. -/
def updateVpcLoadbalancerListenersAndTargetGroups (cfg : LBCfg) (svc : KService)
    (nodes : List KNode) (lbOpt : Option VpcLoadbalancer) (st : CloudState) :
    Except String (List LoadBalancerIngress) × CloudState × List CloudCall :=
  let f :=
    match lbOpt with
    | some lb => (some lb, ([] : List CloudCall))
    | none => fetchVpcLoadbalancerFromCloud cfg svc st
  let cs0 := f.2
  match f.1 with
  | none => (Except.error "loadbalancer not found in cloud", st, cs0)
  | some vpcLoadbalancer =>
    let desiredListeners := desiredVpcLoadbalancerListener cfg svc
    match getDesiredVpcLoadbalancerTargetGroups cfg svc with
    | Except.error e =>
      (Except.error ("failed to create loadbalancer backends: " ++ e), st, cs0)
    | Except.ok desiredTgs =>
      let t := createOrUpdateTargetGroups cfg svc desiredTgs nodes st
      let l := updateVpcLoadbalancerListener cfg svc vpcLoadbalancer desiredListeners t.1 t.2.1
      let k := cleanupUnusedTargetGroups cfg svc desiredTgs l.1
      let u := updateVpcLoadbalancer cfg svc vpcLoadbalancer desiredListeners k.1
      match u.1 with
      | Except.error e =>
        (Except.error ("failed to update loadbalancer: " ++ e), u.2.1,
         cs0 ++ t.2.2 ++ l.2 ++ k.2 ++ u.2.2)
      | Except.ok _ =>
        (Except.ok (loadbalancerStatusIngress vpcLoadbalancer), u.2.1,
         cs0 ++ t.2.2 ++ l.2 ++ k.2 ++ u.2.2)

/-- Model of `createVpcLoadbalancer`: resolve the subnet by identity or
slug (or take the first), read the internal flag once from the
annotations, verify user security groups, optionally ensure the managed
security group, and create the balancer. -/
def createVpcLoadbalancer (cfg : LBCfg) (lbName : String) (svc : KService)
    (st : CloudState) :
    Except String VpcLoadbalancer × CloudState × List CloudCall :=
  let vpcSubnets := st.subnets
  if vpcSubnets.isEmpty then
    (Except.error ("vpc " ++ cfg.vpcIdentity ++ " has no subnets"), st, [CloudCall.getVpc])
  else
    let requestedSubnetIdentity := getSubnetIdentityForService cfg svc
    let vpcSubnet :=
      if requestedSubnetIdentity ≠ "" then
        vpcSubnets.find? (fun subnet =>
          subnet.identity = requestedSubnetIdentity ∨ subnet.slug = requestedSubnetIdentity)
      else vpcSubnets.head?
    match vpcSubnet with
    | none =>
      (Except.error ("no subnet found for deploying loadbalancer for service " ++ svc.name),
       st, [CloudCall.getVpc])
    | some subnet =>
      let internalLoadbalancer :=
        match annGet svc annInternal with
        | some val => (goParseBool val).getD false
        | none => false
      let lbls := getLabelsForVpcLoadbalancer cfg svc
      let annots := getAnnotationsForVpcLoadbalancer cfg svc
      let securityGroups := getSecurityGroupsForService svc
      let v := verifySecurityGroupsExist cfg securityGroups st
      let cs1 := v.2
      match v.1 with
      | Except.error e =>
        (Except.error ("failed to verify security groups: " ++ e), st,
         CloudCall.getVpc :: cs1)
      | Except.ok _ =>
        let e :=
          if shouldCreateSecurityGroup svc then
            let m :=
              ensureManagedSecurityGroup cfg svc (desiredVpcLoadbalancerListener cfg svc) st
            (securityGroups ++ [m.1.identity], m.2.1, m.2.2)
          else (securityGroups, st, [])
        let securityGroups2 := e.1
        let st1 := e.2.1
        let cs2 := e.2.2
        let createLB : CreateLoadbalancerReq :=
          { name := lbName
            description := "Loadbalancer for Kubernetes service " ++ svc.name
            labels := lbls
            annotations := annots
            subnet := subnet.identity
            internalLoadbalancer := internalLoadbalancer
            securityGroupAttachments := securityGroups2 }
        let c := applyCreateLB st1 createLB
        (Except.ok c.1, c.2,
         CloudCall.getVpc :: (cs1 ++ cs2 ++ [CloudCall.createLoadbalancer createLB]))

/-- Model of `EnsureLoadBalancer`: fetch, filter nodes, update in place
when the balancer exists, otherwise create, reconcile, and wait for
readiness (a single check against the converged model cloud). -/
def ensureLoadBalancer (cfg : LBCfg) (slices : List KEndpointSlice)
    (svc : KService) (nodes0 : List KNode) (st : CloudState) :
    Except String (List LoadBalancerIngress) × CloudState × List CloudCall :=
  let f := fetchVpcLoadbalancerFromCloud cfg svc st
  let cs0 := f.2
  let nodes := nodeFilterFilter slices svc nodes0
  match f.1 with
  | some vpcLoadbalancer =>
    let r :=
      updateVpcLoadbalancerListenersAndTargetGroups cfg svc nodes (some vpcLoadbalancer) st
    (r.1, r.2.1, cs0 ++ r.2.2)
  | none =>
    let lbName := defaultLoadBalancerName svc
    let c := createVpcLoadbalancer cfg lbName svc st
    match c.1 with
    | Except.error e => (Except.error e, c.2.1, cs0 ++ c.2.2)
    | Except.ok vpcLoadbalancer =>
      let u :=
        updateVpcLoadbalancerListenersAndTargetGroups cfg svc nodes (some vpcLoadbalancer) c.2.1
      match u.1 with
      | Except.error e => (Except.error e, u.2.1, cs0 ++ c.2.2 ++ u.2.2)
      | Except.ok _ =>
        if vpcLoadbalancer.status = "ready" ∧ ¬ vpcLoadbalancer.ipAddresses.isEmpty then
          (Except.ok (loadbalancerStatusIngress vpcLoadbalancer), u.2.1, cs0 ++ c.2.2 ++ u.2.2)
        else
          let f2 := fetchVpcLoadbalancerFromCloud cfg svc u.2.1
          match f2.1 with
          | some vpcLB =>
            if vpcLB.status = "ready" ∧ ¬ vpcLB.ipAddresses.isEmpty then
              (Except.ok (loadbalancerStatusIngress vpcLB), u.2.1,
               cs0 ++ c.2.2 ++ u.2.2 ++ f2.2)
            else
              (Except.error "timed out waiting for loadbalancer to be ready", u.2.1,
               cs0 ++ c.2.2 ++ u.2.2 ++ f2.2)
          | none =>
            (Except.error "timed out waiting for loadbalancer to be ready", u.2.1,
             cs0 ++ c.2.2 ++ u.2.2 ++ f2.2)

/-- Model of `GetLoadBalancer`: read-only status lookup. -/
def getLoadBalancerStatus (cfg : LBCfg) (svc : KService) (st : CloudState) :
    Option (List LoadBalancerIngress) × List CloudCall :=
  let f := fetchVpcLoadbalancerFromCloud cfg svc st
  match f.1 with
  | none => (none, f.2)
  | some vpcLoadbalancer => (some (loadbalancerStatusIngress vpcLoadbalancer), f.2)

/-- Model of `UpdateLoadBalancer`. -/
def updateLoadBalancerOp (cfg : LBCfg) (slices : List KEndpointSlice)
    (svc : KService) (nodes0 : List KNode) (st : CloudState) :
    Except String Unit × CloudState × List CloudCall :=
  let f := fetchVpcLoadbalancerFromCloud cfg svc st
  let cs0 := f.2
  match f.1 with
  | none =>
    (Except.error ("LoadBalancer not found in Cloud API for service " ++ svc.name), st, cs0)
  | some lbService =>
    let nodes := nodeFilterFilter slices svc nodes0
    let r :=
      updateVpcLoadbalancerListenersAndTargetGroups cfg svc nodes (some lbService) st
    match r.1 with
    | Except.error e =>
      (Except.error ("failed to update loadbalancer listeners and target groups: " ++ e),
       r.2.1, cs0 ++ r.2.2)
    | Except.ok _ => (Except.ok (), r.2.1, cs0 ++ r.2.2)

/-- The target-group deletion pass of `EnsureLoadBalancerDeleted`: every
listed target group that still has listeners is skipped, the rest are
deleted. -/
def deleteTGsPass : List VpcLoadbalancerTargetGroup → CloudState →
    CloudState × List CloudCall
  | [], st => (st, [])
  | targetGroup :: rest, st =>
    if ¬ targetGroup.loadbalancerListeners.isEmpty then deleteTGsPass rest st
    else
      let st1 := applyDeleteTG st targetGroup.identity
      let r := deleteTGsPass rest st1
      (r.1, CloudCall.deleteTargetGroup targetGroup.identity :: r.2)

/-- Model of `EnsureLoadBalancerDeleted`: clean unused target groups
(with an empty desired set), delete the balancer, wait until it is gone
(one fetch against the converged model cloud), delete the remaining
target groups without listeners, and delete the managed security group. -/
def ensureLoadBalancerDeleted (cfg : LBCfg) (svc : KService) (st : CloudState) :
    Except String Unit × CloudState × List CloudCall :=
  let f := fetchVpcLoadbalancerFromCloud cfg svc st
  let cs0 := f.2
  match f.1 with
  | none => (Except.ok (), st, cs0)
  | some vpcLoadbalancer =>
    let k := cleanupUnusedTargetGroups cfg svc [] st
    let st2 := applyDeleteLB k.1 vpcLoadbalancer.identity
    let f2 := fetchVpcLoadbalancerFromCloud cfg svc st2
    match f2.1 with
    | some _ =>
      (Except.error "timed out waiting for loadbalancer to be deleted", st2,
       cs0 ++ k.2 ++ [CloudCall.deleteLoadbalancer vpcLoadbalancer.identity] ++ f2.2)
    | none =>
      let targetGroups := listTargetGroupsByLabels st2 (getLabelsForVpcLoadbalancer cfg svc)
      let d := deleteTGsPass targetGroups st2
      let g := findManagedSecurityGroup cfg svc d.1
      let w :=
        match g.1 with
        | none => (d.1, ([] : List CloudCall))
        | some sg => (applyDeleteSG d.1 sg.identity, [CloudCall.deleteSecurityGroup sg.identity])
      (Except.ok (), w.1,
       cs0 ++ k.2 ++ [CloudCall.deleteLoadbalancer vpcLoadbalancer.identity] ++ f2.2 ++
       (CloudCall.listTargetGroups :: d.2) ++ g.2 ++ w.2)

/-! ## Specification-side definitions

These definitions follow the wording of the specification (not the
source); the theorems below compare the source models against them. -/

/-- Order-preserving deduplication keeping the first occurrence of each
string, as worded in the spec. -/
def dedupKeepFirst (l : List String) : List String :=
  l.foldl (fun acc x => if acc.contains x then acc else acc ++ [x]) []

/-- The valid CIDRs of one ACL annotation, as worded in the spec: comma
separated, whitespace trimmed, invalid or empty entries skipped. -/
def specAnnCidrs (svc : KService) (key : String) : List String :=
  match annGet svc key with
  | some val => parseAclSources val
  | none => []

/-- Spec wording for the node filter: the node hosts at least one
endpoint, in a slice of this Service, with a node name equal to the
node's, ready not explicitly false and terminating not explicitly true. -/
def specNodeHasReadyEndpoint (slices : List KEndpointSlice) (svc : KService)
    (nodeName : String) : Bool :=
  (listSlicesForService slices svc).any (fun sl =>
    sl.endpoints.any (fun ep =>
      ep.nodeName = some nodeName ∧ ep.ready ≠ some false ∧ ep.terminating ≠ some true))

/-- Spec wording for the watcher: the node name contributes a ready
endpoint in the slice. -/
def specContributesReady (sl : KEndpointSlice) (nodeName : String) : Bool :=
  sl.endpoints.any (fun ep => ep.nodeName = some nodeName ∧ ep.ready = some true)

/-- Spec wording for one managed-SG ingress rule of a (listener,
allowed-source) pair: the listener's port as both range bounds, IP
version inferred from the CIDR (IPv6 exactly when the parsed network
address has no IPv4 form), protocol lowercased with udp mapped to udp and
everything else to tcp, priority 100. -/
def specIngressRule (l : VpcLoadbalancerListener) (src : String) : SecurityGroupRule :=
  { name := lowerStr l.protocol ++ "-" ++ toString l.port
    ipVersion :=
      match parseCIDR src with
      | some network => if (ipTo4 network).isNone then "ipv6" else "ipv4"
      | none => "ipv4"
    protocol := if lowerStr l.protocol = "udp" then "udp" else "tcp"
    priority := 100
    remoteType := "address"
    remoteAddress := some src
    portRangeMin := toInt32Model l.port
    portRangeMax := toInt32Model l.port
    policy := "allow" }

/-! ## Concrete fixtures used by counterexamples and witnesses -/

def exCfg : LBCfg :=
  { cluster := "c1", vpcIdentity := "vpc-1", defaultSubnet := "subnet-1",
    additionalLabels := [] }

def exPortHttp : ServicePort :=
  { name := "http", protocol := "TCP", port := 80, nodePort := 30000 }

def exSvc : KService :=
  { name := "test-service", ns := "default", uid := "test-uid-1",
    annotations := [], ports := [exPortHttp], trafficPolicy := "Cluster",
    healthCheckNodePort := 0 }

def exNode : KNode :=
  { name := "node-1", providerID := "thalassacloud://machine-1" }

def exState0 : CloudState :=
  { subnets := [{ identity := "subnet-1", slug := "default" }],
    lbs := [], tgs := [], listeners := [], sgs := [],
    provisionIps := ["203.0.113.7"], provisionHostname := "lb.example",
    nextId := 0 }

/-- Fixture for the health-check claim: local traffic policy, an assigned
health-check node port, and a health-check-port annotation. -/
def exSvcHc : KService :=
  { name := "test-service", ns := "default", uid := "test-uid-8",
    annotations := [(annHealthCheckPort, "8080")], ports := [exPortHttp],
    trafficPolicy := "Local", healthCheckNodePort := 31000 }

/-- Fixture listener carrying two allowed sources. -/
def exListenerTwoSources : VpcLoadbalancerListener :=
  { identity := "", name := "l1", description := "", port := 80, protocol := "tcp",
    targetGroup := none, allowedSources := ["10.0.0.0/8", "192.168.1.0/24"],
    labels := [], annotations := [], connectionIdleTimeout := none,
    maxConnections := none }

def exSvcAcl : KService :=
  { name := "test-service", ns := "default", uid := "uid-acl",
    annotations :=
      [(annAclAllowedSources, "10.0.0.0/8,192.168.1.0/24"),
       (annAclAllowedSourcesPort ++ "-http", "172.16.0.0/12"),
       (annAclAllowedSourcesPort ++ "-443", "10.10.0.0/16")],
    ports := [exPortHttp, { name := "https", protocol := "TCP", port := 443, nodePort := 30001 }],
    trafficPolicy := "Cluster", healthCheckNodePort := 0 }

def exSvcLocal : KService :=
  { name := "test-service", ns := "default", uid := "uid-local",
    annotations := [], ports := [exPortHttp], trafficPolicy := "Local",
    healthCheckNodePort := 0 }

def exNode2 : KNode :=
  { name := "node-2", providerID := "thalassacloud://machine-2" }

def exSlice1 : KEndpointSlice :=
  { name := "test-service-abc", ns := "default",
    serviceNameLabel := some "test-service",
    endpoints := [{ nodeName := some "node-1", ready := some true, terminating := none }] }

def exSlice2 : KEndpointSlice :=
  { name := "test-service-abc", ns := "default",
    serviceNameLabel := some "test-service",
    endpoints := [{ nodeName := some "node-2", ready := some true, terminating := none }] }

def exSvcBadPolicy : KService :=
  { name := "test-service", ns := "default", uid := "uid-pol",
    annotations := [(annLoadbalancingPolicy, "INVALID_POLICY")],
    ports := [exPortHttp], trafficPolicy := "Cluster", healthCheckNodePort := 0 }

/-- The target groups the builder yields for the health-check fixture. -/
def exHcTgs : List VpcLoadbalancerTargetGroup :=
  match getDesiredVpcLoadbalancerTargetGroups exCfg exSvcHc with
  | Except.ok l => l
  | Except.error _ => []

/-- A converged cloud load balancer for the example Service. -/
def exLB : VpcLoadbalancer :=
  { identity := "i", name := "atestuid1",
    description := "Loadbalancer for Kubernetes service test-service",
    labels :=
      [("k8s.thalassa.cloud/kubernetes-cluster", "c1"),
       ("k8s.thalassa.cloud/cloud-provider-managed", "true"),
       ("k8s.thalassa.cloud/kubernetes-service-name", "test-service"),
       ("k8s.thalassa.cloud/kubernetes-service-namespace", "default"),
       ("k8s.thalassa.cloud/kubernetes-service-uid", "test-uid-1")],
    annotations := [], subnetIdentity := "subnet-1", internal := false,
    securityGroups := [], deleteProtection := false, status := "ready",
    ipAddresses := ["203.0.113.7", "", "198.51.100.4"], hostname := "lb.example" }

/-- A cloud state already holding the converged balancer for the example
Service. -/
def exStateLB : CloudState :=
  { exState0 with lbs := [exLB], nextId := 1 }

/-- A managed target group with no listeners left, eligible for cleanup. -/
def exTgUnused : VpcLoadbalancerTargetGroup :=
  { identity := "tg1", name := "atestuid1-old", description := "",
    protocol := "TCP", targetPort := 30999,
    labels := getLabelsForVpcLoadbalancer exCfg exSvc, annotations := [],
    healthCheck := none, enableProxyProtocol := none, loadbalancingPolicy := none,
    loadbalancerListeners := [], serverAttachments := [] }

/-- A cloud state holding only the unused target group. -/
def exStateTG : CloudState :=
  { exState0 with tgs := [exTgUnused], nextId := 4 }

/-- The reconciliation-relevant skeleton of a target group: the listener
operations may rewrite the listener back-references and the server
attachments, but never these four fields. -/
def tgSkel (tg : VpcLoadbalancerTargetGroup) : String × LabelMap × String × Int :=
  (tg.identity, tg.labels, tg.protocol, tg.targetPort)

/-! # Theorems

Shared helper lemmas first, then one theorem per claim. -/

/-! ## Deduplication lemmas -/

theorem removeDupAux_congr (l : List String) :
    ∀ s t : List String, (∀ x, x ∈ s ↔ x ∈ t) →
    removeDupAux s l = removeDupAux t l := by
  induction l with
  | nil => intro s t _; rfl
  | cons x xs ih =>
    intro s t hst
    simp only [removeDupAux]
    by_cases hx : x ∈ t
    · have hxs : x ∈ s := (hst x).mpr hx
      rw [if_pos (by simpa using hxs), if_pos (by simpa using hx)]
      exact ih s t hst
    · have hxs : x ∉ s := fun h => hx ((hst x).mp h)
      rw [if_neg (by simpa using hxs), if_neg (by simpa using hx)]
      rw [ih (x :: s) (x :: t) (by intro y; simp [hst y])]

theorem removeDupAux_absorb (b : List String) :
    ∀ s t : List String, (∀ x, x ∈ t → x ∈ s) →
    removeDupAux s (removeDupAux t b) = removeDupAux s b := by
  induction b with
  | nil => intro s t _; rfl
  | cons y ys ih =>
    intro s t hts
    simp only [removeDupAux]
    by_cases hyt : y ∈ t
    · rw [if_pos (by simpa using hyt)]
      by_cases hys : y ∈ s
      · rw [if_pos (by simpa using hys)]
        exact ih s t hts
      · exact absurd (hts y hyt) hys
    · rw [if_neg (by simpa using hyt)]
      simp only [removeDupAux]
      by_cases hys : y ∈ s
      · rw [if_pos (by simpa using hys), if_pos (by simpa using hys)]
        exact ih s (y :: t) (by
          intro x hx
          rcases List.mem_cons.mp hx with h | h
          · exact h ▸ hys
          · exact hts x h)
      · rw [if_neg (by simpa using hys), if_neg (by simpa using hys)]
        congr 1
        exact ih (y :: s) (y :: t) (by
          intro x hx
          rcases List.mem_cons.mp hx with h | h
          · exact h ▸ List.mem_cons_self y s
          · exact List.mem_cons_of_mem y (hts x h))

theorem removeDupAux_append_dedup (a : List String) :
    ∀ (s b : List String),
    removeDupAux s (a ++ removeDupAux [] b) = removeDupAux s (a ++ b) := by
  induction a with
  | nil =>
    intro s b
    simpa using removeDupAux_absorb b s [] (by intro x hx; simp at hx)
  | cons x xs ih =>
    intro s b
    simp only [List.cons_append, removeDupAux]
    by_cases hx : s.contains x = true
    · rw [if_pos hx, if_pos hx]
      exact ih s b
    · rw [if_neg hx, if_neg hx]
      exact congrArg (fun r => x :: r) (ih (x :: s) b)

theorem dedupKeepFirst_eq_removeDup (l : List String) :
    dedupKeepFirst l = removeDuplicateStrings l := by
  have key : ∀ (l acc : List String),
      l.foldl (fun acc x => if acc.contains x then acc else acc ++ [x]) acc =
      acc ++ removeDupAux acc l := by
    intro l
    induction l with
    | nil => intro acc; simp [removeDupAux]
    | cons x xs ih =>
      intro acc
      simp only [List.foldl_cons, removeDupAux]
      by_cases hx : acc.contains x = true
      · rw [if_pos hx, if_pos hx, ih]
      · rw [if_neg hx, if_neg hx, ih]
        rw [removeDupAux_congr xs (acc ++ [x]) (x :: acc) (by intro y; simp; tauto)]
        simp
  simpa [dedupKeepFirst, removeDuplicateStrings] using key l []

/-! ## Claim C4: per-listener ACL combination -/

/-- C4: for every Service port and annotation map, the listener's
effective allowed-sources list equals the order-preserving deduplication
of the concatenation of the valid CIDRs of the global acl-allowed-sources
annotation, then the acl-port-name annotation (when the port has a name),
then the acl-port-number annotation, keeping the first occurrence of each
CIDR; invalid or empty entries are skipped. -/
theorem c4_acl_combination (cfg : LBCfg) (svc : KService) (i : Nat) (p : ServicePort)
    (hp : svc.ports[i]? = some p) :
    ((desiredVpcLoadbalancerListener cfg svc)[i]?).map (fun l => l.allowedSources) =
      some (dedupKeepFirst
        (specAnnCidrs svc annAclAllowedSources ++
         (if p.name ≠ "" then specAnnCidrs svc (annAclAllowedSourcesPort ++ "-" ++ p.name)
          else []) ++
         specAnnCidrs svc (annAclAllowedSourcesPort ++ "-" ++ toString p.port))) := by
  simp only [desiredVpcLoadbalancerListener, List.getElem?_map, hp, Option.map_some']
  rw [dedupKeepFirst_eq_removeDup]
  simp only [removeDuplicateStrings, getPerPortAclAllowedSources, specAnnCidrs]
  rw [removeDupAux_append_dedup]
  rw [List.append_assoc]

/-- Witness for C4 at a concrete Service with global and per-port ACL
annotations. -/
theorem c4_acl_combination_witness :
    ((desiredVpcLoadbalancerListener exCfg exSvcAcl)[0]?).map (fun l => l.allowedSources) =
      some (dedupKeepFirst
        (specAnnCidrs exSvcAcl annAclAllowedSources ++
         (if exPortHttp.name ≠ "" then
            specAnnCidrs exSvcAcl (annAclAllowedSourcesPort ++ "-" ++ exPortHttp.name)
          else []) ++
         specAnnCidrs exSvcAcl (annAclAllowedSourcesPort ++ "-" ++ toString exPortHttp.port))) :=
  c4_acl_combination exCfg exSvcAcl 0 exPortHttp (by decide)

/-! ## Claim C8: strict load-balancing-policy validation -/

/-- C8: with the loadbalancing-policy annotation absent the policy is
ROUND_ROBIN with no error; with a value outside ROUND_ROBIN, RANDOM,
MAGLEV, `GetLoadbalancingPolicy` returns the invalid-policy error and
`getDesiredVpcLoadbalancerTargetGroups` fails with that same error. -/
theorem c8_strict_policy_validation (cfg : LBCfg) (svc : KService) :
    (annGet svc annLoadbalancingPolicy = none →
      GetLoadbalancingPolicy svc = ("ROUND_ROBIN", none)) ∧
    (∀ v, annGet svc annLoadbalancingPolicy = some v →
      v ≠ "ROUND_ROBIN" → v ≠ "RANDOM" → v ≠ "MAGLEV" →
      GetLoadbalancingPolicy svc =
        ("ROUND_ROBIN", some ("invalid loadbalancing policy: " ++ v ++
          ", must be one of: ROUND_ROBIN, RANDOM, MAGLEV")) ∧
      getDesiredVpcLoadbalancerTargetGroups cfg svc =
        Except.error ("invalid loadbalancing policy: " ++ v ++
          ", must be one of: ROUND_ROBIN, RANDOM, MAGLEV")) := by
  constructor
  · intro h
    simp [GetLoadbalancingPolicy, getStringAnn, h, DefaultLoadbalancingPolicy]
  · intro v hv h1 h2 h3
    have hpol : GetLoadbalancingPolicy svc =
        ("ROUND_ROBIN", some ("invalid loadbalancing policy: " ++ v ++
          ", must be one of: ROUND_ROBIN, RANDOM, MAGLEV")) := by
      simp [GetLoadbalancingPolicy, getStringAnn, hv, h1, h2, h3]
    refine ⟨hpol, ?_⟩
    simp [getDesiredVpcLoadbalancerTargetGroups, hpol]

/-- Witness for C8: the default-policy branch at a Service without the
annotation, and the error branch at a Service with INVALID_POLICY. -/
theorem c8_strict_policy_validation_witness :
    GetLoadbalancingPolicy exSvc = ("ROUND_ROBIN", none) ∧
    getDesiredVpcLoadbalancerTargetGroups exCfg exSvcBadPolicy =
      Except.error ("invalid loadbalancing policy: INVALID_POLICY" ++
        ", must be one of: ROUND_ROBIN, RANDOM, MAGLEV") :=
  ⟨(c8_strict_policy_validation exCfg exSvc).1 (by decide),
   ((c8_strict_policy_validation exCfg exSvcBadPolicy).2 "INVALID_POLICY"
     (by decide) (by decide) (by decide) (by decide)).2⟩

/-! ## Claim C6: health check for local-only Services -/

/-- C6 counterexample: the claim says the health check uses the assigned
health-check node port, but with a health-check-port annotation of 8080
and node port 31000 the builder emits port 8080. -/
theorem c6_counterexample :
    (match getDesiredVpcLoadbalancerTargetGroups exCfg exSvcHc with
     | Except.ok tgs => tgs.map (fun tg => tg.healthCheck.map (fun hc => (hc.port, hc.protocol)))
     | Except.error _ => []) = [some ((8080 : Int), "http")] ∧
    exSvcHc.trafficPolicy = "Local" ∧
    exSvcHc.healthCheckNodePort = 31000 ∧ (8080 : Int) ≠ 31000 := by
  refine ⟨?_, rfl, rfl, by decide⟩
  decide

/-- C6 (amended): for a Service with local external-traffic policy and an
assigned health-check node port, every desired target group carries an
http health check whose port is the node port unless the
health-check-port annotation supplies a positive port (then that port is
used), with path, interval, timeout and thresholds from the annotations
or their defaults. -/
theorem c6_local_health_check (cfg : LBCfg) (svc : KService)
    (tgs : List VpcLoadbalancerTargetGroup)
    (_hloc : svc.trafficPolicy = "Local")
    (hnp : svc.healthCheckNodePort > 0)
    (hok : getDesiredVpcLoadbalancerTargetGroups cfg svc = Except.ok tgs) :
    ∀ tg ∈ tgs, tg.healthCheck = some
      { port := if (getIntAnn svc annHealthCheckPort (-1)).1 > 0 then
                  toInt32Model (getIntAnn svc annHealthCheckPort (-1)).1
                else svc.healthCheckNodePort
        protocol := "http"
        path := (getStringAnn svc annHealthCheckPath DefaultHealthCheckPath).1
        timeoutSeconds := (getIntAnn svc annHealthCheckTimeout DefaultHealthCheckTimeoutSeconds).1
        periodSeconds := (getIntAnn svc annHealthCheckInterval DefaultHealthCheckPeriodSeconds).1
        healthyThreshold :=
          toInt32Model (getIntAnn svc annHealthCheckUpThreshold DefaultHealthCheckHealthyThreshold).1
        unhealthyThreshold :=
          toInt32Model (getIntAnn svc annHealthCheckDownThreshold DefaultHealthCheckUnhealthyThreshold).1 } := by
  intro tg htg
  rcases hq : GetLoadbalancingPolicy svc with ⟨pol, perr⟩
  cases perr with
  | some e => simp [getDesiredVpcLoadbalancerTargetGroups, hq] at hok
  | none =>
    simp only [getDesiredVpcLoadbalancerTargetGroups, hq, Except.ok.injEq] at hok
    subst hok
    rcases List.mem_map.mp htg with ⟨svcPort, _, rfl⟩
    simp [hnp]

/-- Witness for C6 at the health-check fixture. -/
theorem c6_local_health_check_witness :
    exSvcHc.trafficPolicy = "Local" ∧ exSvcHc.healthCheckNodePort > 0 ∧
    (exHcTgs.getD 0 emptyTG).healthCheck = some
      { port := if (getIntAnn exSvcHc annHealthCheckPort (-1)).1 > 0 then
                  toInt32Model (getIntAnn exSvcHc annHealthCheckPort (-1)).1
                else exSvcHc.healthCheckNodePort
        protocol := "http"
        path := (getStringAnn exSvcHc annHealthCheckPath DefaultHealthCheckPath).1
        timeoutSeconds := (getIntAnn exSvcHc annHealthCheckTimeout DefaultHealthCheckTimeoutSeconds).1
        periodSeconds := (getIntAnn exSvcHc annHealthCheckInterval DefaultHealthCheckPeriodSeconds).1
        healthyThreshold :=
          toInt32Model (getIntAnn exSvcHc annHealthCheckUpThreshold DefaultHealthCheckHealthyThreshold).1
        unhealthyThreshold :=
          toInt32Model (getIntAnn exSvcHc annHealthCheckDownThreshold DefaultHealthCheckUnhealthyThreshold).1 } :=
  ⟨rfl, by decide,
   c6_local_health_check exCfg exSvcHc exHcTgs rfl (by decide) (by rfl)
     (exHcTgs.getD 0 emptyTG) (by decide)⟩

/-! ## Claim C10: load-balancer status construction -/

theorem ingress_filterMap_eq (hostname : String) (l : List String) :
    l.filterMap (fun ip =>
      if ip ≠ "" then
        some ({ ip := ip, hostname := hostname, ipMode := "Proxy" } : LoadBalancerIngress)
      else none) =
    (l.filter (fun ip => ip ≠ "")).map
      (fun ip => { ip := ip, hostname := hostname, ipMode := "Proxy" }) := by
  induction l with
  | nil => rfl
  | cons ip rest ih =>
    by_cases hip : ip = ""
    · subst hip
      simpa using ih
    · simpa [List.filterMap_cons, List.filter_cons, hip] using ih

theorem updateLTG_ok_ingress (cfg : LBCfg) (svc : KService) (nodes : List KNode)
    (lbOpt : Option VpcLoadbalancer) (st : CloudState) (r : List LoadBalancerIngress)
    (h : (updateVpcLoadbalancerListenersAndTargetGroups cfg svc nodes lbOpt st).1 =
      Except.ok r) :
    ∃ lb, r = loadbalancerStatusIngress lb := by
  simp only [updateVpcLoadbalancerListenersAndTargetGroups] at h
  split at h
  · simp at h
  · split at h
    · simp at h
    · split at h
      · simp at h
      · injection h with h2
        exact ⟨_, h2.symm⟩

/-- C10: every status contains one ingress entry per non-empty external
IP, in listing order, each carrying the IP, the hostname and IP-mode
Proxy; empty IP strings are skipped.  GetLoadBalancer returns exactly
this for the fetched balancer, and every successful reconcile body or
EnsureLoadBalancer returns this for some cloud balancer. -/
theorem c10_status_ingress :
    (∀ lb : VpcLoadbalancer,
      loadbalancerStatusIngress lb =
        (lb.ipAddresses.filter (fun ip => ip ≠ "")).map
          (fun ip => { ip := ip, hostname := lb.hostname, ipMode := "Proxy" })) ∧
    (∀ cfg svc st, (getLoadBalancerStatus cfg svc st).1 =
        ((fetchVpcLoadbalancerFromCloud cfg svc st).1).map loadbalancerStatusIngress) ∧
    (∀ cfg svc nodes lbOpt st r,
      (updateVpcLoadbalancerListenersAndTargetGroups cfg svc nodes lbOpt st).1 = Except.ok r →
      ∃ lb, r = loadbalancerStatusIngress lb) ∧
    (∀ cfg slices svc nodes st r,
      (ensureLoadBalancer cfg slices svc nodes st).1 = Except.ok r →
      ∃ lb, r = loadbalancerStatusIngress lb) := by
  refine ⟨?_, ?_, ?_, ?_⟩
  · intro lb
    exact ingress_filterMap_eq lb.hostname lb.ipAddresses
  · intro cfg svc st
    simp only [getLoadBalancerStatus]
    cases h : (fetchVpcLoadbalancerFromCloud cfg svc st).1 with
    | none => simp [h]
    | some lb => simp [h]
  · intro cfg svc nodes lbOpt st r h
    exact updateLTG_ok_ingress cfg svc nodes lbOpt st r h
  · intro cfg slices svc nodes st r h
    simp only [ensureLoadBalancer] at h
    split at h
    · exact updateLTG_ok_ingress _ _ _ _ _ _ h
    · split at h
      · simp at h
      · rename_i vpcLoadbalancer _
        split at h
        · simp at h
        · by_cases hc : vpcLoadbalancer.status = "ready" ∧
            ¬ vpcLoadbalancer.ipAddresses.isEmpty = true
          · rw [if_pos hc] at h
            injection h with h2
            exact ⟨_, h2.symm⟩
          · rw [if_neg hc] at h
            split at h
            · rename_i vpcLB _
              by_cases hc2 : vpcLB.status = "ready" ∧ ¬ vpcLB.ipAddresses.isEmpty = true
              · rw [if_pos hc2] at h
                injection h with h2
                exact ⟨_, h2.symm⟩
              · rw [if_neg hc2] at h
                simp at h
            · simp at h

/-- Witness for C10: the reconcile body at the fixture balancer returns
the status of some cloud balancer. -/
theorem c10_status_ingress_witness :
    ∃ lb, (match (updateVpcLoadbalancerListenersAndTargetGroups exCfg exSvc [exNode]
            (some exLB) exState0).1 with
           | Except.ok r => r
           | Except.error _ => []) = loadbalancerStatusIngress lb :=
  c10_status_ingress.2.2.1 exCfg exSvc [exNode] (some exLB) exState0 _ (by rfl)

/-! ## Claim C7: managed security-group rules -/

/-- C7 counterexample: the priority variable is never incremented, so a
listener with two allowed sources yields two rules both at priority 100,
not 100 and 101. -/
theorem c7_counterexample :
    (buildIngressRulesFromListeners [exListenerTwoSources]).map (fun r => r.priority) =
      [100, 100] ∧ ((100 : Int) ≠ 100 + 1) := by
  constructor
  · decide
  · decide

/-- C7 (amended): the emitted ingress rules are exactly one rule per
(listener, allowed-source) pair in emission order — port as both range
bounds, IP version per CIDR, protocol lowercased with udp kept and
everything else tcp — but all carrying the constant priority 100; the
egress rules are exactly the fixed allow-all IPv4 and IPv6 pair. -/
theorem c7_ingress_rules (listeners : List VpcLoadbalancerListener) :
    buildIngressRulesFromListeners listeners =
      (listeners.map (fun l => l.allowedSources.map (fun src => specIngressRule l src))).flatten ∧
    (∀ r ∈ buildIngressRulesFromListeners listeners, r.priority = 100) ∧
    managedEgressRules =
      [{ name := "allow-all-outbound", ipVersion := "ipv4", protocol := "all",
         priority := 100, remoteType := "address", remoteAddress := some "0.0.0.0/0",
         portRangeMin := 0, portRangeMax := 0, policy := "" },
       { name := "allow-all-outbound", ipVersion := "ipv6", protocol := "all",
         priority := 110, remoteType := "address", remoteAddress := some "::/0",
         portRangeMin := 0, portRangeMax := 0, policy := "" }] ∧
    (∀ cfg svc dl st call, call ∈ (ensureManagedSecurityGroup cfg svc dl st).2.2 →
      (∀ req, call = CloudCall.createSecurityGroup req →
        req.ingressRules = buildIngressRulesFromListeners dl ∧
        req.egressRules = managedEgressRules) ∧
      (∀ sgId req, call = CloudCall.updateSecurityGroup sgId req →
        req.ingressRules = buildIngressRulesFromListeners dl ∧
        req.egressRules = managedEgressRules)) := by
  refine ⟨rfl, ?_, rfl, ?_⟩
  · intro r hr
    simp only [buildIngressRulesFromListeners, List.mem_flatten, List.mem_map] at hr
    rcases hr with ⟨inner, ⟨l, _, rfl⟩, hin⟩
    rcases List.mem_map.mp hin with ⟨src, _, rfl⟩
    rfl
  · intro cfg svc dl st call hcall
    simp only [ensureManagedSecurityGroup, findManagedSecurityGroup] at hcall
    split at hcall
    · simp only [List.mem_append, List.mem_singleton] at hcall
      rcases hcall with h | h
      · subst h
        exact ⟨fun req hreq => CloudCall.noConfusion hreq,
               fun sgId req hreq => CloudCall.noConfusion hreq⟩
      · subst h
        constructor
        · intro req hreq
          cases hreq
          exact ⟨rfl, rfl⟩
        · intro sgId req hreq
          exact CloudCall.noConfusion hreq
    · simp only [List.mem_append, List.mem_singleton] at hcall
      rcases hcall with h | h
      · subst h
        exact ⟨fun req hreq => CloudCall.noConfusion hreq,
               fun sgId req hreq => CloudCall.noConfusion hreq⟩
      · subst h
        constructor
        · intro req hreq
          exact CloudCall.noConfusion hreq
        · intro sgId req hreq
          cases hreq
          exact ⟨rfl, rfl⟩

/-- Witness for C7 at a concrete listener with two sources. -/
theorem c7_ingress_rules_witness :
    (specIngressRule exListenerTwoSources "10.0.0.0/8").priority = 100 ∧
    ((ensureManagedSecurityGroup exCfg exSvc [exListenerTwoSources] exState0).2.2.getLast?.map
      (fun c => c.isMutation)) = some true := by
  constructor
  · exact (c7_ingress_rules [exListenerTwoSources]).2.1
      (specIngressRule exListenerTwoSources "10.0.0.0/8") (by decide)
  · decide

/-! ## Claim C5: the node filter -/

theorem mem_readyNodeNames (slices : List KEndpointSlice) (svc : KService)
    (nm : String) :
    nm ∈ readyNodeNames (listSlicesForService slices svc) ↔
      specNodeHasReadyEndpoint slices svc nm = true := by
  simp only [readyNodeNames, specNodeHasReadyEndpoint, List.mem_flatten, List.mem_map,
    List.any_eq_true]
  constructor
  · rintro ⟨inner, ⟨sl, hsl, rfl⟩, hmem⟩
    rw [List.mem_filterMap] at hmem
    obtain ⟨ep, hep, hf⟩ := hmem
    refine ⟨sl, hsl, ep, hep, ?_⟩
    cases hn : ep.nodeName with
    | none => rw [hn] at hf; simp at hf
    | some nm2 =>
      rw [hn] at hf
      by_cases hr : ep.ready = some false
      · simp [hr] at hf
      · by_cases ht : ep.terminating = some true
        · simp [hr, ht] at hf
        · simp [hr, ht] at hf
          simp [hn, hf, hr, ht]
  · rintro ⟨sl, hsl, ep, hep, hcond⟩
    simp only [decide_eq_true_eq] at hcond
    obtain ⟨hn, hr, ht⟩ := hcond
    refine ⟨_, ⟨sl, hsl, rfl⟩, List.mem_filterMap.mpr ⟨ep, hep, ?_⟩⟩
    rw [hn]
    simp [hr, ht]

/-- C5: for a non-local traffic policy the filter returns the input list
unchanged; for local policy it also returns the input unchanged when no
endpoint slice exists for the Service or no node hosts a ready,
non-terminating endpoint, and otherwise returns exactly the input nodes
hosting such an endpoint, in input order. -/
theorem c5_node_filter (slices : List KEndpointSlice) (svc : KService)
    (nodes : List KNode) :
    (svc.trafficPolicy ≠ "Local" → nodeFilterFilter slices svc nodes = nodes) ∧
    (svc.trafficPolicy = "Local" → listSlicesForService slices svc = [] →
      nodeFilterFilter slices svc nodes = nodes) ∧
    (svc.trafficPolicy = "Local" →
      (∀ nm, specNodeHasReadyEndpoint slices svc nm = false) →
      nodeFilterFilter slices svc nodes = nodes) ∧
    (svc.trafficPolicy = "Local" → listSlicesForService slices svc ≠ [] →
      (∃ nm, specNodeHasReadyEndpoint slices svc nm = true) →
      nodeFilterFilter slices svc nodes =
        nodes.filter (fun n => specNodeHasReadyEndpoint slices svc n.name)) := by
  refine ⟨?_, ?_, ?_, ?_⟩
  · intro h
    simp [nodeFilterFilter, h]
  · intro h hempty
    simp [nodeFilterFilter, h, hempty]
  · intro h hnone
    have hrn : readyNodeNames (listSlicesForService slices svc) = [] := by
      cases hr : readyNodeNames (listSlicesForService slices svc) with
      | nil => rfl
      | cons nm rest =>
        have : nm ∈ readyNodeNames (listSlicesForService slices svc) := by
          rw [hr]; exact List.mem_cons_self nm rest
        rw [mem_readyNodeNames] at this
        rw [hnone nm] at this
        cases this
    simp [nodeFilterFilter, h, hrn]
  · intro h hne ⟨nm, hnm⟩
    have hmem : nm ∈ readyNodeNames (listSlicesForService slices svc) :=
      (mem_readyNodeNames slices svc nm).mpr hnm
    have hrn : readyNodeNames (listSlicesForService slices svc) ≠ [] := by
      intro hc; rw [hc] at hmem; cases hmem
    simp only [nodeFilterFilter, h]
    rw [if_neg (by simp)]
    rw [if_neg (by simpa using hne)]
    rw [if_neg (by simpa using hrn)]
    apply List.filter_congr
    intro n _
    have := mem_readyNodeNames slices svc n.name
    by_cases hm : n.name ∈ readyNodeNames (listSlicesForService slices svc)
    · simp [hm, this.mp hm]
    · have : specNodeHasReadyEndpoint slices svc n.name = false := by
        cases hv : specNodeHasReadyEndpoint slices svc n.name with
        | false => rfl
        | true => exact absurd (this.mpr hv) hm
      simp [hm, this]

/-- Witness for C5: the local-only filter keeps exactly the node hosting
the ready endpoint. -/
theorem c5_node_filter_witness :
    nodeFilterFilter [exSlice1] exSvcLocal [exNode, exNode2] =
      ([exNode, exNode2]).filter
        (fun n => specNodeHasReadyEndpoint [exSlice1] exSvcLocal n.name) :=
  (c5_node_filter [exSlice1] exSvcLocal [exNode, exNode2]).2.2.2
    rfl (by decide) ⟨"node-1", by decide⟩

/-! ## Claim C9: watcher enqueue condition -/

theorem mem_sliceReadyNodeSet (sl : KEndpointSlice) (nm : String) :
    nm ∈ sliceReadyNodeSet sl ↔ specContributesReady sl nm = true := by
  have key : ∀ (eps : List KEndpoint) (acc : List String),
      nm ∈ eps.foldl (fun acc ep =>
        match ep.nodeName, ep.ready with
        | some nm2, some r => if r ∧ ¬ acc.contains nm2 then acc ++ [nm2] else acc
        | _, _ => acc) acc ↔
      nm ∈ acc ∨
        eps.any (fun ep => ep.nodeName = some nm ∧ ep.ready = some true) = true := by
    intro eps
    induction eps with
    | nil => intro acc; simp
    | cons ep rest ih =>
      intro acc
      simp only [List.foldl_cons, List.any_cons]
      cases hn : ep.nodeName with
      | none =>
        rw [ih]
        simp [hn]
      | some nm2 =>
        cases hr : ep.ready with
        | none =>
          rw [ih]
          simp [hn, hr]
        | some r =>
          cases r with
          | false =>
            rw [ih]
            simp [hn, hr]
          | true =>
            rw [ih]
            by_cases hc : acc.contains nm2 = true
            · have hmem2 : nm2 ∈ acc := by simpa using hc
              simp [hc, hmem2]
              constructor
              · rintro (h | h)
                · exact Or.inl h
                · exact Or.inr (Or.inr h)
              · rintro (h | h | h)
                · exact Or.inl h
                · exact Or.inl (h ▸ hmem2)
                · exact Or.inr h
            · have hnm : nm2 ∉ acc := by simpa using hc
              simp [hc]
              rw [if_neg hnm]
              constructor
              · rintro (h | h)
                · rcases List.mem_append.mp h with h' | h'
                  · exact Or.inl h'
                  · exact Or.inr (Or.inl (List.mem_singleton.mp h').symm)
                · exact Or.inr (Or.inr h)
              · rintro (h | h | h)
                · exact Or.inl (List.mem_append.mpr (Or.inl h))
                · exact Or.inl (List.mem_append.mpr (Or.inr (List.mem_singleton.mpr h.symm)))
                · exact Or.inr h
  rw [sliceReadyNodeSet, key]
  simp [specContributesReady]

theorem sliceReadyNodeSet_nodup (sl : KEndpointSlice) : (sliceReadyNodeSet sl).Nodup := by
  have key : ∀ (eps : List KEndpoint) (acc : List String), acc.Nodup →
      (eps.foldl (fun acc ep =>
        match ep.nodeName, ep.ready with
        | some nm2, some r => if r ∧ ¬ acc.contains nm2 then acc ++ [nm2] else acc
        | _, _ => acc) acc).Nodup := by
    intro eps
    induction eps with
    | nil => intro acc h; simpa using h
    | cons ep rest ih =>
      intro acc h
      simp only [List.foldl_cons]
      apply ih
      cases hn : ep.nodeName with
      | none => simpa using h
      | some nm2 =>
        cases hr : ep.ready with
        | none => simpa using h
        | some r =>
          cases r with
          | false => simpa using h
          | true =>
            by_cases hc : acc.contains nm2 = true
            · have hm : nm2 ∈ acc := by simpa using hc
              simpa [hc, hm] using h
            · have hnm : nm2 ∉ acc := by simpa using hc
              simp [hc, List.nodup_append, h, hnm]
  exact key sl.endpoints [] List.nodup_nil

theorem nodup_length_subset_iff (l1 l2 : List String) (h1 : l1.Nodup) (h2 : l2.Nodup)
    (hlen : l1.length = l2.length) (hsub : ∀ x ∈ l1, x ∈ l2) :
    ∀ x, x ∈ l1 ↔ x ∈ l2 := by
  have hfin : l1.toFinset ⊆ l2.toFinset := by
    intro x hx
    exact List.mem_toFinset.mpr (hsub x (List.mem_toFinset.mp hx))
  have hcard : l2.toFinset.card ≤ l1.toFinset.card := by
    rw [List.toFinset_card_of_nodup h1, List.toFinset_card_of_nodup h2, hlen]
  have heq := Finset.eq_of_subset_of_card_le hfin hcard
  intro x
  constructor
  · exact hsub x
  · intro hx
    exact List.mem_toFinset.mp (heq ▸ List.mem_toFinset.mpr hx)

theorem hasNodeAssignmentChanged_eq_false (oldSl newSl : KEndpointSlice) :
    hasNodeAssignmentChanged oldSl newSl = false ↔
      ∀ nm, specContributesReady oldSl nm = specContributesReady newSl nm := by
  have hO := sliceReadyNodeSet_nodup oldSl
  have hN := sliceReadyNodeSet_nodup newSl
  constructor
  · intro h
    simp only [hasNodeAssignmentChanged] at h
    by_cases hlen : (sliceReadyNodeSet oldSl).length = (sliceReadyNodeSet newSl).length
    · rw [if_neg (fun hne => hne hlen)] at h
      have hsub : ∀ x ∈ sliceReadyNodeSet oldSl, x ∈ sliceReadyNodeSet newSl := by
        intro x hx
        by_contra hxn
        have hany : (sliceReadyNodeSet oldSl).any
            (fun nodeName => ¬ (sliceReadyNodeSet newSl).contains nodeName) = true :=
          List.any_eq_true.mpr ⟨x, hx, by simpa using hxn⟩
        rw [h] at hany
        exact absurd hany (by simp)
      intro nm
      have hiff := nodup_length_subset_iff _ _ hO hN hlen hsub nm
      rw [mem_sliceReadyNodeSet, mem_sliceReadyNodeSet] at hiff
      exact Bool.eq_iff_iff.mpr hiff
    · rw [if_pos hlen] at h
      exact absurd h (by simp)
  · intro hall
    have hiff : ∀ nm, nm ∈ sliceReadyNodeSet oldSl ↔ nm ∈ sliceReadyNodeSet newSl := by
      intro nm
      rw [mem_sliceReadyNodeSet, mem_sliceReadyNodeSet, hall nm]
    have hfeq : (sliceReadyNodeSet oldSl).toFinset = (sliceReadyNodeSet newSl).toFinset := by
      apply Finset.ext
      intro x
      simp [List.mem_toFinset, hiff x]
    have hlen : (sliceReadyNodeSet oldSl).length = (sliceReadyNodeSet newSl).length := by
      rw [← List.toFinset_card_of_nodup hO, ← List.toFinset_card_of_nodup hN, hfeq]
    simp only [hasNodeAssignmentChanged]
    rw [if_neg (fun hne => hne hlen)]
    simp only [List.any_eq_false]
    intro x hx
    simp [(hiff x).mp hx]

/-- C9: an endpoint-slice update event enqueues the owning Service iff the
slice yields a non-empty Service key, the Service is tracked as
local-only, and the set of node names contributing ready endpoints
differs between the old and the new slice; in particular
condition-only flips and untracked Services never enqueue. -/
theorem c9_watcher_enqueue (tracked : List String) (oldSl newSl : KEndpointSlice) :
    handleEndpointSliceUpdate tracked oldSl newSl = true ↔
      (getServiceKeyFromEndpointSlice newSl ≠ "" ∧
       tracked.contains (getServiceKeyFromEndpointSlice newSl) = true ∧
       ¬ ∀ nm, specContributesReady oldSl nm = specContributesReady newSl nm) := by
  by_cases hk : getServiceKeyFromEndpointSlice newSl = ""
  · simp [handleEndpointSliceUpdate, hk]
  · by_cases ht : tracked.contains (getServiceKeyFromEndpointSlice newSl) = true
    · have hchar := hasNodeAssignmentChanged_eq_false oldSl newSl
      have htm : getServiceKeyFromEndpointSlice newSl ∈ tracked := by simpa using ht
      have hlhs : handleEndpointSliceUpdate tracked oldSl newSl
          = hasNodeAssignmentChanged oldSl newSl := by
        simp [handleEndpointSliceUpdate, hk, ht, htm]
      rw [hlhs]
      constructor
      · intro h
        refine ⟨hk, ht, ?_⟩
        intro hall
        rw [hchar.mpr hall] at h
        exact absurd h (by simp)
      · rintro ⟨-, -, hne⟩
        cases hna : hasNodeAssignmentChanged oldSl newSl
        · exact absurd (hchar.mp hna) hne
        · rfl
    · have htm : getServiceKeyFromEndpointSlice newSl ∉ tracked := by simpa using ht
      simp [handleEndpointSliceUpdate, hk, htm]

/-! ## Frame lemmas: the target-group, listener and security-group
reconciliation steps never touch the load-balancer list. -/

theorem lbs_createMissingTGs (cfg : LBCfg) (nodes : List KNode)
    (ex : List VpcLoadbalancerTargetGroup) :
    ∀ (d : List VpcLoadbalancerTargetGroup) (st : CloudState),
    (createMissingTGs cfg nodes ex d st).2.1.lbs = st.lbs := by
  intro d
  induction d with
  | nil => intro st; rfl
  | cons tg rest ih =>
    intro st
    simp only [createMissingTGs]
    by_cases h : hasTgKey ex (tgKey tg) = true
    · rw [if_pos h]; exact ih st
    · rw [if_neg h]; exact ih _

theorem lbs_updateExistingTGs (nodes : List KNode)
    (desired : List VpcLoadbalancerTargetGroup) :
    ∀ (l : List VpcLoadbalancerTargetGroup) (st : CloudState),
    (updateExistingTGs nodes desired l st).2.1.lbs = st.lbs := by
  intro l
  induction l with
  | nil => intro st; rfl
  | cons tg rest ih =>
    intro st
    simp only [updateExistingTGs]
    cases hlw : lastWithKey desired (tgKey tg) with
    | none => simp only [hlw]; exact ih st
    | some dtg =>
      simp only [hlw]
      by_cases hid : tg.identity = ""
      · rw [if_pos hid]; exact ih st
      · rw [if_neg hid]; exact ih _

theorem lbs_createOrUpdateTargetGroups (cfg : LBCfg) (svc : KService)
    (d : List VpcLoadbalancerTargetGroup) (nodes : List KNode) (st : CloudState) :
    (createOrUpdateTargetGroups cfg svc d nodes st).2.1.lbs = st.lbs := by
  simp only [createOrUpdateTargetGroups]
  rw [lbs_updateExistingTGs, lbs_createMissingTGs]

theorem lbs_deleteOrUpdateListeners (cfg : LBCfg) (svc : KService)
    (lb : VpcLoadbalancer) (dls : List VpcLoadbalancerListener)
    (tgs : List VpcLoadbalancerTargetGroup) :
    ∀ (l : List VpcLoadbalancerListener) (st : CloudState),
    (deleteOrUpdateListeners cfg svc lb dls tgs l st).1.lbs = st.lbs := by
  intro l
  induction l with
  | nil => intro st; rfl
  | cons x rest ih =>
    intro st
    simp only [deleteOrUpdateListeners]
    cases hlw : portMapLookup dls x.port with
    | none => simp only [hlw]; exact ih _
    | some ltu =>
      simp only [hlw]
      by_cases hid : getTargetGroupIdentityForListener cfg svc ltu tgs = ""
      · rw [if_pos hid]; exact ih st
      · rw [if_neg hid]; exact ih _

theorem lbs_createMissingListeners (cfg : LBCfg) (svc : KService)
    (lb : VpcLoadbalancer) (snap : List VpcLoadbalancerListener)
    (tgs : List VpcLoadbalancerTargetGroup) :
    ∀ (l : List VpcLoadbalancerListener) (st : CloudState),
    (createMissingListeners cfg svc lb snap tgs l st).1.lbs = st.lbs := by
  intro l
  induction l with
  | nil => intro st; rfl
  | cons x rest ih =>
    intro st
    simp only [createMissingListeners]
    by_cases hp : portMapHas snap x.port = true
    · rw [if_pos hp]; exact ih st
    · rw [if_neg hp]
      by_cases hid : getTargetGroupIdentityForListener cfg svc x tgs = ""
      · rw [if_pos hid]; exact ih st
      · rw [if_neg hid]; exact ih _

theorem lbs_updateVpcLoadbalancerListener (cfg : LBCfg) (svc : KService)
    (lb : VpcLoadbalancer) (dls : List VpcLoadbalancerListener)
    (tgs : List VpcLoadbalancerTargetGroup) (st : CloudState) :
    (updateVpcLoadbalancerListener cfg svc lb dls tgs st).1.lbs = st.lbs := by
  simp only [updateVpcLoadbalancerListener]
  by_cases hne : dls ≠ listListenersOf st lb.identity
  · rw [if_pos hne, lbs_createMissingListeners, lbs_deleteOrUpdateListeners]
  · rw [if_neg hne, lbs_createMissingListeners]

theorem lbs_cleanupTGsLoop (d : List VpcLoadbalancerTargetGroup) :
    ∀ (l : List VpcLoadbalancerTargetGroup) (st : CloudState),
    (cleanupTGsLoop d l st).1.lbs = st.lbs := by
  intro l
  induction l with
  | nil => intro st; rfl
  | cons tg rest ih =>
    intro st
    simp only [cleanupTGsLoop]
    by_cases h1 : tg.loadbalancerListeners.isEmpty = true
    · rw [if_neg (by simpa using h1)]
      by_cases h2 : hasTgKey d (tgKey tg) = true
      · rw [if_neg (by simpa using h2)]; exact ih st
      · rw [if_pos (by simpa using h2)]; exact ih _
    · rw [if_pos (by simpa using h1)]; exact ih st

theorem lbs_cleanupUnusedTargetGroups (cfg : LBCfg) (svc : KService)
    (d : List VpcLoadbalancerTargetGroup) (st : CloudState) :
    (cleanupUnusedTargetGroups cfg svc d st).1.lbs = st.lbs := by
  simp only [cleanupUnusedTargetGroups]
  rw [lbs_cleanupTGsLoop]

theorem lbs_ensureManagedSecurityGroup (cfg : LBCfg) (svc : KService)
    (dls : List VpcLoadbalancerListener) (st : CloudState) :
    (ensureManagedSecurityGroup cfg svc dls st).2.1.lbs = st.lbs := by
  simp only [ensureManagedSecurityGroup]
  split <;> rfl

/-! ## Preservation of the internal flag -/

theorem lbPres_of_eq {s1 s2 : CloudState} (h : s2.lbs = s1.lbs) :
    ∀ lb ∈ s1.lbs, ∃ lb' ∈ s2.lbs,
      lb'.identity = lb.identity ∧ lb'.internal = lb.internal := by
  intro lb hlb
  exact ⟨lb, by rw [h]; exact hlb, rfl, rfl⟩

theorem lbPres_trans {s1 s2 s3 : CloudState}
    (h1 : ∀ lb ∈ s1.lbs, ∃ lb' ∈ s2.lbs,
      lb'.identity = lb.identity ∧ lb'.internal = lb.internal)
    (h2 : ∀ lb ∈ s2.lbs, ∃ lb' ∈ s3.lbs,
      lb'.identity = lb.identity ∧ lb'.internal = lb.internal) :
    ∀ lb ∈ s1.lbs, ∃ lb' ∈ s3.lbs,
      lb'.identity = lb.identity ∧ lb'.internal = lb.internal := by
  intro lb h
  obtain ⟨a, ha, hai, hain⟩ := h1 lb h
  obtain ⟨b, hb, hbi, hbin⟩ := h2 a ha
  exact ⟨b, hb, hbi.trans hai, hbin.trans hain⟩

theorem applyUpdateLB_internal (st : CloudState) (id : String)
    (req : UpdateLoadbalancerReq) :
    ∀ lb ∈ st.lbs, ∃ lb' ∈ (applyUpdateLB st id req).lbs,
      lb'.identity = lb.identity ∧ lb'.internal = lb.internal := by
  intro lb hlb
  refine ⟨_, List.mem_map_of_mem _ hlb, ?_, ?_⟩ <;>
    (by_cases h : lb.identity = id <;> simp [applyUpdateLB, h])

theorem lbs_updateVpcLoadbalancer_cases (cfg : LBCfg) (svc : KService)
    (v : VpcLoadbalancer) (dls : List VpcLoadbalancerListener) (st : CloudState) :
    (updateVpcLoadbalancer cfg svc v dls st).2.1.lbs = st.lbs ∨
    ∃ s' req, s'.lbs = st.lbs ∧
      (updateVpcLoadbalancer cfg svc v dls st).2.1 = applyUpdateLB s' v.identity req := by
  simp only [updateVpcLoadbalancer]
  split
  · left; rfl
  · split <;> split <;> (try split) <;>
      first
        | (left; rfl)
        | (left; exact lbs_ensureManagedSecurityGroup cfg svc dls st)
        | (right; exact ⟨_, _, lbs_ensureManagedSecurityGroup cfg svc dls st, rfl⟩)
        | (right; exact ⟨_, _, rfl, rfl⟩)

theorem updateVpcLoadbalancer_internal (cfg : LBCfg) (svc : KService)
    (v : VpcLoadbalancer) (dls : List VpcLoadbalancerListener) (st : CloudState) :
    ∀ lb ∈ st.lbs, ∃ lb' ∈ (updateVpcLoadbalancer cfg svc v dls st).2.1.lbs,
      lb'.identity = lb.identity ∧ lb'.internal = lb.internal := by
  intro lb hlb
  rcases lbs_updateVpcLoadbalancer_cases cfg svc v dls st with h | ⟨s', req, hs', heq⟩
  · exact ⟨lb, by rw [h]; exact hlb, rfl, rfl⟩
  · rw [heq]
    exact applyUpdateLB_internal s' v.identity req lb (by rw [hs']; exact hlb)

theorem state_updateLTG (cfg : LBCfg) (svc : KService) (nodes : List KNode)
    (lbOpt : Option VpcLoadbalancer) (st : CloudState) :
    (updateVpcLoadbalancerListenersAndTargetGroups cfg svc nodes lbOpt st).2.1 = st ∨
    ∃ v k, k.lbs = st.lbs ∧
      (updateVpcLoadbalancerListenersAndTargetGroups cfg svc nodes lbOpt st).2.1 =
        (updateVpcLoadbalancer cfg svc v (desiredVpcLoadbalancerListener cfg svc) k).2.1 := by
  simp only [updateVpcLoadbalancerListenersAndTargetGroups]
  cases lbOpt with
  | none =>
    cases hf : (fetchVpcLoadbalancerFromCloud cfg svc st).1 with
    | none => simp only [hf]; left; trivial
    | some v =>
      simp only [hf]
      cases hd : getDesiredVpcLoadbalancerTargetGroups cfg svc with
      | error e => simp only [hd]; left; trivial
      | ok dtgs =>
        simp only [hd]
        split
        · right
          refine ⟨_, _, ?_, rfl⟩
          rw [lbs_cleanupUnusedTargetGroups, lbs_updateVpcLoadbalancerListener,
            lbs_createOrUpdateTargetGroups]
        · right
          refine ⟨_, _, ?_, rfl⟩
          rw [lbs_cleanupUnusedTargetGroups, lbs_updateVpcLoadbalancerListener,
            lbs_createOrUpdateTargetGroups]
  | some v =>
    cases hd : getDesiredVpcLoadbalancerTargetGroups cfg svc with
    | error e => simp only [hd]; left; trivial
    | ok dtgs =>
      simp only [hd]
      split
      · right
        refine ⟨_, _, ?_, rfl⟩
        rw [lbs_cleanupUnusedTargetGroups, lbs_updateVpcLoadbalancerListener,
          lbs_createOrUpdateTargetGroups]
      · right
        refine ⟨_, _, ?_, rfl⟩
        rw [lbs_cleanupUnusedTargetGroups, lbs_updateVpcLoadbalancerListener,
          lbs_createOrUpdateTargetGroups]

theorem updateLTG_internal (cfg : LBCfg) (svc : KService) (nodes : List KNode)
    (lbOpt : Option VpcLoadbalancer) (st : CloudState) :
    ∀ lb ∈ st.lbs,
      ∃ lb' ∈ (updateVpcLoadbalancerListenersAndTargetGroups cfg svc nodes lbOpt st).2.1.lbs,
      lb'.identity = lb.identity ∧ lb'.internal = lb.internal := by
  intro lb hlb
  rcases state_updateLTG cfg svc nodes lbOpt st with h | ⟨v, k, hk, heq⟩
  · rw [h]; exact ⟨lb, hlb, rfl, rfl⟩
  · rw [heq]
    exact updateVpcLoadbalancer_internal cfg svc v _ k lb (by rw [hk]; exact hlb)

theorem state_createVpcLoadbalancer (cfg : LBCfg) (n : String) (svc : KService)
    (st : CloudState) :
    (createVpcLoadbalancer cfg n svc st).2.1.lbs = st.lbs ∨
    ∃ s' req, s'.lbs = st.lbs ∧
      (createVpcLoadbalancer cfg n svc st).2.1 = (applyCreateLB s' req).2 := by
  simp only [createVpcLoadbalancer]
  split
  · left; trivial
  · split <;> (try split) <;> (try split) <;>
      first
        | (left; trivial)
        | (right; exact ⟨_, _,
            lbs_ensureManagedSecurityGroup cfg svc (desiredVpcLoadbalancerListener cfg svc) st,
            rfl⟩)
        | (right; exact ⟨_, _, rfl, rfl⟩)

theorem createVpcLoadbalancer_internal (cfg : LBCfg) (n : String) (svc : KService)
    (st : CloudState) :
    ∀ lb ∈ st.lbs, ∃ lb' ∈ (createVpcLoadbalancer cfg n svc st).2.1.lbs,
      lb'.identity = lb.identity ∧ lb'.internal = lb.internal := by
  intro lb hlb
  rcases state_createVpcLoadbalancer cfg n svc st with h | ⟨s', req, hs', heq⟩
  · exact ⟨lb, by rw [h]; exact hlb, rfl, rfl⟩
  · rw [heq]
    refine ⟨lb, ?_, rfl, rfl⟩
    exact List.mem_append_left _ (by rw [hs']; exact hlb)

theorem ensureLoadBalancer_internal (cfg : LBCfg) (slices : List KEndpointSlice)
    (svc : KService) (nodes0 : List KNode) (st : CloudState) :
    ∀ lb ∈ st.lbs, ∃ lb' ∈ (ensureLoadBalancer cfg slices svc nodes0 st).2.1.lbs,
      lb'.identity = lb.identity ∧ lb'.internal = lb.internal := by
  cases hf : (fetchVpcLoadbalancerFromCloud cfg svc st).1 with
  | some v =>
    have hstate : (ensureLoadBalancer cfg slices svc nodes0 st).2.1 =
        (updateVpcLoadbalancerListenersAndTargetGroups cfg svc
          (nodeFilterFilter slices svc nodes0) (some v) st).2.1 := by
      simp only [ensureLoadBalancer, hf]
    rw [hstate]
    exact updateLTG_internal cfg svc _ (some v) st
  | none =>
    cases hc : (createVpcLoadbalancer cfg (defaultLoadBalancerName svc) svc st).1 with
    | error e =>
      have hstate : (ensureLoadBalancer cfg slices svc nodes0 st).2.1 =
          (createVpcLoadbalancer cfg (defaultLoadBalancerName svc) svc st).2.1 := by
        simp only [ensureLoadBalancer, hf, hc]
      rw [hstate]
      exact createVpcLoadbalancer_internal cfg _ svc st
    | ok v =>
      have hstate : (ensureLoadBalancer cfg slices svc nodes0 st).2.1 =
          (updateVpcLoadbalancerListenersAndTargetGroups cfg svc
            (nodeFilterFilter slices svc nodes0) (some v)
            (createVpcLoadbalancer cfg (defaultLoadBalancerName svc) svc st).2.1).2.1 := by
        simp only [ensureLoadBalancer, hf, hc]
        split <;> (try split) <;> (try split) <;> (try split) <;> rfl
      rw [hstate]
      exact lbPres_trans (createVpcLoadbalancer_internal cfg _ svc st)
        (updateLTG_internal cfg svc _ (some v) _)

theorem updateLoadBalancerOp_internal (cfg : LBCfg) (slices : List KEndpointSlice)
    (svc : KService) (nodes0 : List KNode) (st : CloudState) :
    ∀ lb ∈ st.lbs, ∃ lb' ∈ (updateLoadBalancerOp cfg slices svc nodes0 st).2.1.lbs,
      lb'.identity = lb.identity ∧ lb'.internal = lb.internal := by
  cases hf : (fetchVpcLoadbalancerFromCloud cfg svc st).1 with
  | none =>
    have hstate : (updateLoadBalancerOp cfg slices svc nodes0 st).2.1 = st := by
      simp only [updateLoadBalancerOp, hf]
    rw [hstate]
    exact lbPres_of_eq rfl
  | some v =>
    have hstate : (updateLoadBalancerOp cfg slices svc nodes0 st).2.1 =
        (updateVpcLoadbalancerListenersAndTargetGroups cfg svc
          (nodeFilterFilter slices svc nodes0) (some v) st).2.1 := by
      simp only [updateLoadBalancerOp, hf]
      split <;> rfl
    rw [hstate]
    exact updateLTG_internal cfg svc _ (some v) st

/-! ## Trace-shape lemmas: which cloud calls each reconcile step can emit. -/

theorem mem_calls_verify (cfg : LBCfg) (gs : List String) (st : CloudState) :
    ∀ c ∈ (verifySecurityGroupsExist cfg gs st).2, c = CloudCall.listSecurityGroups := by
  intro c hc
  simp only [verifySecurityGroupsExist] at hc
  split at hc
  · simp at hc
  · split at hc <;> simpa using hc

theorem mem_calls_ensureManagedSG (cfg : LBCfg) (svc : KService)
    (dls : List VpcLoadbalancerListener) (st : CloudState) :
    ∀ c ∈ (ensureManagedSecurityGroup cfg svc dls st).2.2,
      c = CloudCall.listSecurityGroups ∨
      (∃ req, c = CloudCall.createSecurityGroup req) ∨
      (∃ id req, c = CloudCall.updateSecurityGroup id req) := by
  intro c hc
  simp only [ensureManagedSecurityGroup, findManagedSecurityGroup] at hc
  split at hc
  · rcases List.mem_append.mp hc with h | h
    · exact Or.inl (by simpa [fetchVpcLoadbalancerFromCloud] using h)
    · exact Or.inr (Or.inl ⟨_, by simpa using h⟩)
  · rcases List.mem_append.mp hc with h | h
    · exact Or.inl (by simpa [fetchVpcLoadbalancerFromCloud] using h)
    · exact Or.inr (Or.inr ⟨_, _, by simpa using h⟩)

theorem mem_calls_createMissingTGs (cfg : LBCfg) (nodes : List KNode)
    (ex : List VpcLoadbalancerTargetGroup) :
    ∀ (d : List VpcLoadbalancerTargetGroup) (st : CloudState),
    ∀ c ∈ (createMissingTGs cfg nodes ex d st).2.2,
      (∃ req, c = CloudCall.createTargetGroup req) ∨
      (∃ id atts, c = CloudCall.setTargetGroupAttachments id atts) := by
  intro d
  induction d with
  | nil => intro st c hc; simp [createMissingTGs] at hc
  | cons tg rest ih =>
    intro st c hc
    simp only [createMissingTGs] at hc
    by_cases h : hasTgKey ex (tgKey tg) = true
    · rw [if_pos h] at hc
      exact ih st c hc
    · rw [if_neg h] at hc
      rcases List.mem_cons.mp hc with h1 | h1
      · exact Or.inl ⟨_, h1⟩
      · rcases List.mem_append.mp h1 with h2 | h2
        · exact Or.inr ⟨_, _, List.mem_singleton.mp h2⟩
        · exact ih _ c h2

theorem mem_calls_updateExistingTGs (nodes : List KNode)
    (desired : List VpcLoadbalancerTargetGroup) :
    ∀ (l : List VpcLoadbalancerTargetGroup) (st : CloudState),
    ∀ c ∈ (updateExistingTGs nodes desired l st).2.2,
      (∃ id req, c = CloudCall.updateTargetGroup id req) ∨
      (∃ id atts, c = CloudCall.setTargetGroupAttachments id atts) := by
  intro l
  induction l with
  | nil => intro st c hc; simp [updateExistingTGs] at hc
  | cons tg rest ih =>
    intro st c hc
    simp only [updateExistingTGs] at hc
    cases hlw : lastWithKey desired (tgKey tg) with
    | none =>
      simp only [hlw] at hc
      exact ih st c hc
    | some dtg =>
      simp only [hlw] at hc
      by_cases hid : tg.identity = ""
      · rw [if_pos hid] at hc
        exact ih st c hc
      · rw [if_neg hid] at hc
        rcases List.mem_cons.mp hc with h1 | h1
        · exact Or.inl ⟨_, _, h1⟩
        · rcases List.mem_append.mp h1 with h2 | h2
          · exact Or.inr ⟨_, _, List.mem_singleton.mp h2⟩
          · exact ih _ c h2

theorem mem_calls_createOrUpdateTargetGroups (cfg : LBCfg) (svc : KService)
    (d : List VpcLoadbalancerTargetGroup) (nodes : List KNode) (st : CloudState) :
    ∀ c ∈ (createOrUpdateTargetGroups cfg svc d nodes st).2.2,
      c = CloudCall.listTargetGroups ∨
      (∃ req, c = CloudCall.createTargetGroup req) ∨
      (∃ id req, c = CloudCall.updateTargetGroup id req) ∨
      (∃ id atts, c = CloudCall.setTargetGroupAttachments id atts) := by
  intro c hc
  simp only [createOrUpdateTargetGroups] at hc
  rcases List.mem_cons.mp hc with h | h
  · exact Or.inl h
  · rcases List.mem_append.mp h with h1 | h1
    · rcases mem_calls_createMissingTGs cfg nodes _ d st c h1 with h2 | h2
      · exact Or.inr (Or.inl h2)
      · exact Or.inr (Or.inr (Or.inr h2))
    · rcases mem_calls_updateExistingTGs nodes d _ _ c h1 with h2 | h2
      · exact Or.inr (Or.inr (Or.inl h2))
      · exact Or.inr (Or.inr (Or.inr h2))

theorem mem_calls_deleteOrUpdateListeners (cfg : LBCfg) (svc : KService)
    (lb : VpcLoadbalancer) (dls : List VpcLoadbalancerListener)
    (tgs : List VpcLoadbalancerTargetGroup) :
    ∀ (l : List VpcLoadbalancerListener) (st : CloudState),
    ∀ c ∈ (deleteOrUpdateListeners cfg svc lb dls tgs l st).2,
      (∃ a b, c = CloudCall.deleteListener a b) ∨
      (∃ a b req, c = CloudCall.updateListener a b req) := by
  intro l
  induction l with
  | nil => intro st c hc; simp [deleteOrUpdateListeners] at hc
  | cons x rest ih =>
    intro st c hc
    simp only [deleteOrUpdateListeners] at hc
    cases hlw : portMapLookup dls x.port with
    | none =>
      simp only [hlw] at hc
      rcases List.mem_cons.mp hc with h1 | h1
      · exact Or.inl ⟨_, _, h1⟩
      · exact ih _ c h1
    | some ltu =>
      simp only [hlw] at hc
      by_cases hid : getTargetGroupIdentityForListener cfg svc ltu tgs = ""
      · rw [if_pos hid] at hc
        exact ih st c hc
      · rw [if_neg hid] at hc
        rcases List.mem_cons.mp hc with h1 | h1
        · exact Or.inr ⟨_, _, _, h1⟩
        · exact ih _ c h1

theorem mem_calls_createMissingListeners (cfg : LBCfg) (svc : KService)
    (lb : VpcLoadbalancer) (snap : List VpcLoadbalancerListener)
    (tgs : List VpcLoadbalancerTargetGroup) :
    ∀ (l : List VpcLoadbalancerListener) (st : CloudState),
    ∀ c ∈ (createMissingListeners cfg svc lb snap tgs l st).2,
      ∃ a req, c = CloudCall.createListener a req := by
  intro l
  induction l with
  | nil => intro st c hc; simp [createMissingListeners] at hc
  | cons x rest ih =>
    intro st c hc
    simp only [createMissingListeners] at hc
    by_cases hp : portMapHas snap x.port = true
    · rw [if_pos hp] at hc
      exact ih st c hc
    · rw [if_neg hp] at hc
      by_cases hid : getTargetGroupIdentityForListener cfg svc x tgs = ""
      · rw [if_pos hid] at hc
        exact ih st c hc
      · rw [if_neg hid] at hc
        rcases List.mem_cons.mp hc with h1 | h1
        · exact ⟨_, _, h1⟩
        · exact ih _ c h1

theorem mem_calls_updateVpcLoadbalancerListener (cfg : LBCfg) (svc : KService)
    (lb : VpcLoadbalancer) (dls : List VpcLoadbalancerListener)
    (tgs : List VpcLoadbalancerTargetGroup) (st : CloudState) :
    ∀ c ∈ (updateVpcLoadbalancerListener cfg svc lb dls tgs st).2,
      (∃ a, c = CloudCall.listListeners a) ∨
      (∃ a b, c = CloudCall.deleteListener a b) ∨
      (∃ a b req, c = CloudCall.updateListener a b req) ∨
      (∃ a req, c = CloudCall.createListener a req) := by
  intro c hc
  simp only [updateVpcLoadbalancerListener] at hc
  rcases List.mem_cons.mp hc with h | h
  · exact Or.inl ⟨_, h⟩
  · rcases List.mem_append.mp h with h1 | h1
    · by_cases hne : dls ≠ listListenersOf st lb.identity
      · rw [if_pos hne] at h1
        rcases mem_calls_deleteOrUpdateListeners cfg svc lb dls tgs _ _ c h1 with h2 | h2
        · exact Or.inr (Or.inl h2)
        · exact Or.inr (Or.inr (Or.inl h2))
      · rw [if_neg hne] at h1
        simp at h1
    · exact Or.inr (Or.inr (Or.inr
        (mem_calls_createMissingListeners cfg svc lb _ tgs _ _ c h1)))

theorem mem_calls_cleanupTGsLoop (d : List VpcLoadbalancerTargetGroup) :
    ∀ (l : List VpcLoadbalancerTargetGroup) (st : CloudState),
    ∀ c ∈ (cleanupTGsLoop d l st).2,
      ∃ tg ∈ l, tg.loadbalancerListeners = [] ∧ c = CloudCall.deleteTargetGroup tg.identity := by
  intro l
  induction l with
  | nil => intro st c hc; simp [cleanupTGsLoop] at hc
  | cons tg rest ih =>
    intro st c hc
    simp only [cleanupTGsLoop] at hc
    by_cases h1 : tg.loadbalancerListeners.isEmpty = true
    · rw [if_neg (by simp [h1])] at hc
      by_cases h2 : hasTgKey d (tgKey tg) = true
      · rw [if_neg (by simp [h2])] at hc
        obtain ⟨tg', htg', hl, he⟩ := ih st c hc
        exact ⟨tg', List.mem_cons_of_mem tg htg', hl, he⟩
      · rw [if_pos (by simpa using h2)] at hc
        rcases List.mem_cons.mp hc with h3 | h3
        · exact ⟨tg, List.mem_cons_self tg rest, by simpa using h1, h3⟩
        · obtain ⟨tg', htg', hl, he⟩ := ih _ c h3
          exact ⟨tg', List.mem_cons_of_mem tg htg', hl, he⟩
    · rw [if_pos (by simpa using h1)] at hc
      obtain ⟨tg', htg', hl, he⟩ := ih st c hc
      exact ⟨tg', List.mem_cons_of_mem tg htg', hl, he⟩

theorem mem_calls_cleanupUnusedTargetGroups (cfg : LBCfg) (svc : KService)
    (d : List VpcLoadbalancerTargetGroup) (st : CloudState) :
    ∀ c ∈ (cleanupUnusedTargetGroups cfg svc d st).2,
      c = CloudCall.listTargetGroups ∨
      ∃ tg ∈ st.tgs, tg.loadbalancerListeners = [] ∧
        c = CloudCall.deleteTargetGroup tg.identity := by
  intro c hc
  simp only [cleanupUnusedTargetGroups] at hc
  rcases List.mem_cons.mp hc with h | h
  · exact Or.inl h
  · obtain ⟨tg, htg, hl, he⟩ := mem_calls_cleanupTGsLoop d _ st c h
    exact Or.inr ⟨tg, (List.mem_filter.mp htg).1, hl, he⟩

theorem mem_calls_deleteTGsPass :
    ∀ (l : List VpcLoadbalancerTargetGroup) (st : CloudState),
    ∀ c ∈ (deleteTGsPass l st).2,
      ∃ tg ∈ l, tg.loadbalancerListeners = [] ∧
        c = CloudCall.deleteTargetGroup tg.identity := by
  intro l
  induction l with
  | nil => intro st c hc; simp [deleteTGsPass] at hc
  | cons tg rest ih =>
    intro st c hc
    simp only [deleteTGsPass] at hc
    by_cases h1 : tg.loadbalancerListeners.isEmpty = true
    · rw [if_neg (by simp [h1])] at hc
      rcases List.mem_cons.mp hc with h3 | h3
      · exact ⟨tg, List.mem_cons_self tg rest, by simpa using h1, h3⟩
      · obtain ⟨tg', htg', hl, he⟩ := ih _ c h3
        exact ⟨tg', List.mem_cons_of_mem tg htg', hl, he⟩
    · rw [if_pos (by simpa using h1)] at hc
      obtain ⟨tg', htg', hl, he⟩ := ih st c hc
      exact ⟨tg', List.mem_cons_of_mem tg htg', hl, he⟩

theorem calls_updateVpcLoadbalancer_cases (cfg : LBCfg) (svc : KService)
    (v : VpcLoadbalancer) (dls : List VpcLoadbalancerListener) (st : CloudState) :
    (updateVpcLoadbalancer cfg svc v dls st).2.2 =
      (verifySecurityGroupsExist cfg (getSecurityGroupsForService svc) st).2 ∨
    ∃ mid,
      (mid = (ensureManagedSecurityGroup cfg svc dls st).2.2 ∨ mid = []) ∧
      ((updateVpcLoadbalancer cfg svc v dls st).2.2 =
         (verifySecurityGroupsExist cfg (getSecurityGroupsForService svc) st).2 ++ mid ∨
       ∃ req,
         (updateVpcLoadbalancer cfg svc v dls st).2.2 =
           (verifySecurityGroupsExist cfg (getSecurityGroupsForService svc) st).2 ++
             mid ++ [CloudCall.updateLoadbalancer v.identity req] ∧
         req.name = v.name ∧ req.description = v.description ∧
         req.labels = v.labels ∧ req.annotations = v.annotations) := by
  simp only [updateVpcLoadbalancer]
  split
  · left; trivial
  · right
    split <;> (try split) <;> (try split) <;>
      first
        | exact ⟨_, Or.inl rfl, Or.inr ⟨_, rfl, rfl, rfl, rfl, rfl⟩⟩
        | exact ⟨_, Or.inl rfl, Or.inl rfl⟩
        | exact ⟨_, Or.inr rfl, Or.inr ⟨_, rfl, rfl, rfl, rfl, rfl⟩⟩
        | exact ⟨_, Or.inr rfl, Or.inl rfl⟩

theorem mem_calls_updateVpcLoadbalancer (cfg : LBCfg) (svc : KService)
    (v : VpcLoadbalancer) (dls : List VpcLoadbalancerListener) (st : CloudState) :
    ∀ c ∈ (updateVpcLoadbalancer cfg svc v dls st).2.2,
      c = CloudCall.listSecurityGroups ∨
      (∃ req, c = CloudCall.createSecurityGroup req) ∨
      (∃ id req, c = CloudCall.updateSecurityGroup id req) ∨
      (∃ req, c = CloudCall.updateLoadbalancer v.identity req ∧
        req.name = v.name ∧ req.description = v.description ∧
        req.labels = v.labels ∧ req.annotations = v.annotations) := by
  intro c hc
  rcases calls_updateVpcLoadbalancer_cases cfg svc v dls st with h | ⟨mid, hmid, htr⟩
  · rw [h] at hc
    exact Or.inl (mem_calls_verify cfg _ st c hc)
  · rcases htr with htr | ⟨req, htr, hn, hd2, hl, ha⟩
    · rw [htr] at hc
      rcases List.mem_append.mp hc with h | h
      · exact Or.inl (mem_calls_verify cfg _ st c h)
      · rcases hmid with rfl | rfl
        · rcases mem_calls_ensureManagedSG cfg svc dls st c h with h2 | h2 | h2
          · exact Or.inl h2
          · exact Or.inr (Or.inl h2)
          · exact Or.inr (Or.inr (Or.inl h2))
        · simp at h
    · rw [htr] at hc
      rcases List.mem_append.mp hc with h | h
      · rcases List.mem_append.mp h with h1 | h1
        · exact Or.inl (mem_calls_verify cfg _ st c h1)
        · rcases hmid with rfl | rfl
          · rcases mem_calls_ensureManagedSG cfg svc dls st c h1 with h2 | h2 | h2
            · exact Or.inl h2
            · exact Or.inr (Or.inl h2)
            · exact Or.inr (Or.inr (Or.inl h2))
          · simp at h1
      · have h3 := List.mem_singleton.mp h
        subst h3
        exact Or.inr (Or.inr (Or.inr ⟨req, rfl, hn, hd2, hl, ha⟩))

theorem mem_calls_updateLTG (cfg : LBCfg) (svc : KService) (nodes : List KNode)
    (lbOpt : Option VpcLoadbalancer) (st : CloudState) :
    ∀ c ∈ (updateVpcLoadbalancerListenersAndTargetGroups cfg svc nodes lbOpt st).2.2,
      c = CloudCall.listLoadbalancers ∨
      (∃ d n s, c ∈ (createOrUpdateTargetGroups cfg svc d n s).2.2) ∨
      (∃ lb d t s, c ∈ (updateVpcLoadbalancerListener cfg svc lb d t s).2) ∨
      (∃ d s, c ∈ (cleanupUnusedTargetGroups cfg svc d s).2) ∨
      (∃ v d s, c ∈ (updateVpcLoadbalancer cfg svc v d s).2.2) := by
  intro c hc
  simp only [updateVpcLoadbalancerListenersAndTargetGroups] at hc
  cases lbOpt with
  | some v =>
    cases hd : getDesiredVpcLoadbalancerTargetGroups cfg svc with
    | error e =>
      simp only [hd] at hc
      simp at hc
    | ok dtgs =>
      simp only [hd] at hc
      split at hc <;>
        (rcases List.mem_append.mp hc with h | h
         · rcases List.mem_append.mp h with h | h
           · rcases List.mem_append.mp h with h | h
             · rcases List.mem_append.mp h with h | h
               · simp at h
               · exact Or.inr (Or.inl ⟨_, _, _, h⟩)
             · exact Or.inr (Or.inr (Or.inl ⟨_, _, _, _, h⟩))
           · exact Or.inr (Or.inr (Or.inr (Or.inl ⟨_, _, h⟩)))
         · exact Or.inr (Or.inr (Or.inr (Or.inr ⟨_, _, _, h⟩))))
  | none =>
    cases hf : (fetchVpcLoadbalancerFromCloud cfg svc st).1 with
    | none =>
      simp only [hf] at hc
      exact Or.inl (by simpa [fetchVpcLoadbalancerFromCloud] using hc)
    | some v =>
      simp only [hf] at hc
      cases hd : getDesiredVpcLoadbalancerTargetGroups cfg svc with
      | error e =>
        simp only [hd] at hc
        exact Or.inl (by simpa [fetchVpcLoadbalancerFromCloud] using hc)
      | ok dtgs =>
        simp only [hd] at hc
        split at hc <;>
          (rcases List.mem_append.mp hc with h | h
           · rcases List.mem_append.mp h with h | h
             · rcases List.mem_append.mp h with h | h
               · rcases List.mem_append.mp h with h | h
                 · exact Or.inl (by simpa [fetchVpcLoadbalancerFromCloud] using h)
                 · exact Or.inr (Or.inl ⟨_, _, _, h⟩)
               · exact Or.inr (Or.inr (Or.inl ⟨_, _, _, _, h⟩))
             · exact Or.inr (Or.inr (Or.inr (Or.inl ⟨_, _, h⟩)))
           · exact Or.inr (Or.inr (Or.inr (Or.inr ⟨_, _, _, h⟩))))

theorem no_createLB_updateLTG (cfg : LBCfg) (svc : KService) (nodes : List KNode)
    (lbOpt : Option VpcLoadbalancer) (st : CloudState) (req : CreateLoadbalancerReq) :
    CloudCall.createLoadbalancer req ∉
      (updateVpcLoadbalancerListenersAndTargetGroups cfg svc nodes lbOpt st).2.2 := by
  intro hmem
  rcases mem_calls_updateLTG cfg svc nodes lbOpt st _ hmem with
    h | ⟨d, n, s, h⟩ | ⟨lb, d, t, s, h⟩ | ⟨d, s, h⟩ | ⟨v, d, s, h⟩
  · simp at h
  · rcases mem_calls_createOrUpdateTargetGroups cfg svc d n s _ h with
      h1 | ⟨r, h1⟩ | ⟨i, r, h1⟩ | ⟨i, a, h1⟩ <;> simp at h1
  · rcases mem_calls_updateVpcLoadbalancerListener cfg svc lb d t s _ h with
      ⟨a, h1⟩ | ⟨a, b, h1⟩ | ⟨a, b, r, h1⟩ | ⟨a, r, h1⟩ <;> simp at h1
  · rcases mem_calls_cleanupUnusedTargetGroups cfg svc d s _ h with
      h1 | ⟨tg, htg, hl, h1⟩ <;> simp at h1
  · rcases mem_calls_updateVpcLoadbalancer cfg svc v d s _ h with
      h1 | ⟨r, h1⟩ | ⟨i, r, h1⟩ | ⟨r, h1, -, -, -, -⟩ <;> simp at h1

theorem calls_createVpcLoadbalancer_cases (cfg : LBCfg) (n : String) (svc : KService)
    (st : CloudState) :
    (createVpcLoadbalancer cfg n svc st).2.2 = [CloudCall.getVpc] ∨
    (∃ gs, (createVpcLoadbalancer cfg n svc st).2.2 =
      CloudCall.getVpc :: (verifySecurityGroupsExist cfg gs st).2) ∨
    ∃ gs mid req,
      (mid = (ensureManagedSecurityGroup cfg svc
        (desiredVpcLoadbalancerListener cfg svc) st).2.2 ∨ mid = []) ∧
      req.internalLoadbalancer =
        (match annGet svc annInternal with
         | some val => (goParseBool val).getD false
         | none => false) ∧
      (createVpcLoadbalancer cfg n svc st).2.2 =
        CloudCall.getVpc :: ((verifySecurityGroupsExist cfg gs st).2 ++ mid ++
          [CloudCall.createLoadbalancer req]) := by
  simp only [createVpcLoadbalancer]
  split
  · left; trivial
  · split <;> (try split) <;> (try split) <;> (try split) <;>
      first
        | (left; trivial)
        | (right; left; exact ⟨_, rfl⟩)
        | (right; right; exact ⟨_, _, _, Or.inl rfl, rfl, rfl⟩)
        | (right; right; exact ⟨_, _, _, Or.inr rfl, rfl, rfl⟩)

theorem createLB_req_createVpcLoadbalancer (cfg : LBCfg) (n : String) (svc : KService)
    (st : CloudState) :
    ∀ req, CloudCall.createLoadbalancer req ∈ (createVpcLoadbalancer cfg n svc st).2.2 →
      req.internalLoadbalancer =
        (match annGet svc annInternal with
         | some val => (goParseBool val).getD false
         | none => false) := by
  intro req hmem
  rcases calls_createVpcLoadbalancer_cases cfg n svc st with
    h | ⟨gs, h⟩ | ⟨gs, mid, r, hmid, hint, h⟩
  · rw [h] at hmem
    simp at hmem
  · rw [h] at hmem
    rcases List.mem_cons.mp hmem with h1 | h1
    · simp at h1
    · have h2 := mem_calls_verify cfg gs st _ h1
      simp at h2
  · rw [h] at hmem
    rcases List.mem_cons.mp hmem with h1 | h1
    · simp at h1
    · rcases List.mem_append.mp h1 with h2 | h2
      · rcases List.mem_append.mp h2 with h3 | h3
        · have h4 := mem_calls_verify cfg gs st _ h3
          simp at h4
        · rcases hmid with rfl | rfl
          · rcases mem_calls_ensureManagedSG cfg svc _ st _ h3 with
              h4 | ⟨r2, h4⟩ | ⟨i2, r2, h4⟩ <;> simp at h4
          · simp at h3
      · have h3 := List.mem_singleton.mp h2
        injection h3 with h4
        subst h4
        exact hint

/-! ## Claim C2: the internal flag is immutable after creation -/

/-- C2: every load balancer present before an ensure or update reconcile
is still present afterwards with the same identity and the same internal
flag (the update request record carries no internal field); every
update-loadbalancer request preserves the balancer's name, description,
labels and annotations; and the only request that sets the internal flag
is the create request, which reads it from the internal annotation. -/
theorem c2_internal_immutable (cfg : LBCfg) (slices : List KEndpointSlice)
    (svc : KService) (nodes0 : List KNode) (st : CloudState) :
    (∀ lb ∈ st.lbs, ∃ lb' ∈ (ensureLoadBalancer cfg slices svc nodes0 st).2.1.lbs,
        lb'.identity = lb.identity ∧ lb'.internal = lb.internal) ∧
    (∀ lb ∈ st.lbs, ∃ lb' ∈ (updateLoadBalancerOp cfg slices svc nodes0 st).2.1.lbs,
        lb'.identity = lb.identity ∧ lb'.internal = lb.internal) ∧
    (∀ v dls id req,
        CloudCall.updateLoadbalancer id req ∈ (updateVpcLoadbalancer cfg svc v dls st).2.2 →
        id = v.identity ∧ req.name = v.name ∧ req.description = v.description ∧
        req.labels = v.labels ∧ req.annotations = v.annotations) ∧
    (∀ req,
        CloudCall.createLoadbalancer req ∈ (ensureLoadBalancer cfg slices svc nodes0 st).2.2 →
        req.internalLoadbalancer =
          (match annGet svc annInternal with
           | some val => (goParseBool val).getD false
           | none => false)) := by
  refine ⟨ensureLoadBalancer_internal cfg slices svc nodes0 st,
          updateLoadBalancerOp_internal cfg slices svc nodes0 st, ?_, ?_⟩
  · intro v dls id req hc
    rcases mem_calls_updateVpcLoadbalancer cfg svc v dls st _ hc with
      h | ⟨r, h⟩ | ⟨i, r, h⟩ | ⟨r, h, hn, hdd, hl, ha⟩
    · simp at h
    · simp at h
    · simp at h
    · injection h with h1 h2
      subst h1
      subst h2
      exact ⟨rfl, hn, hdd, hl, ha⟩
  · intro req hreq
    cases hf : (fetchVpcLoadbalancerFromCloud cfg svc st).1 with
    | some v =>
      have htr : (ensureLoadBalancer cfg slices svc nodes0 st).2.2 =
          (fetchVpcLoadbalancerFromCloud cfg svc st).2 ++
          (updateVpcLoadbalancerListenersAndTargetGroups cfg svc
            (nodeFilterFilter slices svc nodes0) (some v) st).2.2 := by
        simp only [ensureLoadBalancer, hf]
      rw [htr] at hreq
      rcases List.mem_append.mp hreq with h | h
      · simp [fetchVpcLoadbalancerFromCloud] at h
      · exact absurd h (no_createLB_updateLTG cfg svc _ (some v) st req)
    | none =>
      cases hcr : (createVpcLoadbalancer cfg (defaultLoadBalancerName svc) svc st).1 with
      | error e =>
        have htr : (ensureLoadBalancer cfg slices svc nodes0 st).2.2 =
            (fetchVpcLoadbalancerFromCloud cfg svc st).2 ++
            (createVpcLoadbalancer cfg (defaultLoadBalancerName svc) svc st).2.2 := by
          simp only [ensureLoadBalancer, hf, hcr]
        rw [htr] at hreq
        rcases List.mem_append.mp hreq with h | h
        · simp [fetchVpcLoadbalancerFromCloud] at h
        · exact createLB_req_createVpcLoadbalancer cfg _ svc st req h
      | ok v =>
        have htr : (ensureLoadBalancer cfg slices svc nodes0 st).2.2 =
            (fetchVpcLoadbalancerFromCloud cfg svc st).2 ++
              (createVpcLoadbalancer cfg (defaultLoadBalancerName svc) svc st).2.2 ++
              (updateVpcLoadbalancerListenersAndTargetGroups cfg svc
                (nodeFilterFilter slices svc nodes0) (some v)
                (createVpcLoadbalancer cfg (defaultLoadBalancerName svc) svc st).2.1).2.2 ∨
            (ensureLoadBalancer cfg slices svc nodes0 st).2.2 =
            (fetchVpcLoadbalancerFromCloud cfg svc st).2 ++
              (createVpcLoadbalancer cfg (defaultLoadBalancerName svc) svc st).2.2 ++
              (updateVpcLoadbalancerListenersAndTargetGroups cfg svc
                (nodeFilterFilter slices svc nodes0) (some v)
                (createVpcLoadbalancer cfg (defaultLoadBalancerName svc) svc st).2.1).2.2 ++
              [CloudCall.listLoadbalancers] := by
          simp only [ensureLoadBalancer, hf, hcr]
          split <;> (try split) <;> (try split) <;> (try split) <;>
            first | (left; rfl) | (right; rfl)
        rcases htr with htr | htr <;> rw [htr] at hreq
        · rcases List.mem_append.mp hreq with h | h
          · rcases List.mem_append.mp h with h1 | h1
            · simp [fetchVpcLoadbalancerFromCloud] at h1
            · exact createLB_req_createVpcLoadbalancer cfg _ svc st req h1
          · exact absurd h (no_createLB_updateLTG cfg svc _ (some v) _ req)
        · rcases List.mem_append.mp hreq with h | h
          · rcases List.mem_append.mp h with h1 | h1
            · rcases List.mem_append.mp h1 with h2 | h2
              · simp [fetchVpcLoadbalancerFromCloud] at h2
              · exact createLB_req_createVpcLoadbalancer cfg _ svc st req h2
            · exact absurd h1 (no_createLB_updateLTG cfg svc _ (some v) _ req)
          · simp at h

/-- Witness for C2: the converged example balancer survives a second
ensure with its identity and internal flag intact. -/
theorem c2_internal_immutable_witness :
    ∃ lb' ∈ (ensureLoadBalancer exCfg [] exSvc [exNode] exStateLB).2.1.lbs,
      lb'.identity = exLB.identity ∧ lb'.internal = exLB.internal :=
  (c2_internal_immutable exCfg [] exSvc [exNode] exStateLB).1 exLB (by decide)

/-! ## Claim C3: target groups with listeners are never deleted -/

/-- C3: a delete-target-group call is only ever emitted for a target
group that the relevant listing showed with an empty loadbalancer-listener
list: the reconcile cleanup only deletes groups listed without listeners
in the entry state, and the deletion pass of EnsureLoadBalancerDeleted
only deletes groups listed without listeners after the balancer (and its
listeners) were deleted. -/
theorem c3_no_referenced_tg_deleted (cfg : LBCfg) (svc : KService)
    (d : List VpcLoadbalancerTargetGroup) (st : CloudState) :
    (∀ id, CloudCall.deleteTargetGroup id ∈ (cleanupUnusedTargetGroups cfg svc d st).2 →
      ∃ tg ∈ st.tgs, tg.identity = id ∧ tg.loadbalancerListeners = []) ∧
    (∀ id, CloudCall.deleteTargetGroup id ∈ (ensureLoadBalancerDeleted cfg svc st).2.2 →
      (∃ tg ∈ st.tgs, tg.identity = id ∧ tg.loadbalancerListeners = []) ∨
      (∃ lb, (fetchVpcLoadbalancerFromCloud cfg svc st).1 = some lb ∧
        ∃ tg ∈ (applyDeleteLB (cleanupUnusedTargetGroups cfg svc [] st).1 lb.identity).tgs,
          tg.identity = id ∧ tg.loadbalancerListeners = [])) := by
  constructor
  · intro id hmem
    rcases mem_calls_cleanupUnusedTargetGroups cfg svc d st _ hmem with h | ⟨tg, htg, hl, he⟩
    · simp at h
    · injection he with h1
      exact ⟨tg, htg, h1.symm, hl⟩
  · intro id hmem
    cases hf : (fetchVpcLoadbalancerFromCloud cfg svc st).1 with
    | none =>
      have htr : (ensureLoadBalancerDeleted cfg svc st).2.2 =
          (fetchVpcLoadbalancerFromCloud cfg svc st).2 := by
        simp only [ensureLoadBalancerDeleted, hf]
      rw [htr] at hmem
      simp [fetchVpcLoadbalancerFromCloud] at hmem
    | some lb =>
      cases hf2 : (fetchVpcLoadbalancerFromCloud cfg svc
          (applyDeleteLB (cleanupUnusedTargetGroups cfg svc [] st).1 lb.identity)).1 with
      | some w =>
        have htr : (ensureLoadBalancerDeleted cfg svc st).2.2 =
            (fetchVpcLoadbalancerFromCloud cfg svc st).2 ++
            (cleanupUnusedTargetGroups cfg svc [] st).2 ++
            [CloudCall.deleteLoadbalancer lb.identity] ++
            [CloudCall.listLoadbalancers] := by
          simp only [ensureLoadBalancerDeleted, hf, hf2]
          rfl
        rw [htr] at hmem
        rcases List.mem_append.mp hmem with h | h
        · rcases List.mem_append.mp h with h1 | h1
          · rcases List.mem_append.mp h1 with h2 | h2
            · simp [fetchVpcLoadbalancerFromCloud] at h2
            · rcases mem_calls_cleanupUnusedTargetGroups cfg svc [] st _ h2 with
                h3 | ⟨tg, htg, hl, he⟩
              · simp at h3
              · injection he with hid
                exact Or.inl ⟨tg, htg, hid.symm, hl⟩
          · simp at h1
        · simp at h
      | none =>
        obtain ⟨wtr, hwtr, htr⟩ :
            ∃ wtr,
              (wtr = [] ∨ ∃ sgid, wtr = [CloudCall.deleteSecurityGroup sgid]) ∧
              (ensureLoadBalancerDeleted cfg svc st).2.2 =
                (fetchVpcLoadbalancerFromCloud cfg svc st).2 ++
                (cleanupUnusedTargetGroups cfg svc [] st).2 ++
                [CloudCall.deleteLoadbalancer lb.identity] ++
                [CloudCall.listLoadbalancers] ++
                (CloudCall.listTargetGroups ::
                  (deleteTGsPass
                    (listTargetGroupsByLabels
                      (applyDeleteLB (cleanupUnusedTargetGroups cfg svc [] st).1 lb.identity)
                      (getLabelsForVpcLoadbalancer cfg svc))
                    (applyDeleteLB (cleanupUnusedTargetGroups cfg svc [] st).1 lb.identity)).2) ++
                [CloudCall.listSecurityGroups] ++ wtr := by
          simp only [ensureLoadBalancerDeleted, hf, hf2]
          split <;>
            first
              | exact ⟨_, Or.inl rfl, rfl⟩
              | exact ⟨_, Or.inr ⟨_, rfl⟩, rfl⟩
        rw [htr] at hmem
        rcases List.mem_append.mp hmem with h | h
        · rcases List.mem_append.mp h with h | h
          · rcases List.mem_append.mp h with h | h
            · rcases List.mem_append.mp h with h | h
              · rcases List.mem_append.mp h with h | h
                · rcases List.mem_append.mp h with h | h
                  · simp [fetchVpcLoadbalancerFromCloud] at h
                  · rcases mem_calls_cleanupUnusedTargetGroups cfg svc [] st _ h with
                      h3 | ⟨tg, htg, hl, he⟩
                    · simp at h3
                    · injection he with hid
                      exact Or.inl ⟨tg, htg, hid.symm, hl⟩
                · simp at h
              · simp at h
            · rcases List.mem_cons.mp h with h | h
              · simp at h
              · obtain ⟨tg, htg, hl, he⟩ := mem_calls_deleteTGsPass _ _ _ h
                injection he with hid
                exact Or.inr ⟨lb, rfl, tg, (List.mem_filter.mp htg).1, hid.symm, hl⟩
          · simp at h
        · rcases hwtr with rfl | ⟨sgid, rfl⟩
          · simp at h
          · simp at h

/-- Witness for C3: the unused example target group is deleted by the
cleanup, and it indeed carried no listeners in the entry state. -/
theorem c3_no_referenced_tg_deleted_witness :
    ∃ tg ∈ exStateTG.tgs, tg.identity = "tg1" ∧ tg.loadbalancerListeners = [] :=
  (c3_no_referenced_tg_deleted exCfg exSvc [] exStateTG).1 "tg1" (by decide)

/-! ## Label-map lemmas: the canonical label builders produce maps with
distinct keys, so a managed object always matches its own labels, and an
extension of the balancer labels still matches them. -/

theorem labelsGet_append_some (a b : LabelMap) (k v : String)
    (h : labelsGet a k = some v) : labelsGet (a ++ b) k = some v := by
  induction a with
  | nil => simp [labelsGet] at h
  | cons q rest ih =>
    rw [List.cons_append]
    by_cases hq : q.1 = k
    · rw [labelsGet, List.find?_cons_of_pos _ (by simp [hq])] at h
      rw [labelsGet, List.find?_cons_of_pos _ (by simp [hq])]
      exact h
    · rw [labelsGet, List.find?_cons_of_neg _ (by simp [hq])] at h
      rw [labelsGet, List.find?_cons_of_neg _ (by simp [hq])]
      exact ih h

theorem not_mem_keys_of_labelsGet_none (a : LabelMap) (k : String)
    (h : labelsGet a k = none) : k ∉ a.map Prod.fst := by
  intro hk
  obtain ⟨p, hp, hpk⟩ := List.mem_map.mp hk
  simp only [labelsGet, Option.map_eq_none', List.find?_eq_none] at h
  exact absurd (by simpa using hpk) (h p hp)

theorem mergeIfAbsent_prefix (extra : LabelMap) :
    ∀ base : LabelMap, ∃ t, mergeIfAbsent base extra = base ++ t := by
  induction extra with
  | nil => exact fun base => ⟨[], by simp [mergeIfAbsent]⟩
  | cons p rest ih =>
    intro base
    obtain ⟨t, ht⟩ := ih (insertIfAbsent base p.1 p.2)
    have h3 : mergeIfAbsent base (p :: rest) =
        mergeIfAbsent (insertIfAbsent base p.1 p.2) rest := by
      simp [mergeIfAbsent]
    by_cases h : (labelsGet base p.1).isSome = true
    · refine ⟨t, ?_⟩
      have h2 : insertIfAbsent base p.1 p.2 = base := by simp [insertIfAbsent, h]
      rw [h3, h2]
      rw [h2] at ht
      exact ht
    · refine ⟨(p.1, p.2) :: t, ?_⟩
      have h2 : insertIfAbsent base p.1 p.2 = base ++ [(p.1, p.2)] := by
        simp [insertIfAbsent, h]
      rw [h3, h2]
      rw [h2] at ht
      rw [ht]
      simp

theorem nodupKeys_mergeIfAbsent (extra : LabelMap) :
    ∀ base : LabelMap, (base.map Prod.fst).Nodup →
    ((mergeIfAbsent base extra).map Prod.fst).Nodup := by
  induction extra with
  | nil => intro base h; simpa [mergeIfAbsent] using h
  | cons p rest ih =>
    intro base h
    have h3 : mergeIfAbsent base (p :: rest) =
        mergeIfAbsent (insertIfAbsent base p.1 p.2) rest := by
      simp [mergeIfAbsent]
    rw [h3]
    by_cases hs : (labelsGet base p.1).isSome = true
    · have h2 : insertIfAbsent base p.1 p.2 = base := by simp [insertIfAbsent, hs]
      rw [h2]
      exact ih base h
    · have h2 : insertIfAbsent base p.1 p.2 = base ++ [(p.1, p.2)] := by
        simp [insertIfAbsent, hs]
      rw [h2]
      apply ih
      have hnone : labelsGet base p.1 = none := by
        cases hlg : labelsGet base p.1 with
        | none => rfl
        | some v => rw [hlg] at hs; simp at hs
      have hnm := not_mem_keys_of_labelsGet_none base p.1 hnone
      simp only [List.map_append, List.map_cons, List.map_nil]
      rw [List.nodup_append]
      exact ⟨h, List.nodup_singleton _, by simpa [List.disjoint_singleton] using hnm⟩

theorem labelsGet_self (l : LabelMap) (h : (l.map Prod.fst).Nodup) :
    ∀ p ∈ l, labelsGet l p.1 = some p.2 := by
  induction l with
  | nil => simp
  | cons q rest ih =>
    intro p hp
    rcases List.mem_cons.mp hp with rfl | hp2
    · simp [labelsGet]
    · have hne : ¬ q.1 = p.1 := by
        intro he
        have hmem : p.1 ∈ rest.map Prod.fst := List.mem_map_of_mem _ hp2
        rw [← he] at hmem
        exact (List.nodup_cons.mp (by simpa using h)).1 hmem
      have hrec := ih (List.nodup_cons.mp (by simpa using h)).2 p hp2
      rw [labelsGet, List.find?_cons_of_neg _ (by simp [hne])]
      exact hrec

theorem matchLabels_self (l : LabelMap) (h : (l.map Prod.fst).Nodup) :
    matchLabels l l = true := by
  rw [matchLabels, List.all_eq_true]
  intro p hp
  simp only [labelsGetD, labelsGet_self l h p hp, Option.getD_some, decide_eq_true_eq]

theorem matchLabels_append (base t : LabelMap) (h : (base.map Prod.fst).Nodup) :
    matchLabels base (base ++ t) = true := by
  rw [matchLabels, List.all_eq_true]
  intro p hp
  simp only [labelsGetD, labelsGet_append_some base t p.1 p.2 (labelsGet_self base h p hp),
    Option.getD_some, decide_eq_true_eq]

theorem nodupKeys_lbLabels (cfg : LBCfg) (svc : KService) :
    ((getLabelsForVpcLoadbalancer cfg svc).map Prod.fst).Nodup := by
  apply nodupKeys_mergeIfAbsent
  simp

theorem matchLabels_lb_tg (cfg : LBCfg) (svc : KService) (p : Int) (proto : String) :
    matchLabels (getLabelsForVpcLoadbalancer cfg svc)
      (getLabelsForVpcLoadbalancerTargetGroup cfg svc p proto) = true := by
  obtain ⟨t, ht⟩ := mergeIfAbsent_prefix
    [("k8s.thalassa.cloud/kubernetes-service-port", toString p),
     ("k8s.thalassa.cloud/kubernetes-service-protocol", lowerStr proto)]
    (getLabelsForVpcLoadbalancer cfg svc)
  rw [getLabelsForVpcLoadbalancerTargetGroup, ht]
  exact matchLabels_append _ t (nodupKeys_lbLabels cfg svc)

theorem nodupKeys_tgLabels (cfg : LBCfg) (svc : KService) (p : Int) (proto : String) :
    ((getLabelsForVpcLoadbalancerTargetGroup cfg svc p proto).map Prod.fst).Nodup := by
  apply nodupKeys_mergeIfAbsent
  exact nodupKeys_lbLabels cfg svc

theorem matchLabels_tg_self (cfg : LBCfg) (svc : KService) (p : Int) (proto : String) :
    matchLabels (getLabelsForVpcLoadbalancerTargetGroup cfg svc p proto)
      (getLabelsForVpcLoadbalancerTargetGroup cfg svc p proto) = true :=
  matchLabels_self _ (nodupKeys_tgLabels cfg svc p proto)

theorem lowerChar_idem (c : Char) : lowerChar (lowerChar c) = lowerChar c := by
  unfold lowerChar
  by_cases h : 65 ≤ c.toNat ∧ c.toNat ≤ 90
  · have ht : (Char.ofNat (c.toNat + 32)).toNat = c.toNat + 32 := by
      have hv : (c.toNat + 32).isValidChar := Or.inl (by omega)
      rw [Char.ofNat, dif_pos hv]
      rfl
    rw [if_pos h, if_neg (by rw [ht]; omega)]
  · rw [if_neg h, if_neg h]

theorem lowerStr_idem (s : String) : lowerStr (lowerStr s) = lowerStr s := by
  simp only [lowerStr, List.map_map]
  exact congrArg String.mk (by
    have : (lowerChar ∘ lowerChar) = lowerChar := by
      funext c
      exact lowerChar_idem c
    rw [this])

theorem tgLabels_lower (cfg : LBCfg) (svc : KService) (p : Int) (proto : String) :
    getLabelsForVpcLoadbalancerTargetGroup cfg svc p (lowerStr proto) =
    getLabelsForVpcLoadbalancerTargetGroup cfg svc p proto := by
  simp only [getLabelsForVpcLoadbalancerTargetGroup, lowerStr_idem]

/-! ## Generic lemmas about the fold-based map lookups of the source -/

theorem foldl_pick_spec {α : Type} (p : α → Prop) [DecidablePred p] :
    ∀ (l : List α) (acc : Option α) (y : α),
      l.foldl (fun acc x => if p x then some x else acc) acc = some y →
      (y ∈ l ∧ p y) ∨ acc = some y := by
  intro l
  induction l with
  | nil => intro acc y h; exact Or.inr h
  | cons x rest ih =>
    intro acc y h
    simp only [List.foldl_cons] at h
    rcases ih _ y h with ⟨hm, hp⟩ | hacc
    · exact Or.inl ⟨List.mem_cons_of_mem _ hm, hp⟩
    · by_cases hx : p x
      · rw [if_pos hx] at hacc
        injection hacc with he
        subst he
        exact Or.inl ⟨List.mem_cons_self x rest, hx⟩
      · rw [if_neg hx] at hacc
        exact Or.inr hacc

theorem foldl_pick_isSome {α : Type} (p : α → Prop) [DecidablePred p] :
    ∀ (l : List α) (acc : Option α),
      (∃ x ∈ l, p x) ∨ acc.isSome = true →
      (l.foldl (fun acc x => if p x then some x else acc) acc).isSome = true := by
  intro l
  induction l with
  | nil =>
    intro acc h
    rcases h with ⟨x, hx, _⟩ | h
    · simp at hx
    · simpa using h
  | cons x rest ih =>
    intro acc h
    simp only [List.foldl_cons]
    apply ih
    rcases h with ⟨z, hz, hp⟩ | h
    · rcases List.mem_cons.mp hz with rfl | hz2
      · right
        rw [if_pos hp]
        rfl
      · exact Or.inl ⟨z, hz2, hp⟩
    · right
      by_cases hx : p x
      · rw [if_pos hx]; rfl
      · rw [if_neg hx]; exact h

theorem portMapLookup_spec (l : List VpcLoadbalancerListener) (port : Int) (y : VpcLoadbalancerListener)
    (h : portMapLookup l port = some y) : y ∈ l ∧ y.port = port := by
  have h' : l.foldl (fun acc x => if x.port = port then some x else acc) none = some y := h
  rcases foldl_pick_spec (fun x => x.port = port) l none y h' with ⟨hm, hp⟩ | hacc
  · exact ⟨hm, by simpa using hp⟩
  · simp at hacc

theorem portMapLookup_isSome (l : List VpcLoadbalancerListener) (port : Int)
    (h : ∃ y ∈ l, y.port = port) : (portMapLookup l port).isSome = true := by
  show (l.foldl (fun acc x => if x.port = port then some x else acc) none).isSome = true
  obtain ⟨y, hy, hp⟩ := h
  exact @foldl_pick_isSome VpcLoadbalancerListener (fun x => x.port = port) _ l none
    (Or.inl ⟨y, hy, hp⟩)

theorem lastWithKey_spec (l : List VpcLoadbalancerTargetGroup) (k : String)
    (y : VpcLoadbalancerTargetGroup) (h : lastWithKey l k = some y) :
    y ∈ l ∧ tgKey y = k := by
  have h' : l.foldl (fun acc tg => if tgKey tg = k then some tg else acc) none = some y := h
  rcases foldl_pick_spec (fun tg => tgKey tg = k) l none y h' with ⟨hm, hp⟩ | hacc
  · exact ⟨hm, by simpa using hp⟩
  · simp at hacc

theorem lastWithKey_isSome (l : List VpcLoadbalancerTargetGroup) (k : String)
    (h : ∃ y ∈ l, tgKey y = k) : (lastWithKey l k).isSome = true := by
  show (l.foldl (fun acc tg => if tgKey tg = k then some tg else acc) none).isSome = true
  obtain ⟨y, hy, hp⟩ := h
  exact @foldl_pick_isSome VpcLoadbalancerTargetGroup (fun tg => tgKey tg = k) _ l none
    (Or.inl ⟨y, hy, hp⟩)

/-! ## Frame lemmas for the remaining state components -/

theorem frames_createMissingTGs (cfg : LBCfg) (nodes : List KNode)
    (ex : List VpcLoadbalancerTargetGroup) :
    ∀ (d : List VpcLoadbalancerTargetGroup) (st : CloudState),
      (createMissingTGs cfg nodes ex d st).2.1.listeners = st.listeners ∧
      (createMissingTGs cfg nodes ex d st).2.1.sgs = st.sgs ∧
      st.nextId ≤ (createMissingTGs cfg nodes ex d st).2.1.nextId := by
  intro d
  induction d with
  | nil => intro st; exact ⟨rfl, rfl, Nat.le_refl _⟩
  | cons tg rest ih =>
    intro st
    simp only [createMissingTGs]
    by_cases h : hasTgKey ex (tgKey tg) = true
    · rw [if_pos h]; exact ih st
    · rw [if_neg h]
      obtain ⟨h1, h2, h3⟩ := ih _
      exact ⟨h1.trans rfl, h2.trans rfl, le_trans (Nat.le_succ _) h3⟩

theorem frames_updateExistingTGs (nodes : List KNode)
    (desired : List VpcLoadbalancerTargetGroup) :
    ∀ (l : List VpcLoadbalancerTargetGroup) (st : CloudState),
      (updateExistingTGs nodes desired l st).2.1.listeners = st.listeners ∧
      (updateExistingTGs nodes desired l st).2.1.sgs = st.sgs ∧
      st.nextId ≤ (updateExistingTGs nodes desired l st).2.1.nextId := by
  intro l
  induction l with
  | nil => intro st; exact ⟨rfl, rfl, Nat.le_refl _⟩
  | cons tg rest ih =>
    intro st
    simp only [updateExistingTGs]
    cases hlw : lastWithKey desired (tgKey tg) with
    | none => simp only [hlw]; exact ih st
    | some dtg =>
      simp only [hlw]
      by_cases hid : tg.identity = ""
      · rw [if_pos hid]; exact ih st
      · rw [if_neg hid]
        obtain ⟨h1, h2, h3⟩ := ih _
        exact ⟨h1.trans rfl, h2.trans rfl, le_trans (Nat.le_refl _) h3⟩

theorem frames_createOrUpdateTargetGroups (cfg : LBCfg) (svc : KService)
    (d : List VpcLoadbalancerTargetGroup) (nodes : List KNode) (st : CloudState) :
    (createOrUpdateTargetGroups cfg svc d nodes st).2.1.listeners = st.listeners ∧
    (createOrUpdateTargetGroups cfg svc d nodes st).2.1.sgs = st.sgs ∧
    st.nextId ≤ (createOrUpdateTargetGroups cfg svc d nodes st).2.1.nextId := by
  simp only [createOrUpdateTargetGroups]
  obtain ⟨h1, h2, h3⟩ := frames_createMissingTGs cfg nodes _ d st
  obtain ⟨h4, h5, h6⟩ := frames_updateExistingTGs nodes d _ (createMissingTGs cfg nodes
    (listTargetGroupsByLabels st (getLabelsForVpcLoadbalancer cfg svc)) d st).2.1
  exact ⟨h4.trans h1, h5.trans h2, le_trans h3 h6⟩

theorem tgs_frame_deleteOrUpdateListeners (cfg : LBCfg) (svc : KService)
    (lb : VpcLoadbalancer) (dls : List VpcLoadbalancerListener)
    (tgs : List VpcLoadbalancerTargetGroup) :
    ∀ (l : List VpcLoadbalancerListener) (st : CloudState),
      (∀ x ∈ l, portMapHas dls x.port = true) →
      (deleteOrUpdateListeners cfg svc lb dls tgs l st).1.tgs = st.tgs ∧
      (deleteOrUpdateListeners cfg svc lb dls tgs l st).1.sgs = st.sgs ∧
      (deleteOrUpdateListeners cfg svc lb dls tgs l st).1.lbs = st.lbs := by
  intro l
  induction l with
  | nil => intro st _; exact ⟨rfl, rfl, rfl⟩
  | cons x rest ih =>
    intro st hall
    have hx : portMapHas dls x.port = true := hall x (List.mem_cons_self x rest)
    have hrest : ∀ z ∈ rest, portMapHas dls z.port = true :=
      fun z hz => hall z (List.mem_cons_of_mem x hz)
    simp only [deleteOrUpdateListeners]
    cases hlw : portMapLookup dls x.port with
    | none =>
      exfalso
      have := portMapLookup_isSome dls x.port (by
        simp only [portMapHas, List.any_eq_true] at hx
        obtain ⟨y, hy, hp⟩ := hx
        exact ⟨y, hy, by simpa using hp⟩)
      rw [hlw] at this
      simp at this
    | some ltu =>
      simp only [hlw]
      by_cases hid : getTargetGroupIdentityForListener cfg svc ltu tgs = ""
      · rw [if_pos hid]; exact ih st hrest
      · rw [if_neg hid]
        obtain ⟨h1, h2, h3⟩ := ih _ hrest
        exact ⟨h1.trans rfl, h2.trans rfl, h3.trans rfl⟩

theorem createMissingListeners_noop (cfg : LBCfg) (svc : KService)
    (lb : VpcLoadbalancer) (snap : List VpcLoadbalancerListener)
    (tgs : List VpcLoadbalancerTargetGroup) :
    ∀ (l : List VpcLoadbalancerListener) (st : CloudState),
      (∀ x ∈ l, portMapHas snap x.port = true) →
      createMissingListeners cfg svc lb snap tgs l st = (st, []) := by
  intro l
  induction l with
  | nil => intro st _; rfl
  | cons x rest ih =>
    intro st hall
    have hx : portMapHas snap x.port = true := hall x (List.mem_cons_self x rest)
    simp only [createMissingListeners]
    rw [if_pos hx]
    exact ih st (fun z hz => hall z (List.mem_cons_of_mem x hz))

theorem createMissingTGs_noop (cfg : LBCfg) (nodes : List KNode)
    (ex : List VpcLoadbalancerTargetGroup) :
    ∀ (d : List VpcLoadbalancerTargetGroup) (st : CloudState),
      (∀ tg ∈ d, hasTgKey ex (tgKey tg) = true) →
      createMissingTGs cfg nodes ex d st = ([], st, []) := by
  intro d
  induction d with
  | nil => intro st _; rfl
  | cons tg rest ih =>
    intro st hall
    have hx : hasTgKey ex (tgKey tg) = true := hall tg (List.mem_cons_self tg rest)
    simp only [createMissingTGs]
    rw [if_pos hx]
    exact ih st (fun z hz => hall z (List.mem_cons_of_mem tg hz))

theorem cleanupTGsLoop_noop (d : List VpcLoadbalancerTargetGroup) :
    ∀ (l : List VpcLoadbalancerTargetGroup) (st : CloudState),
      (∀ tg ∈ l, hasTgKey d (tgKey tg) = true ∨ tg.loadbalancerListeners ≠ []) →
      cleanupTGsLoop d l st = (st, []) := by
  intro l
  induction l with
  | nil => intro st _; rfl
  | cons tg rest ih =>
    intro st hall
    have hrest : ∀ z ∈ rest, hasTgKey d (tgKey z) = true ∨ z.loadbalancerListeners ≠ [] :=
      fun z hz => hall z (List.mem_cons_of_mem tg hz)
    simp only [cleanupTGsLoop]
    rcases hall tg (List.mem_cons_self tg rest) with hk | hne
    · by_cases h1 : tg.loadbalancerListeners.isEmpty = true
      · rw [if_neg (by simp [h1]), if_neg (by simp [hk])]
        exact ih st hrest
      · rw [if_pos (by simpa using h1)]
        exact ih st hrest
    · have h1 : tg.loadbalancerListeners.isEmpty = false := by
        cases hh : tg.loadbalancerListeners.isEmpty
        · rfl
        · exact absurd (by simpa using hh) hne
      rw [if_pos (by simp [h1])]
      exact ih st hrest

/-! ## Target-group phase: identities, coverage of the desired keys -/

theorem freshIdentity_length (n : Nat) : (freshIdentity n).length = n + 1 := by
  simp [freshIdentity, String.length]

theorem freshIdentity_ne_empty (n : Nat) : freshIdentity n ≠ "" := by
  intro h
  have := congrArg String.length h
  rw [freshIdentity_length] at this
  simp [String.length] at this

theorem ne_of_length_ne {a b : String} (h : a.length ≠ b.length) : a ≠ b :=
  fun he => h (he ▸ rfl)

theorem hasTgKey_iff (l : List VpcLoadbalancerTargetGroup) (k : String) :
    hasTgKey l k = true ↔ ∃ x ∈ l, tgKey x = k := by
  simp [hasTgKey, List.any_eq_true]

theorem applyUpdateTG_ret (st : CloudState) (id : String) (req : UpdateTargetGroupReq)
    (hex : ∃ y ∈ st.tgs, y.identity = id) :
    (applyUpdateTG st id req).1.labels = req.labels ∧
    (applyUpdateTG st id req).1.identity = id := by
  obtain ⟨y, hy, hyid⟩ := hex
  have hsome : ∃ z, ((applyUpdateTG st id req).2.tgs.find? (fun tg => tg.identity = id)) = some z := by
    have hmem : tgApplyUpdate y req ∈ (applyUpdateTG st id req).2.tgs := by
      simp only [applyUpdateTG]
      have : tgApplyUpdate y req = (if y.identity = id then tgApplyUpdate y req else y) := by
        rw [if_pos hyid]
      rw [this]
      exact List.mem_map_of_mem _ hy
    cases hf : (applyUpdateTG st id req).2.tgs.find? (fun tg => tg.identity = id) with
    | some z => exact ⟨z, rfl⟩
    | none =>
      exfalso
      have := List.find?_eq_none.mp hf _ hmem
      simp [tgApplyUpdate, hyid] at this
  obtain ⟨z, hz⟩ := hsome
  have hzid : z.identity = id := by simpa using List.find?_some hz
  have hzmem : z ∈ (applyUpdateTG st id req).2.tgs := List.mem_of_find?_eq_some hz
  have hzlab : z.labels = req.labels := by
    simp only [applyUpdateTG] at hzmem
    obtain ⟨w, hw, hwz⟩ := List.mem_map.mp hzmem
    by_cases hwid : w.identity = id
    · rw [if_pos hwid] at hwz
      rw [← hwz]
      rfl
    · rw [if_neg hwid] at hwz
      rw [← hwz] at hzid
      exact absurd hzid hwid
  have hret : (applyUpdateTG st id req).1 = z := by
    simp only [applyUpdateTG] at hz ⊢
    rw [hz]
    rfl
  rw [hret]
  exact ⟨hzlab, hzid⟩

theorem idpres_applyUpdateTG (st : CloudState) (id : String) (req : UpdateTargetGroupReq)
    (i : String) (h : ∃ y ∈ st.tgs, y.identity = i) :
    ∃ y ∈ (applyUpdateTG st id req).2.tgs, y.identity = i := by
  obtain ⟨y, hy, hyid⟩ := h
  refine ⟨if y.identity = id then tgApplyUpdate y req else y, ?_, ?_⟩
  · simp only [applyUpdateTG]
    exact List.mem_map_of_mem _ hy
  · by_cases hc : y.identity = id
    · rw [if_pos hc]
      simpa [tgApplyUpdate] using hyid
    · rw [if_neg hc]
      exact hyid

theorem idpres_applySetTGAttachments (st : CloudState) (id : String) (servers : List String)
    (i : String) (h : ∃ y ∈ st.tgs, y.identity = i) :
    ∃ y ∈ (applySetTGAttachments st id servers).tgs, y.identity = i := by
  obtain ⟨y, hy, hyid⟩ := h
  refine ⟨if y.identity = id then { y with serverAttachments := servers } else y, ?_, ?_⟩
  · simp only [applySetTGAttachments]
    exact List.mem_map_of_mem _ hy
  · by_cases hc : y.identity = id
    · rw [if_pos hc]
      simpa using hyid
    · rw [if_neg hc]
      exact hyid

/-- A pre-existing target group survives one create-and-attach step
unchanged (the attachment call targets the freshly created identity). -/
theorem mem_create_att (st : CloudState) (req : CreateTargetGroupReq)
    (nodes : List KNode) (tg' : VpcLoadbalancerTargetGroup) (hm : tg' ∈ st.tgs)
    (hne : tg'.identity ≠ freshIdentity st.nextId) :
    tg' ∈ (upgradeTargetGroupAttachments (applyCreateTG st req).1 nodes
      (applyCreateTG st req).2).1.tgs := by
  simp only [upgradeTargetGroupAttachments, applySetTGAttachments, applyCreateTG]
  refine List.mem_map.mpr ⟨tg', List.mem_append_left _ hm, ?_⟩
  rw [if_neg hne]

/-- A target group whose identity is within the current freshness bound
survives the create loop with its reconciliation-relevant fields intact. -/
theorem createMissingTGs_preserves (cfg : LBCfg) (nodes : List KNode)
    (ex : List VpcLoadbalancerTargetGroup) :
    ∀ (d : List VpcLoadbalancerTargetGroup) (st : CloudState)
      (tg' : VpcLoadbalancerTargetGroup),
      tg' ∈ st.tgs → tg'.identity.length ≤ st.nextId →
      ∃ tg'' ∈ (createMissingTGs cfg nodes ex d st).2.1.tgs,
        tg''.identity = tg'.identity ∧ tg''.labels = tg'.labels ∧
        tg''.protocol = tg'.protocol ∧ tg''.targetPort = tg'.targetPort := by
  intro d
  induction d with
  | nil => intro st tg' hm _; exact ⟨tg', hm, rfl, rfl, rfl, rfl⟩
  | cons x rest ih =>
    intro st tg' hm hb
    simp only [createMissingTGs]
    by_cases h : hasTgKey ex (tgKey x) = true
    · rw [if_pos h]
      exact ih st tg' hm hb
    · rw [if_neg h]
      have hne : tg'.identity ≠ freshIdentity st.nextId := by
        apply ne_of_length_ne
        rw [freshIdentity_length]
        omega
      exact ih _ tg' (mem_create_att st _ nodes tg' hm hne) (Nat.le_succ_of_le hb)

/-- Setting server attachments never changes a target group's identity,
labels, key fields or listener back-references. -/
theorem fields_after_att (st : CloudState) (id : String) (atts : List String)
    (tg' : VpcLoadbalancerTargetGroup) (hm : tg' ∈ st.tgs) :
    ∃ e ∈ (applySetTGAttachments st id atts).tgs,
      e.identity = tg'.identity ∧ e.labels = tg'.labels ∧
      e.protocol = tg'.protocol ∧ e.targetPort = tg'.targetPort ∧
      e.loadbalancerListeners = tg'.loadbalancerListeners := by
  refine ⟨if tg'.identity = id then { tg' with serverAttachments := atts } else tg', ?_, ?_⟩
  · simp only [applySetTGAttachments]
    exact List.mem_map_of_mem _ hm
  · by_cases hc : tg'.identity = id
    · rw [if_pos hc]
      exact ⟨rfl, rfl, rfl, rfl, rfl⟩
    · rw [if_neg hc]
      exact ⟨rfl, rfl, rfl, rfl, rfl⟩

/-- A target group not named by any pending update survives the update
loop with its reconciliation-relevant fields intact. -/
theorem updateExistingTGs_preserves (nodes : List KNode)
    (desired : List VpcLoadbalancerTargetGroup) :
    ∀ (l : List VpcLoadbalancerTargetGroup) (st : CloudState)
      (tg' : VpcLoadbalancerTargetGroup),
      tg' ∈ st.tgs → (∀ x ∈ l, x.identity ≠ tg'.identity) →
      ∃ tg'' ∈ (updateExistingTGs nodes desired l st).2.1.tgs,
        tg''.identity = tg'.identity ∧ tg''.labels = tg'.labels ∧
        tg''.protocol = tg'.protocol ∧ tg''.targetPort = tg'.targetPort := by
  intro l
  induction l with
  | nil => intro st tg' hm _; exact ⟨tg', hm, rfl, rfl, rfl, rfl⟩
  | cons x rest ih =>
    intro st tg' hm hne
    have hrest : ∀ z ∈ rest, z.identity ≠ tg'.identity :=
      fun z hz => hne z (List.mem_cons_of_mem x hz)
    simp only [updateExistingTGs]
    cases hlw : lastWithKey desired (tgKey x) with
    | none => simp only [hlw]; exact ih st tg' hm hrest
    | some dtg =>
      simp only [hlw]
      by_cases hid : x.identity = ""
      · rw [if_pos hid]
        exact ih st tg' hm hrest
      · rw [if_neg hid]
        have hxne : x.identity ≠ tg'.identity := hne x (List.mem_cons_self x rest)
        have hm1 : tg' ∈ (applyUpdateTG st x.identity
            (⟨dtg.name, dtg.description, dtg.protocol, dtg.targetPort, dtg.labels,
              dtg.annotations, dtg.healthCheck, dtg.enableProxyProtocol,
              dtg.loadbalancingPolicy⟩ : UpdateTargetGroupReq)).2.tgs := by
          simp only [applyUpdateTG]
          refine List.mem_map.mpr ⟨tg', hm, ?_⟩
          rw [if_neg (fun he => hxne he.symm)]
        obtain ⟨e, he, he1, he2, he3, he4, _⟩ := fields_after_att _ _ _ tg' hm1
        obtain ⟨tg'', h1, h2, h3, h4, h5⟩ := ih _ e he (by
          intro z hz
          rw [he1]
          exact hrest z hz)
        exact ⟨tg'', h1, h2.trans he1, h3.trans he2, h4.trans he3, h5.trans he4⟩

/-- The returned list of the create loop covers every desired target
group whose key was absent, with a nonempty cloud identity. -/
theorem createMissingTGs_list_cover (cfg : LBCfg) (nodes : List KNode)
    (ex : List VpcLoadbalancerTargetGroup) :
    ∀ (d : List VpcLoadbalancerTargetGroup) (st : CloudState),
      ∀ d' ∈ d, ¬ hasTgKey ex (tgKey d') = true →
      ∃ tgr ∈ (createMissingTGs cfg nodes ex d st).1,
        tgr.labels = d'.labels ∧ tgr.identity ≠ "" := by
  intro d
  induction d with
  | nil => intro st d' hd' _; simp at hd'
  | cons x rest ih =>
    intro st d' hd' hnk
    rcases List.mem_cons.mp hd' with rfl | hrest
    · simp only [createMissingTGs]
      rw [if_neg hnk]
      exact ⟨_, List.mem_cons_self _ _, rfl, freshIdentity_ne_empty st.nextId⟩
    · by_cases hk : hasTgKey ex (tgKey x) = true
      · simp only [createMissingTGs]
        rw [if_pos hk]
        exact ih st d' hrest hnk
      · simp only [createMissingTGs]
        rw [if_neg hk]
        obtain ⟨tgr, h1, h2⟩ := ih _ d' hrest hnk
        exact ⟨tgr, List.mem_cons_of_mem _ h1, h2⟩

/-- The returned list of the update loop covers every listed existing key
whose desired lookup succeeds, carrying the desired labels. -/
theorem updateExistingTGs_list_cover (nodes : List KNode)
    (desired : List VpcLoadbalancerTargetGroup) :
    ∀ (l : List VpcLoadbalancerTargetGroup) (st : CloudState)
      (x' dtg : VpcLoadbalancerTargetGroup),
      x' ∈ l → x'.identity ≠ "" → (∃ y ∈ st.tgs, y.identity = x'.identity) →
      lastWithKey desired (tgKey x') = some dtg →
      ∃ tgr ∈ (updateExistingTGs nodes desired l st).1,
        tgr.labels = dtg.labels ∧ tgr.identity ≠ "" := by
  intro l
  induction l with
  | nil => intro st x' dtg hx' _ _ _; simp at hx'
  | cons x rest ih =>
    intro st x' dtg hx' hid hex hlw
    rcases List.mem_cons.mp hx' with rfl | hrest
    · simp only [updateExistingTGs, hlw]
      rw [if_neg hid]
      have hret := applyUpdateTG_ret st x'.identity
        (⟨dtg.name, dtg.description, dtg.protocol, dtg.targetPort, dtg.labels,
          dtg.annotations, dtg.healthCheck, dtg.enableProxyProtocol,
          dtg.loadbalancingPolicy⟩ : UpdateTargetGroupReq) hex
      refine ⟨_, List.mem_cons_self _ _, hret.1, ?_⟩
      rw [hret.2]
      exact hid
    · cases hlwx : lastWithKey desired (tgKey x) with
      | none =>
        simp only [updateExistingTGs, hlwx]
        exact ih st x' dtg hrest hid hex hlw
      | some dtg2 =>
        simp only [updateExistingTGs, hlwx]
        by_cases hidx : x.identity = ""
        · rw [if_pos hidx]
          exact ih st x' dtg hrest hid hex hlw
        · rw [if_neg hidx]
          obtain ⟨tgr, h1, h2⟩ := ih _ x' dtg hrest hid
            (idpres_applySetTGAttachments _ _ _ _
              (idpres_applyUpdateTG _ _ _ _ hex)) hlw
          exact ⟨tgr, List.mem_cons_of_mem _ h1, h2⟩

/-- The state after the update loop covers every listed existing key whose
desired lookup succeeds, with the desired fields. -/
theorem updateExistingTGs_state_cover (nodes : List KNode)
    (desired : List VpcLoadbalancerTargetGroup) :
    ∀ (l : List VpcLoadbalancerTargetGroup) (st : CloudState)
      (x' dtg : VpcLoadbalancerTargetGroup),
      x' ∈ l → (l.map (fun t => t.identity)).Nodup → x'.identity ≠ "" →
      (∃ y ∈ st.tgs, y.identity = x'.identity) →
      lastWithKey desired (tgKey x') = some dtg →
      ∃ tg'' ∈ (updateExistingTGs nodes desired l st).2.1.tgs,
        tg''.labels = dtg.labels ∧ tg''.protocol = dtg.protocol ∧
        tg''.targetPort = dtg.targetPort := by
  intro l
  induction l with
  | nil => intro st x' dtg hx' _ _ _ _; simp at hx'
  | cons x rest ih =>
    intro st x' dtg hx' hnd hid hex hlw
    have hnd2 : (∀ z ∈ rest, ¬ z.identity = x.identity) ∧
        (List.map (fun t => t.identity) rest).Nodup := by simpa using hnd
    rcases List.mem_cons.mp hx' with rfl | hrest
    · simp only [updateExistingTGs, hlw]
      rw [if_neg hid]
      obtain ⟨y, hy, hyid⟩ := hex
      have hm1 : tgApplyUpdate y
          (⟨dtg.name, dtg.description, dtg.protocol, dtg.targetPort, dtg.labels,
            dtg.annotations, dtg.healthCheck, dtg.enableProxyProtocol,
            dtg.loadbalancingPolicy⟩ : UpdateTargetGroupReq) ∈
          (applyUpdateTG st x'.identity
            (⟨dtg.name, dtg.description, dtg.protocol, dtg.targetPort, dtg.labels,
              dtg.annotations, dtg.healthCheck, dtg.enableProxyProtocol,
              dtg.loadbalancingPolicy⟩ : UpdateTargetGroupReq)).2.tgs := by
        simp only [applyUpdateTG]
        refine List.mem_map.mpr ⟨y, hy, ?_⟩
        rw [if_pos hyid]
      obtain ⟨e, he, he1, he2, he3, he4, _⟩ := fields_after_att _ _ _ _ hm1
      obtain ⟨tg'', h1, h2, h3, h4, h5⟩ := updateExistingTGs_preserves nodes desired rest _ e he (by
        intro z hz
        rw [he1]
        intro hcon
        exact hnd2.1 z hz (hcon.trans hyid))
      refine ⟨tg'', h1, ?_, ?_, ?_⟩
      · rw [h3, he2]; rfl
      · rw [h4, he3]; rfl
      · rw [h5, he4]; rfl
    · cases hlwx : lastWithKey desired (tgKey x) with
      | none =>
        simp only [updateExistingTGs, hlwx]
        exact ih st x' dtg hrest hnd2.2 hid hex hlw
      | some dtg2 =>
        simp only [updateExistingTGs, hlwx]
        by_cases hidx : x.identity = ""
        · rw [if_pos hidx]
          exact ih st x' dtg hrest hnd2.2 hid hex hlw
        · rw [if_neg hidx]
          exact ih _ x' dtg hrest hnd2.2 hid
            (idpres_applySetTGAttachments _ _ _ _
              (idpres_applyUpdateTG _ _ _ _ hex)) hlw

theorem att_origin (st : CloudState) (id : String) (s : List String)
    (tg' : VpcLoadbalancerTargetGroup)
    (h : tg' ∈ (applySetTGAttachments st id s).tgs) :
    ∃ z ∈ st.tgs, tg'.labels = z.labels ∧ tgKey tg' = tgKey z ∧
      tg'.loadbalancerListeners = z.loadbalancerListeners := by
  simp only [applySetTGAttachments] at h
  obtain ⟨z, hz, hfz⟩ := List.mem_map.mp h
  refine ⟨z, hz, ?_⟩
  rw [← hfz]
  by_cases hc : z.identity = id
  · rw [if_pos hc]
    exact ⟨rfl, rfl, rfl⟩
  · rw [if_neg hc]
    exact ⟨rfl, rfl, rfl⟩

theorem updTG_origin (st : CloudState) (id : String) (req : UpdateTargetGroupReq)
    (tg' : VpcLoadbalancerTargetGroup)
    (h : tg' ∈ (applyUpdateTG st id req).2.tgs) :
    ∃ w ∈ st.tgs,
      (tg'.labels = req.labels ∧ tg'.protocol = req.protocol ∧
       tg'.targetPort = req.targetPort ∧
       tg'.loadbalancerListeners = w.loadbalancerListeners) ∨
      (tg'.labels = w.labels ∧ tgKey tg' = tgKey w ∧
       tg'.loadbalancerListeners = w.loadbalancerListeners) := by
  simp only [applyUpdateTG] at h
  obtain ⟨w, hw, hfw⟩ := List.mem_map.mp h
  refine ⟨w, hw, ?_⟩
  rw [← hfw]
  by_cases hc : w.identity = id
  · rw [if_pos hc]
    exact Or.inl ⟨rfl, rfl, rfl, rfl⟩
  · rw [if_neg hc]
    exact Or.inr ⟨rfl, rfl, rfl⟩

theorem createTG_origin (st : CloudState) (req : CreateTargetGroupReq)
    (tg' : VpcLoadbalancerTargetGroup)
    (h : tg' ∈ (applyCreateTG st req).2.tgs) :
    tg' ∈ st.tgs ∨
    (tg'.protocol = req.protocol ∧ tg'.targetPort = req.targetPort) := by
  simp only [applyCreateTG] at h
  rcases List.mem_append.mp h with h1 | h1
  · exact Or.inl h1
  · have := List.mem_singleton.mp h1
    right
    rw [this]
    exact ⟨rfl, rfl⟩

theorem createMissingTGs_origin (cfg : LBCfg) (nodes : List KNode)
    (ex : List VpcLoadbalancerTargetGroup) :
    ∀ (d : List VpcLoadbalancerTargetGroup) (st : CloudState),
      ∀ tg' ∈ (createMissingTGs cfg nodes ex d st).2.1.tgs,
      (∃ d' ∈ d, tgKey tg' = tgKey d') ∨
      (∃ tg ∈ st.tgs, tg'.labels = tg.labels ∧ tgKey tg' = tgKey tg ∧
        tg'.loadbalancerListeners = tg.loadbalancerListeners) := by
  intro d
  induction d with
  | nil => intro st tg' hm; exact Or.inr ⟨tg', hm, rfl, rfl, rfl⟩
  | cons x rest ih =>
    intro st tg' hm'
    simp only [createMissingTGs] at hm'
    by_cases hk : hasTgKey ex (tgKey x) = true
    · rw [if_pos hk] at hm'
      rcases ih st tg' hm' with ⟨d', hd', he⟩ | h
      · exact Or.inl ⟨d', List.mem_cons_of_mem _ hd', he⟩
      · exact Or.inr h
    · rw [if_neg hk] at hm'
      rcases ih _ tg' hm' with ⟨d', hd', he⟩ | ⟨tgc, htgc, h1, h2, h3⟩
      · exact Or.inl ⟨d', List.mem_cons_of_mem _ hd', he⟩
      · obtain ⟨z, hz, hz1, hz2, hz3⟩ := att_origin _ _ _ tgc htgc
        rcases createTG_origin st _ z hz with hz4 | ⟨hz4, hz5⟩
        · exact Or.inr ⟨z, hz4, h1.trans hz1, h2.trans hz2, h3.trans hz3⟩
        · left
          refine ⟨x, List.mem_cons_self x rest, ?_⟩
          rw [h2, hz2, tgKey, tgKey, hz4, hz5]

theorem updateExistingTGs_origin (nodes : List KNode)
    (desired : List VpcLoadbalancerTargetGroup) :
    ∀ (l : List VpcLoadbalancerTargetGroup) (st : CloudState),
      ∀ tg' ∈ (updateExistingTGs nodes desired l st).2.1.tgs,
      (∃ d' ∈ desired, tgKey tg' = tgKey d') ∨
      (∃ tg ∈ st.tgs, tg'.labels = tg.labels ∧ tgKey tg' = tgKey tg ∧
        tg'.loadbalancerListeners = tg.loadbalancerListeners) := by
  intro l
  induction l with
  | nil => intro st tg' hm; exact Or.inr ⟨tg', hm, rfl, rfl, rfl⟩
  | cons x rest ih =>
    intro st tg' hm'
    simp only [updateExistingTGs] at hm'
    cases hlw : lastWithKey desired (tgKey x) with
    | none =>
      simp only [hlw] at hm'
      exact ih st tg' hm'
    | some dtg =>
      simp only [hlw] at hm'
      by_cases hid : x.identity = ""
      · rw [if_pos hid] at hm'
        exact ih st tg' hm'
      · rw [if_neg hid] at hm'
        rcases ih _ tg' hm' with h | ⟨tgc, htgc, h1, h2, h3⟩
        · exact Or.inl h
        · obtain ⟨z, hz, hz1, hz2, hz3⟩ := att_origin _ _ _ tgc htgc
          rcases updTG_origin st x.identity _ z hz with ⟨w, hw, hcase⟩
          rcases hcase with ⟨hw1, hw2, hw3, hw4⟩ | ⟨hw1, hw2, hw3⟩
          · have hdtg := lastWithKey_spec desired (tgKey x) dtg hlw
            left
            refine ⟨dtg, hdtg.1, ?_⟩
            rw [h2, hz2, tgKey, tgKey, hw2, hw3]
          · exact Or.inr ⟨w, hw, (h1.trans hz1).trans hw1,
              (h2.trans hz2).trans hw2, (h3.trans hz3).trans hw3⟩

/-! ## Identity threading through the target-group phase -/

theorem ids_att (st : CloudState) (id : String) (s : List String) :
    (applySetTGAttachments st id s).tgs.map (fun t => t.identity) =
      st.tgs.map (fun t => t.identity) := by
  simp only [applySetTGAttachments, List.map_map]
  refine List.map_congr_left (fun t _ => ?_)
  simp only [Function.comp]
  by_cases hc : t.identity = id
  · rw [if_pos hc]
  · rw [if_neg hc]

theorem ids_updTG (st : CloudState) (id : String) (req : UpdateTargetGroupReq) :
    (applyUpdateTG st id req).2.tgs.map (fun t => t.identity) =
      st.tgs.map (fun t => t.identity) := by
  simp only [applyUpdateTG, List.map_map]
  refine List.map_congr_left (fun t _ => ?_)
  simp only [Function.comp]
  by_cases hc : t.identity = id
  · rw [if_pos hc]; rfl
  · rw [if_neg hc]

theorem ids_upgrade (tg : VpcLoadbalancerTargetGroup) (nodes : List KNode)
    (st : CloudState) :
    (upgradeTargetGroupAttachments tg nodes st).1.tgs.map (fun t => t.identity) =
      st.tgs.map (fun t => t.identity) ∧
    (upgradeTargetGroupAttachments tg nodes st).1.nextId = st.nextId :=
  ⟨ids_att _ _ _, rfl⟩

theorem ids_updateExistingTGs (nodes : List KNode)
    (desired : List VpcLoadbalancerTargetGroup) :
    ∀ (l : List VpcLoadbalancerTargetGroup) (st : CloudState),
      (updateExistingTGs nodes desired l st).2.1.tgs.map (fun t => t.identity) =
        st.tgs.map (fun t => t.identity) ∧
      (updateExistingTGs nodes desired l st).2.1.nextId = st.nextId := by
  intro l
  induction l with
  | nil => intro st; exact ⟨rfl, rfl⟩
  | cons x rest ih =>
    intro st
    simp only [updateExistingTGs]
    cases hlw : lastWithKey desired (tgKey x) with
    | none => simp only [hlw]; exact ih st
    | some dtg =>
      simp only [hlw]
      by_cases hid : x.identity = ""
      · rw [if_pos hid]; exact ih st
      · rw [if_neg hid]
        obtain ⟨h1, h2⟩ := ih _
        refine ⟨h1.trans ?_, h2.trans ?_⟩
        · exact ((ids_upgrade _ _ _).1).trans (ids_updTG _ _ _)
        · exact (ids_upgrade _ _ _).2

theorem ids_createMissingTGs (cfg : LBCfg) (nodes : List KNode)
    (ex : List VpcLoadbalancerTargetGroup) :
    ∀ (d : List VpcLoadbalancerTargetGroup) (st : CloudState),
      (∀ i ∈ st.tgs.map (fun t => t.identity), i.length ≤ st.nextId) →
      (st.tgs.map (fun t => t.identity)).Nodup →
      (∀ i ∈ (createMissingTGs cfg nodes ex d st).2.1.tgs.map (fun t => t.identity),
        i.length ≤ (createMissingTGs cfg nodes ex d st).2.1.nextId) ∧
      ((createMissingTGs cfg nodes ex d st).2.1.tgs.map (fun t => t.identity)).Nodup := by
  intro d
  induction d with
  | nil => intro st hb hnd; exact ⟨hb, hnd⟩
  | cons x rest ih =>
    intro st hb hnd
    simp only [createMissingTGs]
    by_cases h : hasTgKey ex (tgKey x) = true
    · rw [if_pos h]; exact ih st hb hnd
    · rw [if_neg h]
      refine ih _ ?_ ?_
      · intro i hi
        rw [(ids_upgrade _ _ _).1] at hi
        rw [(ids_upgrade _ _ _).2]
        simp only [applyCreateTG, List.map_append] at hi ⊢
        rcases List.mem_append.mp hi with h1 | h1
        · exact Nat.le_succ_of_le (hb i h1)
        · have h2 : i = freshIdentity st.nextId := by simpa using h1
          rw [h2, freshIdentity_length]
      · rw [(ids_upgrade _ _ _).1]
        simp only [applyCreateTG, List.map_append]
        refine List.Nodup.append hnd (by simp) ?_
        intro i h1 h2
        have h3 : i = freshIdentity st.nextId := by simpa using h2
        have hlen := hb i h1
        rw [h3, freshIdentity_length] at hlen
        omega

theorem ids_createOrUpdateTargetGroups (cfg : LBCfg) (svc : KService)
    (d : List VpcLoadbalancerTargetGroup) (nodes : List KNode) (st : CloudState)
    (hb : ∀ i ∈ st.tgs.map (fun t => t.identity), i.length ≤ st.nextId)
    (hnd : (st.tgs.map (fun t => t.identity)).Nodup) :
    (∀ i ∈ (createOrUpdateTargetGroups cfg svc d nodes st).2.1.tgs.map
        (fun t => t.identity),
      i.length ≤ (createOrUpdateTargetGroups cfg svc d nodes st).2.1.nextId) ∧
    ((createOrUpdateTargetGroups cfg svc d nodes st).2.1.tgs.map
        (fun t => t.identity)).Nodup := by
  simp only [createOrUpdateTargetGroups]
  obtain ⟨h1, h2⟩ := ids_createMissingTGs cfg nodes
    (listTargetGroupsByLabels st (getLabelsForVpcLoadbalancer cfg svc)) d st hb hnd
  obtain ⟨h3, h4⟩ := ids_updateExistingTGs nodes d
    (listTargetGroupsByLabels st (getLabelsForVpcLoadbalancer cfg svc))
    (createMissingTGs cfg nodes
      (listTargetGroupsByLabels st (getLabelsForVpcLoadbalancer cfg svc)) d st).2.1
  constructor
  · intro i hi
    rw [h3] at hi
    rw [h4]
    exact h1 i hi
  · rw [h3]
    exact h2

/-! ## Skeleton preservation through the listener phase -/

theorem ids_of_skel {s1 s2 : CloudState}
    (h : s1.tgs.map tgSkel = s2.tgs.map tgSkel) :
    s1.tgs.map (fun t => t.identity) = s2.tgs.map (fun t => t.identity) := by
  have h1 : s1.tgs.map (fun t => t.identity) =
      (s1.tgs.map tgSkel).map (fun p => p.1) := by
    rw [List.map_map]
    exact List.map_congr_left (fun t _ => rfl)
  have h2 : s2.tgs.map (fun t => t.identity) =
      (s2.tgs.map tgSkel).map (fun p => p.1) := by
    rw [List.map_map]
    exact List.map_congr_left (fun t _ => rfl)
  rw [h1, h2, h]

theorem skel_applyCreateListener (st : CloudState) (lbId : String)
    (req : CreateListenerReq) :
    (applyCreateListener st lbId req).tgs.map tgSkel = st.tgs.map tgSkel := by
  simp only [applyCreateListener, List.map_map]
  refine List.map_congr_left (fun t _ => ?_)
  simp only [Function.comp]
  by_cases hc : t.identity = req.targetGroup
  · rw [if_pos hc]; rfl
  · rw [if_neg hc]

theorem skel_applyDeleteListener (st : CloudState) (lbId listenerId : String) :
    (applyDeleteListener st lbId listenerId).tgs.map tgSkel = st.tgs.map tgSkel := by
  simp only [applyDeleteListener, List.map_map]
  exact List.map_congr_left (fun t _ => rfl)

theorem skel_deleteOrUpdateListeners (cfg : LBCfg) (svc : KService)
    (lb : VpcLoadbalancer) (dls : List VpcLoadbalancerListener)
    (tgs : List VpcLoadbalancerTargetGroup) :
    ∀ (l : List VpcLoadbalancerListener) (st : CloudState),
      (deleteOrUpdateListeners cfg svc lb dls tgs l st).1.tgs.map tgSkel =
        st.tgs.map tgSkel ∧
      (deleteOrUpdateListeners cfg svc lb dls tgs l st).1.sgs = st.sgs ∧
      (deleteOrUpdateListeners cfg svc lb dls tgs l st).1.nextId = st.nextId := by
  intro l
  induction l with
  | nil => intro st; exact ⟨rfl, rfl, rfl⟩
  | cons x rest ih =>
    intro st
    simp only [deleteOrUpdateListeners]
    cases hlw : portMapLookup dls x.port with
    | none =>
      obtain ⟨h1, h2, h3⟩ := ih (applyDeleteListener st lb.identity x.identity)
      exact ⟨h1.trans (skel_applyDeleteListener _ _ _), h2.trans rfl, h3.trans rfl⟩
    | some ltu =>
      simp only [hlw]
      by_cases hid : getTargetGroupIdentityForListener cfg svc ltu tgs = ""
      · rw [if_pos hid]; exact ih st
      · rw [if_neg hid]
        obtain ⟨h1, h2, h3⟩ := ih _
        exact ⟨h1.trans rfl, h2.trans rfl, h3.trans rfl⟩

theorem skel_createMissingListeners (cfg : LBCfg) (svc : KService)
    (lb : VpcLoadbalancer) (snap : List VpcLoadbalancerListener)
    (tgs : List VpcLoadbalancerTargetGroup) :
    ∀ (l : List VpcLoadbalancerListener) (st : CloudState),
      (createMissingListeners cfg svc lb snap tgs l st).1.tgs.map tgSkel =
        st.tgs.map tgSkel ∧
      (createMissingListeners cfg svc lb snap tgs l st).1.sgs = st.sgs := by
  intro l
  induction l with
  | nil => intro st; exact ⟨rfl, rfl⟩
  | cons x rest ih =>
    intro st
    simp only [createMissingListeners]
    by_cases hp : portMapHas snap x.port = true
    · rw [if_pos hp]; exact ih st
    · rw [if_neg hp]
      by_cases hid : getTargetGroupIdentityForListener cfg svc x tgs = ""
      · rw [if_pos hid]; exact ih st
      · rw [if_neg hid]
        obtain ⟨h1, h2⟩ := ih _
        exact ⟨h1.trans (skel_applyCreateListener _ _ _), h2.trans rfl⟩

theorem skel_updateVpcLoadbalancerListener (cfg : LBCfg) (svc : KService)
    (lb : VpcLoadbalancer) (dls : List VpcLoadbalancerListener)
    (tgs : List VpcLoadbalancerTargetGroup) (st : CloudState) :
    (updateVpcLoadbalancerListener cfg svc lb dls tgs st).1.tgs.map tgSkel =
      st.tgs.map tgSkel ∧
    (updateVpcLoadbalancerListener cfg svc lb dls tgs st).1.sgs = st.sgs := by
  simp only [updateVpcLoadbalancerListener]
  by_cases hne : dls ≠ listListenersOf st lb.identity
  · rw [if_pos hne]
    obtain ⟨h1, h2, _⟩ := skel_deleteOrUpdateListeners cfg svc lb dls tgs
      (listListenersOf st lb.identity) st
    obtain ⟨h3, h4⟩ := skel_createMissingListeners cfg svc lb
      (listListenersOf st lb.identity) tgs dls _
    exact ⟨h3.trans h1, h4.trans h2⟩
  · rw [if_neg hne]
    obtain ⟨h3, h4⟩ := skel_createMissingListeners cfg svc lb
      (listListenersOf st lb.identity) tgs dls st
    exact ⟨h3, h4⟩

/-! ## Cleanup-phase lemmas -/

theorem frames_cleanupTGsLoop (d : List VpcLoadbalancerTargetGroup) :
    ∀ (l : List VpcLoadbalancerTargetGroup) (st : CloudState),
      (cleanupTGsLoop d l st).1.listeners = st.listeners ∧
      (cleanupTGsLoop d l st).1.sgs = st.sgs ∧
      (cleanupTGsLoop d l st).1.lbs = st.lbs ∧
      (cleanupTGsLoop d l st).1.nextId = st.nextId := by
  intro l
  induction l with
  | nil => intro st; exact ⟨rfl, rfl, rfl, rfl⟩
  | cons tg rest ih =>
    intro st
    simp only [cleanupTGsLoop]
    by_cases h1 : tg.loadbalancerListeners.isEmpty = true
    · rw [if_neg (by simp [h1])]
      by_cases h2 : hasTgKey d (tgKey tg) = true
      · rw [if_neg (by simp [h2])]
        exact ih st
      · rw [if_pos (by simp [h2])]
        obtain ⟨g1, g2, g3, g4⟩ := ih (applyDeleteTG st tg.identity)
        exact ⟨g1.trans rfl, g2.trans rfl, g3.trans rfl, g4.trans rfl⟩
    · rw [if_pos (by simp [h1])]
      exact ih st

theorem cleanupTGsLoop_subset (d : List VpcLoadbalancerTargetGroup) :
    ∀ (l : List VpcLoadbalancerTargetGroup) (st : CloudState),
      ∀ tg' ∈ (cleanupTGsLoop d l st).1.tgs, tg' ∈ st.tgs := by
  intro l
  induction l with
  | nil => intro st tg' hm; exact hm
  | cons tg rest ih =>
    intro st tg' hm
    simp only [cleanupTGsLoop] at hm
    by_cases h1 : tg.loadbalancerListeners.isEmpty = true
    · rw [if_neg (by simp [h1])] at hm
      by_cases h2 : hasTgKey d (tgKey tg) = true
      · rw [if_neg (by simp [h2])] at hm
        exact ih st tg' hm
      · rw [if_pos (by simp [h2])] at hm
        have := ih _ tg' hm
        simp only [applyDeleteTG] at this
        exact List.mem_of_mem_filter this
    · rw [if_pos (by simp [h1])] at hm
      exact ih st tg' hm

theorem cleanupTGsLoop_deletes (d : List VpcLoadbalancerTargetGroup) :
    ∀ (l : List VpcLoadbalancerTargetGroup) (st : CloudState)
      (x : VpcLoadbalancerTargetGroup),
      x ∈ l → x.loadbalancerListeners = [] → ¬ hasTgKey d (tgKey x) = true →
      ∀ tg' ∈ (cleanupTGsLoop d l st).1.tgs, tg'.identity ≠ x.identity := by
  intro l
  induction l with
  | nil => intro st x hx _ _; simp at hx
  | cons y rest ih =>
    intro st x hx hemp hnk tg' hm
    simp only [cleanupTGsLoop] at hm
    by_cases h1 : y.loadbalancerListeners.isEmpty = true
    · rw [if_neg (by simp [h1])] at hm
      by_cases h2 : hasTgKey d (tgKey y) = true
      · rw [if_neg (by simp [h2])] at hm
        rcases List.mem_cons.mp hx with rfl | hrest
        · exact absurd h2 hnk
        · exact ih st x hrest hemp hnk tg' hm
      · rw [if_pos (by simp [h2])] at hm
        rcases List.mem_cons.mp hx with rfl | hrest
        · have hsub := cleanupTGsLoop_subset d rest _ tg' hm
          simp only [applyDeleteTG] at hsub
          have := List.of_mem_filter hsub
          simpa using this
        · exact ih _ x hrest hemp hnk tg' hm
    · rw [if_pos (by simp [h1])] at hm
      rcases List.mem_cons.mp hx with rfl | hrest
      · rw [hemp] at h1
        simp at h1
      · exact ih st x hrest hemp hnk tg' hm

theorem cleanupTGsLoop_survives (d : List VpcLoadbalancerTargetGroup) :
    ∀ (l : List VpcLoadbalancerTargetGroup) (st : CloudState)
      (x : VpcLoadbalancerTargetGroup),
      x ∈ st.tgs → (∀ z ∈ l, z.identity = x.identity → hasTgKey d (tgKey z) = true) →
      x ∈ (cleanupTGsLoop d l st).1.tgs := by
  intro l
  induction l with
  | nil => intro st x hx _; exact hx
  | cons y rest ih =>
    intro st x hx hall
    have hrest : ∀ z ∈ rest, z.identity = x.identity → hasTgKey d (tgKey z) = true :=
      fun z hz => hall z (List.mem_cons_of_mem y hz)
    simp only [cleanupTGsLoop]
    by_cases h1 : y.loadbalancerListeners.isEmpty = true
    · rw [if_neg (by simp [h1])]
      by_cases h2 : hasTgKey d (tgKey y) = true
      · rw [if_neg (by simp [h2])]
        exact ih st x hx hrest
      · rw [if_pos (by simp [h2])]
        have hyne : y.identity ≠ x.identity := by
          intro he
          exact h2 (hall y (List.mem_cons_self y rest) he)
        refine ih _ x ?_ hrest
        simp only [applyDeleteTG]
        refine List.mem_filter.mpr ⟨hx, ?_⟩
        simp
        exact fun he => hyne he.symm
    · rw [if_pos (by simp [h1])]
      exact ih st x hx hrest

/-- After the unused-target-group cleanup, every surviving target group
whose labels match the service labels either carries a desired key or is
still referenced by a listener. -/
theorem clean_cleanupUnusedTargetGroups (cfg : LBCfg) (svc : KService)
    (d : List VpcLoadbalancerTargetGroup) (st : CloudState) :
    ∀ tg' ∈ (cleanupUnusedTargetGroups cfg svc d st).1.tgs,
      matchLabels (getLabelsForVpcLoadbalancer cfg svc) tg'.labels = true →
      hasTgKey d (tgKey tg') = true ∨ tg'.loadbalancerListeners ≠ [] := by
  intro tg' hm hmatch
  by_contra hcon
  push_neg at hcon
  obtain ⟨hk, hl⟩ := hcon
  simp only [cleanupUnusedTargetGroups] at hm
  have hsub := cleanupTGsLoop_subset d _ st tg' hm
  have hlist : tg' ∈ listTargetGroupsByLabels st (getLabelsForVpcLoadbalancer cfg svc) := by
    simp only [listTargetGroupsByLabels]
    exact List.mem_filter.mpr ⟨hsub, by simpa using hmatch⟩
  exact cleanupTGsLoop_deletes d _ st tg' hlist hl hk tg' hm rfl

/-! ## Target-group resolution for listeners -/

theorem nodup_map_eq {α β : Type} (f : α → β) :
    ∀ (l : List α), (l.map f).Nodup →
      ∀ a ∈ l, ∀ b ∈ l, f a = f b → a = b := by
  intro l
  induction l with
  | nil => intro _ a ha; simp at ha
  | cons c cs ih =>
    intro hnd a ha b hb hf
    have hnd2 : (∀ z ∈ cs, ¬ f z = f c) ∧ (cs.map f).Nodup := by simpa using hnd
    rcases List.mem_cons.mp ha with rfl | ha2
    · rcases List.mem_cons.mp hb with rfl | hb2
      · rfl
      · exact absurd hf.symm (hnd2.1 b hb2)
    · rcases List.mem_cons.mp hb with rfl | hb2
      · exact absurd hf (hnd2.1 a ha2)
      · exact ih hnd2.2 a ha2 b hb2 hf

theorem createMissingTGs_list_ids (cfg : LBCfg) (nodes : List KNode)
    (ex : List VpcLoadbalancerTargetGroup) :
    ∀ (d : List VpcLoadbalancerTargetGroup) (st : CloudState),
      ∀ tgr ∈ (createMissingTGs cfg nodes ex d st).1, tgr.identity ≠ "" := by
  intro d
  induction d with
  | nil => intro st tgr hm; simp [createMissingTGs] at hm
  | cons x rest ih =>
    intro st tgr hm
    simp only [createMissingTGs] at hm
    by_cases h : hasTgKey ex (tgKey x) = true
    · rw [if_pos h] at hm
      exact ih st tgr hm
    · rw [if_neg h] at hm
      rcases List.mem_cons.mp hm with rfl | hm2
      · exact freshIdentity_ne_empty st.nextId
      · exact ih _ tgr hm2

theorem updateExistingTGs_list_ids (nodes : List KNode)
    (desired : List VpcLoadbalancerTargetGroup) :
    ∀ (l : List VpcLoadbalancerTargetGroup) (st : CloudState),
      (∀ x ∈ l, ∃ y ∈ st.tgs, y.identity = x.identity) →
      ∀ tgr ∈ (updateExistingTGs nodes desired l st).1, tgr.identity ≠ "" := by
  intro l
  induction l with
  | nil => intro st _ tgr hm; simp [updateExistingTGs] at hm
  | cons x rest ih =>
    intro st hex tgr hm
    have hrest : ∀ z ∈ rest, ∃ y ∈ st.tgs, y.identity = z.identity :=
      fun z hz => hex z (List.mem_cons_of_mem x hz)
    simp only [updateExistingTGs] at hm
    cases hlw : lastWithKey desired (tgKey x) with
    | none =>
      simp only [hlw] at hm
      exact ih st hrest tgr hm
    | some dtg =>
      simp only [hlw] at hm
      by_cases hid : x.identity = ""
      · rw [if_pos hid] at hm
        exact ih st hrest tgr hm
      · rw [if_neg hid] at hm
        rcases List.mem_cons.mp hm with rfl | hm2
        · have hret := applyUpdateTG_ret st x.identity
            (⟨dtg.name, dtg.description, dtg.protocol, dtg.targetPort, dtg.labels,
              dtg.annotations, dtg.healthCheck, dtg.enableProxyProtocol,
              dtg.loadbalancingPolicy⟩ : UpdateTargetGroupReq)
            (hex x (List.mem_cons_self x rest))
          rw [hret.2]
          exact hid
        · exact ih _ (fun z hz =>
            idpres_applySetTGAttachments _ _ _ _
              (idpres_applyUpdateTG _ _ _ _ (hrest z hz))) tgr hm2

/-- The listener-to-target-group resolution succeeds whenever some listed
target group matches the per-port labels and no listed target group has an
empty identity. -/
theorem resolution_ok (cfg : LBCfg) (svc : KService)
    (listener : VpcLoadbalancerListener) (tgs : List VpcLoadbalancerTargetGroup)
    (hmatch : ∃ e ∈ tgs, matchLabels
      (getLabelsForVpcLoadbalancerTargetGroup cfg svc listener.port listener.protocol)
      e.labels = true)
    (hids : ∀ e ∈ tgs, e.identity ≠ "") :
    getTargetGroupIdentityForListener cfg svc listener tgs ≠ "" := by
  simp only [getTargetGroupIdentityForListener]
  obtain ⟨e, he, hme⟩ := hmatch
  have hsome : ∃ m, tgs.find? (fun tg => matchLabels
      (getLabelsForVpcLoadbalancerTargetGroup cfg svc listener.port listener.protocol)
      tg.labels) = some m := by
    cases hf : tgs.find? (fun tg => matchLabels
        (getLabelsForVpcLoadbalancerTargetGroup cfg svc listener.port listener.protocol)
        tg.labels) with
    | some m => exact ⟨m, rfl⟩
    | none =>
      exfalso
      have := List.find?_eq_none.mp hf e he
      simp [hme] at this
  obtain ⟨m, hmf⟩ := hsome
  rw [hmf]
  exact hids m (List.mem_of_find?_eq_some hmf)

/-! ## The desired generators: pairing of listeners and target groups -/

theorem gen_tg_labels (cfg : LBCfg) (svc : KService)
    (dtgs : List VpcLoadbalancerTargetGroup)
    (hok : getDesiredVpcLoadbalancerTargetGroups cfg svc = Except.ok dtgs) :
    ∀ d ∈ dtgs, ∃ p ∈ svc.ports,
      d.labels = getLabelsForVpcLoadbalancerTargetGroup cfg svc p.port p.protocol ∧
      d.protocol = lowerStr p.protocol ∧ d.targetPort = p.nodePort := by
  simp only [getDesiredVpcLoadbalancerTargetGroups] at hok
  cases hpol : GetLoadbalancingPolicy svc with
  | mk pol err =>
    cases err with
    | some e => rw [hpol] at hok; simp at hok
    | none =>
      rw [hpol] at hok
      simp only [Except.ok.injEq] at hok
      intro d hd
      rw [← hok] at hd
      obtain ⟨p, hp, hpd⟩ := List.mem_map.mp hd
      refine ⟨p, hp, ?_⟩
      rw [← hpd]
      by_cases h1 : svc.healthCheckNodePort > 0
      · rw [if_pos h1]
        exact ⟨rfl, rfl, rfl⟩
      · rw [if_neg h1]
        by_cases h2 : (getIntAnn svc annHealthCheckPort (-1)).1 ≠ -1 ∧
            (getBoolAnn svc annHealthCheckEnabled false).1
        · rw [if_pos h2]
          exact ⟨rfl, rfl, rfl⟩
        · rw [if_neg h2]
          exact ⟨rfl, rfl, rfl⟩

theorem gen_listener_fields (cfg : LBCfg) (svc : KService) :
    ∀ x ∈ desiredVpcLoadbalancerListener cfg svc, ∃ p ∈ svc.ports,
      x.port = p.port ∧ x.protocol = lowerStr p.protocol := by
  intro x hx
  simp only [desiredVpcLoadbalancerListener] at hx
  obtain ⟨p, hp, hpx⟩ := List.mem_map.mp hx
  exact ⟨p, hp, by rw [← hpx], by rw [← hpx]⟩

/-- Every desired listener has a desired target group whose labels contain
the listener's per-port resolution labels. -/
theorem gen_match (cfg : LBCfg) (svc : KService)
    (dtgs : List VpcLoadbalancerTargetGroup)
    (hok : getDesiredVpcLoadbalancerTargetGroups cfg svc = Except.ok dtgs) :
    ∀ x ∈ desiredVpcLoadbalancerListener cfg svc, ∃ d ∈ dtgs,
      matchLabels
        (getLabelsForVpcLoadbalancerTargetGroup cfg svc x.port x.protocol)
        d.labels = true := by
  simp only [getDesiredVpcLoadbalancerTargetGroups] at hok
  cases hpol : GetLoadbalancingPolicy svc with
  | mk pol err =>
    cases err with
    | some e => rw [hpol] at hok; simp at hok
    | none =>
      rw [hpol] at hok
      simp only [Except.ok.injEq] at hok
      intro x hx
      obtain ⟨p, hp, hx1, hx2⟩ := gen_listener_fields cfg svc x hx
      have hlab : ∃ d ∈ dtgs,
          d.labels = getLabelsForVpcLoadbalancerTargetGroup cfg svc p.port p.protocol := by
        rw [← hok]
        refine ⟨_, List.mem_map_of_mem _ hp, ?_⟩
        by_cases h1 : svc.healthCheckNodePort > 0
        · rw [if_pos h1]
        · rw [if_neg h1]
          by_cases h2 : (getIntAnn svc annHealthCheckPort (-1)).1 ≠ -1 ∧
              (getBoolAnn svc annHealthCheckEnabled false).1
          · rw [if_pos h2]
          · rw [if_neg h2]
      obtain ⟨d, hd, hdl⟩ := hlab
      refine ⟨d, hd, ?_⟩
      rw [hdl, hx1, hx2, tgLabels_lower]
      exact matchLabels_tg_self cfg svc p.port p.protocol

/-- Every desired target group's labels contain the canonical service
labels. -/
theorem gen_lb_match (cfg : LBCfg) (svc : KService)
    (dtgs : List VpcLoadbalancerTargetGroup)
    (hok : getDesiredVpcLoadbalancerTargetGroups cfg svc = Except.ok dtgs) :
    ∀ d ∈ dtgs,
      matchLabels (getLabelsForVpcLoadbalancer cfg svc) d.labels = true := by
  intro d hd
  obtain ⟨p, _, h1, _, _⟩ := gen_tg_labels cfg svc dtgs hok d hd
  rw [h1]
  exact matchLabels_lb_tg cfg svc p.port p.protocol

/-! ## The target-group phase: aggregate coverage of the desired keys -/

theorem tgSkel_fields {a b : VpcLoadbalancerTargetGroup} (h : tgSkel a = tgSkel b) :
    a.identity = b.identity ∧ a.labels = b.labels ∧ a.protocol = b.protocol ∧
    a.targetPort = b.targetPort := by
  simp only [tgSkel, Prod.mk.injEq] at h
  exact ⟨h.1, h.2.1, h.2.2.1, h.2.2.2⟩

theorem skel_mem {s1 s2 : CloudState}
    (h : s1.tgs.map tgSkel = s2.tgs.map tgSkel)
    (tg : VpcLoadbalancerTargetGroup) (hm : tg ∈ s2.tgs) :
    ∃ tg' ∈ s1.tgs, tgSkel tg' = tgSkel tg := by
  have h2 : tgSkel tg ∈ s1.tgs.map tgSkel := by
    rw [h]
    exact List.mem_map_of_mem tgSkel hm
  exact List.mem_map.mp h2

theorem createMissingTGs_state_cover (cfg : LBCfg) (nodes : List KNode)
    (ex : List VpcLoadbalancerTargetGroup) :
    ∀ (d : List VpcLoadbalancerTargetGroup) (st : CloudState) (N : Nat),
      N ≤ st.nextId →
      ∀ d' ∈ d, ¬ hasTgKey ex (tgKey d') = true →
      ∃ tg'' ∈ (createMissingTGs cfg nodes ex d st).2.1.tgs,
        tg''.labels = d'.labels ∧ tg''.protocol = d'.protocol ∧
        tg''.targetPort = d'.targetPort ∧ N < tg''.identity.length := by
  intro d
  induction d with
  | nil => intro st N _ d' hd'; simp at hd'
  | cons x rest ih =>
    intro st N hN d' hd' hnk
    rcases List.mem_cons.mp hd' with rfl | hrest
    · simp only [createMissingTGs]
      rw [if_neg hnk]
      have hmem : (applyCreateTG st
          (⟨cfg.vpcIdentity, d'.name, d'.description, d'.protocol, d'.targetPort,
            d'.labels, d'.annotations, d'.healthCheck, d'.enableProxyProtocol,
            d'.loadbalancingPolicy⟩ : CreateTargetGroupReq)).1 ∈
          (applyCreateTG st
          (⟨cfg.vpcIdentity, d'.name, d'.description, d'.protocol, d'.targetPort,
            d'.labels, d'.annotations, d'.healthCheck, d'.enableProxyProtocol,
            d'.loadbalancingPolicy⟩ : CreateTargetGroupReq)).2.tgs := by
        simp only [applyCreateTG]
        exact List.mem_append_right _ (List.mem_singleton.mpr rfl)
      obtain ⟨e, he, he1, he2, he3, he4, _⟩ := fields_after_att _ _ _ _ hmem
      obtain ⟨tg'', h1, h2, h3, h4, h5⟩ := createMissingTGs_preserves cfg nodes ex rest _ e he
        (by
          rw [he1]
          rw [show ((applyCreateTG st
            (⟨cfg.vpcIdentity, d'.name, d'.description, d'.protocol, d'.targetPort,
              d'.labels, d'.annotations, d'.healthCheck, d'.enableProxyProtocol,
              d'.loadbalancingPolicy⟩ : CreateTargetGroupReq)).1).identity =
              freshIdentity st.nextId from rfl, freshIdentity_length]
          exact Nat.le_refl _)
      refine ⟨tg'', h1, ?_, ?_, ?_, ?_⟩
      · rw [h3, he2]; rfl
      · rw [h4, he3]; rfl
      · rw [h5, he4]; rfl
      · rw [h2, he1]
        rw [show ((applyCreateTG st
          (⟨cfg.vpcIdentity, d'.name, d'.description, d'.protocol, d'.targetPort,
            d'.labels, d'.annotations, d'.healthCheck, d'.enableProxyProtocol,
            d'.loadbalancingPolicy⟩ : CreateTargetGroupReq)).1).identity =
            freshIdentity st.nextId from rfl, freshIdentity_length]
        omega
    · simp only [createMissingTGs]
      by_cases hk : hasTgKey ex (tgKey x) = true
      · rw [if_pos hk]
        exact ih st N hN d' hrest hnk
      · rw [if_neg hk]
        exact ih _ N (Nat.le_succ_of_le hN) d' hrest hnk

theorem tgphase_cover (cfg : LBCfg) (svc : KService)
    (dtgs : List VpcLoadbalancerTargetGroup) (nodes : List KNode) (st : CloudState)
    (hb : ∀ i ∈ st.tgs.map (fun t => t.identity), i.length ≤ st.nextId)
    (hnd : (st.tgs.map (fun t => t.identity)).Nodup)
    (hid0 : ∀ tg ∈ st.tgs, tg.identity ≠ "")
    (hkeys : ∀ d ∈ dtgs, ∀ d' ∈ dtgs, tgKey d = tgKey d' → d = d')
    (hmatch : ∀ d ∈ dtgs,
      matchLabels (getLabelsForVpcLoadbalancer cfg svc) d.labels = true) :
    (∀ d ∈ dtgs, ∃ tg'' ∈ (createOrUpdateTargetGroups cfg svc dtgs nodes st).2.1.tgs,
        matchLabels (getLabelsForVpcLoadbalancer cfg svc) tg''.labels = true ∧
        tgKey tg'' = tgKey d) ∧
    (∀ d ∈ dtgs, ∃ e ∈ (createOrUpdateTargetGroups cfg svc dtgs nodes st).1,
        e.labels = d.labels ∧ e.identity ≠ "") ∧
    (∀ e ∈ (createOrUpdateTargetGroups cfg svc dtgs nodes st).1, e.identity ≠ "") := by
  have hex_sub : ∀ x ∈ listTargetGroupsByLabels st (getLabelsForVpcLoadbalancer cfg svc),
      x ∈ st.tgs := by
    intro x hx
    simp only [listTargetGroupsByLabels] at hx
    exact List.mem_of_mem_filter hx
  have hexid : ∀ x ∈ listTargetGroupsByLabels st (getLabelsForVpcLoadbalancer cfg svc),
      x.identity ≠ "" := fun x hx => hid0 x (hex_sub x hx)
  have hexbound : ∀ x ∈ listTargetGroupsByLabels st (getLabelsForVpcLoadbalancer cfg svc),
      x.identity.length ≤ st.nextId :=
    fun x hx => hb x.identity (List.mem_map_of_mem _ (hex_sub x hx))
  have hexnd : ((listTargetGroupsByLabels st
      (getLabelsForVpcLoadbalancer cfg svc)).map (fun t => t.identity)).Nodup :=
    List.Nodup.sublist (List.Sublist.map _ (List.filter_sublist _)) hnd
  have hexc : ∀ x ∈ listTargetGroupsByLabels st (getLabelsForVpcLoadbalancer cfg svc),
      ∃ y ∈ (createMissingTGs cfg nodes
        (listTargetGroupsByLabels st (getLabelsForVpcLoadbalancer cfg svc))
        dtgs st).2.1.tgs, y.identity = x.identity := by
    intro x hx
    obtain ⟨y, hy, hy1, _⟩ := createMissingTGs_preserves cfg nodes _ dtgs st x
      (hex_sub x hx) (hexbound x hx)
    exact ⟨y, hy, hy1⟩
  refine ⟨?_, ?_, ?_⟩
  · intro d hd
    simp only [createOrUpdateTargetGroups]
    by_cases hk : hasTgKey (listTargetGroupsByLabels st
        (getLabelsForVpcLoadbalancer cfg svc)) (tgKey d) = true
    · obtain ⟨x', hx', hxk⟩ := (hasTgKey_iff _ _).mp hk
      have hs := lastWithKey_isSome dtgs (tgKey x') ⟨d, hd, hxk.symm⟩
      obtain ⟨dtg0, hlw⟩ := Option.isSome_iff_exists.mp hs
      obtain ⟨hdm, hdk⟩ := lastWithKey_spec dtgs (tgKey x') dtg0 hlw
      have hdeq : dtg0 = d := hkeys dtg0 hdm d hd (hdk.trans hxk)
      obtain ⟨tg'', h1, h2, h3, h4⟩ := updateExistingTGs_state_cover nodes dtgs _ _
        x' dtg0 hx' hexnd (hexid x' hx') (hexc x' hx') hlw
      refine ⟨tg'', h1, ?_, ?_⟩
      · rw [h2, hdeq]
        exact hmatch d hd
      · rw [tgKey, h3, h4, hdeq]
        rfl
    · obtain ⟨tg'', h1, h2, h3, h4, h5⟩ := createMissingTGs_state_cover cfg nodes _
        dtgs st st.nextId (Nat.le_refl _) d hd hk
      obtain ⟨tg3, g1, _, g3, g4, g5⟩ := updateExistingTGs_preserves nodes dtgs _ _
        tg'' h1 (by
          intro z hz he
          have hzb := hexbound z hz
          rw [he] at hzb
          omega)
      exact ⟨tg3, g1, by rw [g3, h2]; exact hmatch d hd,
        by rw [tgKey, g4, g5, h3, h4]; rfl⟩
  · intro d hd
    simp only [createOrUpdateTargetGroups]
    by_cases hk : hasTgKey (listTargetGroupsByLabels st
        (getLabelsForVpcLoadbalancer cfg svc)) (tgKey d) = true
    · obtain ⟨x', hx', hxk⟩ := (hasTgKey_iff _ _).mp hk
      have hs := lastWithKey_isSome dtgs (tgKey x') ⟨d, hd, hxk.symm⟩
      obtain ⟨dtg0, hlw⟩ := Option.isSome_iff_exists.mp hs
      obtain ⟨hdm, hdk⟩ := lastWithKey_spec dtgs (tgKey x') dtg0 hlw
      have hdeq : dtg0 = d := hkeys dtg0 hdm d hd (hdk.trans hxk)
      obtain ⟨e, he, he1, he2⟩ := updateExistingTGs_list_cover nodes dtgs _ _
        x' dtg0 hx' (hexid x' hx') (hexc x' hx') hlw
      exact ⟨e, List.mem_append_right _ he, by rw [he1, hdeq], he2⟩
    · obtain ⟨e, he, he1, he2⟩ := createMissingTGs_list_cover cfg nodes _ dtgs st d hd hk
      exact ⟨e, List.mem_append_left _ he, he1, he2⟩
  · intro e he
    simp only [createOrUpdateTargetGroups] at he
    rcases List.mem_append.mp he with h1 | h1
    · exact createMissingTGs_list_ids cfg nodes _ dtgs st e h1
    · exact updateExistingTGs_list_ids nodes dtgs _ _ hexc e h1

/-! ## The listener phase: port tracking and coverage -/

theorem portMapHas_of_mem (l : List VpcLoadbalancerListener)
    (y : VpcLoadbalancerListener) (hy : y ∈ l) : portMapHas l y.port = true := by
  simp only [portMapHas, List.any_eq_true]
  exact ⟨y, hy, by simp⟩

theorem exists_of_portMapHas (l : List VpcLoadbalancerListener) (port : Int)
    (h : portMapHas l port = true) : ∃ y ∈ l, y.port = port := by
  simp only [portMapHas, List.any_eq_true] at h
  obtain ⟨y, hy, hp⟩ := h
  exact ⟨y, hy, by simpa using hp⟩

/-- Listener update rewrites the targeted entry's port to the request's
port and keeps every entry's owner and identity. -/
theorem updListener_mem (st : CloudState) (lbId lid : String)
    (req : UpdateListenerReq) (p : String × VpcLoadbalancerListener)
    (hp : p ∈ st.listeners) :
    ∃ q ∈ (applyUpdateListener st lbId lid req).listeners,
      q.1 = p.1 ∧ q.2.identity = p.2.identity ∧
      (q.2.port = p.2.port ∨ (p.1 = lbId ∧ p.2.identity = lid ∧ q.2.port = req.port)) := by
  simp only [applyUpdateListener]
  refine ⟨_, List.mem_map_of_mem _ hp, ?_⟩
  by_cases hc : p.1 = lbId ∧ p.2.identity = lid
  · rw [if_pos hc]
    exact ⟨rfl, rfl, Or.inr ⟨hc.1, hc.2, rfl⟩⟩
  · rw [if_neg hc]
    exact ⟨rfl, rfl, Or.inl rfl⟩

/-- A listener entry whose port is desired keeps an entry with its port
through the delete-or-update loop, provided the worklist's identities are
unique and agree with the entry's port on its identity. -/
theorem ports_track_deleteOrUpdateListeners (cfg : LBCfg) (svc : KService)
    (lb : VpcLoadbalancer) (dls : List VpcLoadbalancerListener)
    (tgs : List VpcLoadbalancerTargetGroup) :
    ∀ (l : List VpcLoadbalancerListener) (st : CloudState)
      (p : String × VpcLoadbalancerListener),
      p ∈ st.listeners → p.1 = lb.identity → portMapHas dls p.2.port = true →
      (∀ x ∈ l, x.identity = p.2.identity → x.port = p.2.port) →
      ∃ q ∈ (deleteOrUpdateListeners cfg svc lb dls tgs l st).1.listeners,
        q.1 = lb.identity ∧ q.2.port = p.2.port := by
  intro l
  induction l with
  | nil => intro st p hp hp1 _ _; exact ⟨p, hp, hp1, rfl⟩
  | cons x rest ih =>
    intro st p hp hp1 hhas hid
    have hidr : ∀ z ∈ rest, z.identity = p.2.identity → z.port = p.2.port :=
      fun z hz => hid z (List.mem_cons_of_mem x hz)
    simp only [deleteOrUpdateListeners]
    cases hlw : portMapLookup dls x.port with
    | none =>
      have hxne : x.identity ≠ p.2.identity := by
        intro he
        have hxp : x.port = p.2.port := hid x (List.mem_cons_self x rest) he
        have hsome := portMapLookup_isSome dls x.port
          (by rw [hxp]; exact exists_of_portMapHas dls p.2.port hhas)
        rw [hlw] at hsome
        simp at hsome
      have hp' : p ∈ (applyDeleteListener st lb.identity x.identity).listeners := by
        simp only [applyDeleteListener]
        refine List.mem_filter.mpr ⟨hp, ?_⟩
        simp only [decide_eq_true_eq]
        exact fun hc => hxne hc.2.symm
      exact ih _ p hp' hp1 hhas hidr
    | some ltu =>
      simp only [hlw]
      by_cases hres : getTargetGroupIdentityForListener cfg svc ltu tgs = ""
      · rw [if_pos hres]
        exact ih st p hp hp1 hhas hidr
      · rw [if_neg hres]
        obtain ⟨q0, hq0, hq1, hq2, hq3⟩ := updListener_mem st lb.identity x.identity
          (⟨ltu.name, ltu.description, ltu.labels, ltu.annotations, ltu.port,
            ltu.protocol, getTargetGroupIdentityForListener cfg svc ltu tgs,
            ltu.allowedSources, ltu.connectionIdleTimeout,
            ltu.maxConnections⟩ : UpdateListenerReq) p hp
        have hqport : q0.2.port = p.2.port := by
          rcases hq3 with h | ⟨_, hpl, hqp⟩
          · exact h
          · have hxp : x.port = p.2.port := hid x (List.mem_cons_self x rest) hpl.symm
            have hlp : ltu.port = x.port := (portMapLookup_spec dls x.port ltu hlw).2
            rw [hqp]
            exact hlp.trans hxp
        obtain ⟨q, hq, hqa, hqb⟩ := ih _ q0 hq0 (hq1.trans hp1)
          (by rw [hqport]; exact hhas)
          (by
            intro z hz he
            rw [hq2] at he
            rw [hqport]
            exact hidr z hz he)
        exact ⟨q, hq, hqa, hqb.trans hqport⟩

/-- The create loop only appends listener entries. -/
theorem createMissingListeners_keep (cfg : LBCfg) (svc : KService)
    (lb : VpcLoadbalancer) (snap : List VpcLoadbalancerListener)
    (tgs : List VpcLoadbalancerTargetGroup) :
    ∀ (l : List VpcLoadbalancerListener) (st : CloudState)
      (p : String × VpcLoadbalancerListener), p ∈ st.listeners →
      p ∈ (createMissingListeners cfg svc lb snap tgs l st).1.listeners := by
  intro l
  induction l with
  | nil => intro st p hp; exact hp
  | cons x rest ih =>
    intro st p hp
    simp only [createMissingListeners]
    by_cases hh : portMapHas snap x.port = true
    · rw [if_pos hh]; exact ih st p hp
    · rw [if_neg hh]
      by_cases hres : getTargetGroupIdentityForListener cfg svc x tgs = ""
      · rw [if_pos hres]; exact ih st p hp
      · rw [if_neg hres]
        refine ih _ p ?_
        simp only [applyCreateListener]
        exact List.mem_append_left _ hp

/-- The create loop creates an entry for every worklist listener whose
port is absent from the snapshot and whose resolution succeeds. -/
theorem createMissingListeners_creates (cfg : LBCfg) (svc : KService)
    (lb : VpcLoadbalancer) (snap : List VpcLoadbalancerListener)
    (tgs : List VpcLoadbalancerTargetGroup) :
    ∀ (l : List VpcLoadbalancerListener) (st : CloudState)
      (x : VpcLoadbalancerListener), x ∈ l →
      ¬ portMapHas snap x.port = true →
      ¬ getTargetGroupIdentityForListener cfg svc x tgs = "" →
      ∃ q ∈ (createMissingListeners cfg svc lb snap tgs l st).1.listeners,
        q.1 = lb.identity ∧ q.2.port = x.port := by
  intro l
  induction l with
  | nil => intro st x hx; simp at hx
  | cons y rest ih =>
    intro st x hx hnh hres
    rcases List.mem_cons.mp hx with rfl | hrest
    · simp only [createMissingListeners]
      rw [if_neg hnh, if_neg hres]
      have hmem0 : ∃ p ∈ (applyCreateListener st lb.identity
          (⟨x.name, x.description, x.labels, x.annotations, x.port, x.protocol,
            getTargetGroupIdentityForListener cfg svc x tgs, x.allowedSources,
            x.connectionIdleTimeout, x.maxConnections⟩ : CreateListenerReq)).listeners,
          p.1 = lb.identity ∧ p.2.port = x.port := by
        simp only [applyCreateListener]
        exact ⟨_, List.mem_append_right _ (List.mem_singleton.mpr rfl), rfl, rfl⟩
      obtain ⟨p, hp, hp1, hp2⟩ := hmem0
      exact ⟨p, createMissingListeners_keep cfg svc lb snap tgs rest _ p hp, hp1, hp2⟩
    · simp only [createMissingListeners]
      by_cases hh : portMapHas snap y.port = true
      · rw [if_pos hh]; exact ih st x hrest hnh hres
      · rw [if_neg hh]
        by_cases hresy : getTargetGroupIdentityForListener cfg svc y tgs = ""
        · rw [if_pos hresy]; exact ih st x hrest hnh hres
        · rw [if_neg hresy]; exact ih _ x hrest hnh hres

/-- After the delete-or-update loop, every listener entry of the balancer
has a desired port, provided every entry was either already desired or is
still covered by the worklist. -/
theorem allports_deleteOrUpdateListeners (cfg : LBCfg) (svc : KService)
    (lb : VpcLoadbalancer) (dls : List VpcLoadbalancerListener)
    (tgs : List VpcLoadbalancerTargetGroup) :
    ∀ (l : List VpcLoadbalancerListener) (st : CloudState),
      (∀ p ∈ st.listeners, p.1 = lb.identity →
        portMapHas dls p.2.port = true ∨
        ∃ x ∈ l, x.identity = p.2.identity ∧ x.port = p.2.port) →
      ∀ p ∈ (deleteOrUpdateListeners cfg svc lb dls tgs l st).1.listeners,
        p.1 = lb.identity → portMapHas dls p.2.port = true := by
  intro l
  induction l with
  | nil =>
    intro st hinv p hp hp1
    rcases hinv p hp hp1 with h | ⟨x, hx, _⟩
    · exact h
    · simp at hx
  | cons x rest ih =>
    intro st hinv
    simp only [deleteOrUpdateListeners]
    cases hlw : portMapLookup dls x.port with
    | none =>
      refine ih _ ?_
      intro p hp hp1
      simp only [applyDeleteListener] at hp
      have hpm := List.mem_of_mem_filter hp
      have hpc := List.of_mem_filter hp
      simp only [decide_eq_true_eq] at hpc
      rcases hinv p hpm hp1 with h | ⟨z, hz, hz1, hz2⟩
      · exact Or.inl h
      · rcases List.mem_cons.mp hz with rfl | hz3
        · exact absurd ⟨hp1, hz1.symm⟩ hpc
        · exact Or.inr ⟨z, hz3, hz1, hz2⟩
    | some ltu =>
      simp only [hlw]
      by_cases hres : getTargetGroupIdentityForListener cfg svc ltu tgs = ""
      · rw [if_pos hres]
        refine ih st ?_
        intro p hp hp1
        rcases hinv p hp hp1 with h | ⟨z, hz, hz1, hz2⟩
        · exact Or.inl h
        · rcases List.mem_cons.mp hz with rfl | hz3
          · left
            rw [← hz2]
            have := (portMapLookup_spec dls z.port ltu hlw).1
            have hlp := (portMapLookup_spec dls z.port ltu hlw).2
            rw [← hlp]
            exact portMapHas_of_mem dls ltu this
          · exact Or.inr ⟨z, hz3, hz1, hz2⟩
      · rw [if_neg hres]
        refine ih _ ?_
        intro p hp hp1
        simp only [applyUpdateListener] at hp
        obtain ⟨w, hw, hwp⟩ := List.mem_map.mp hp
        by_cases hc : w.1 = lb.identity ∧ w.2.identity = x.identity
        · rw [if_pos hc] at hwp
          left
          have hwport : p.2.port = ltu.port := by rw [← hwp]
          rw [hwport]
          exact portMapHas_of_mem dls ltu (portMapLookup_spec dls x.port ltu hlw).1
        · rw [if_neg hc] at hwp
          rw [← hwp]
          rw [← hwp] at hp1
          rcases hinv w hw hp1 with h | ⟨z, hz, hz1, hz2⟩
          · exact Or.inl h
          · rcases List.mem_cons.mp hz with rfl | hz3
            · exact absurd ⟨hp1, hz1.symm⟩ hc
            · exact Or.inr ⟨z, hz3, hz1, hz2⟩

/-- After the create loop, every listener entry of the balancer has a
desired port, provided the worklist is the desired list itself. -/
theorem allports_createMissingListeners (cfg : LBCfg) (svc : KService)
    (lb : VpcLoadbalancer) (snap : List VpcLoadbalancerListener)
    (tgs : List VpcLoadbalancerTargetGroup)
    (dls : List VpcLoadbalancerListener) :
    ∀ (l : List VpcLoadbalancerListener) (st : CloudState),
      (∀ x ∈ l, portMapHas dls x.port = true) →
      (∀ p ∈ st.listeners, p.1 = lb.identity → portMapHas dls p.2.port = true) →
      ∀ p ∈ (createMissingListeners cfg svc lb snap tgs l st).1.listeners,
        p.1 = lb.identity → portMapHas dls p.2.port = true := by
  intro l
  induction l with
  | nil => intro st _ hinv p hp; exact hinv p hp
  | cons x rest ih =>
    intro st hsub hinv
    have hsubr : ∀ z ∈ rest, portMapHas dls z.port = true :=
      fun z hz => hsub z (List.mem_cons_of_mem x hz)
    simp only [createMissingListeners]
    by_cases hh : portMapHas snap x.port = true
    · rw [if_pos hh]; exact ih st hsubr hinv
    · rw [if_neg hh]
      by_cases hres : getTargetGroupIdentityForListener cfg svc x tgs = ""
      · rw [if_pos hres]; exact ih st hsubr hinv
      · rw [if_neg hres]
        refine ih _ hsubr ?_
        intro p hp hp1
        simp only [applyCreateListener] at hp
        rcases List.mem_append.mp hp with h1 | h1
        · exact hinv p h1 hp1
        · have hpe := List.mem_singleton.mp h1
          have : p.2.port = x.port := by rw [hpe]
          rw [this]
          exact hsub x (List.mem_cons_self x rest)

/-- When every existing listener's port is desired, the delete-or-update
loop issues only update calls. -/
theorem calls_deleteOrUpdateListeners_no_cd (cfg : LBCfg) (svc : KService)
    (lb : VpcLoadbalancer) (dls : List VpcLoadbalancerListener)
    (tgs : List VpcLoadbalancerTargetGroup) :
    ∀ (l : List VpcLoadbalancerListener) (st : CloudState),
      (∀ x ∈ l, portMapHas dls x.port = true) →
      ∀ c ∈ (deleteOrUpdateListeners cfg svc lb dls tgs l st).2,
        c.isCreateOrDelete = false := by
  intro l
  induction l with
  | nil => intro st _ c hc; simp [deleteOrUpdateListeners] at hc
  | cons x rest ih =>
    intro st hall c hc
    have hx : portMapHas dls x.port = true := hall x (List.mem_cons_self x rest)
    have hrest : ∀ z ∈ rest, portMapHas dls z.port = true :=
      fun z hz => hall z (List.mem_cons_of_mem x hz)
    simp only [deleteOrUpdateListeners] at hc
    cases hlw : portMapLookup dls x.port with
    | none =>
      exfalso
      have hsome := portMapLookup_isSome dls x.port (exists_of_portMapHas dls x.port hx)
      rw [hlw] at hsome
      simp at hsome
    | some ltu =>
      simp only [hlw] at hc
      by_cases hres : getTargetGroupIdentityForListener cfg svc ltu tgs = ""
      · rw [if_pos hres] at hc
        exact ih st hrest c hc
      · rw [if_neg hres] at hc
        rcases List.mem_cons.mp hc with rfl | hc2
        · rfl
        · exact ih _ hrest c hc2

theorem mem_listListenersOf (st : CloudState) (lbId : String)
    (x : VpcLoadbalancerListener) :
    x ∈ listListenersOf st lbId ↔ ∃ p ∈ st.listeners, p.1 = lbId ∧ p.2 = x := by
  simp only [listListenersOf, List.mem_map, List.mem_filter, decide_eq_true_eq]
  constructor
  · rintro ⟨p, ⟨hp, hp1⟩, hp2⟩
    exact ⟨p, hp, hp1, hp2⟩
  · rintro ⟨p, hp, hp1, hp2⟩
    exact ⟨p, ⟨hp, hp1⟩, hp2⟩

/-- After the full listener reconciliation, every desired port is carried
by some listener entry of the balancer, provided resolution succeeds for
every desired listener and the cloud's listener identities are unique. -/
theorem ports_cover_updateVpcLoadbalancerListener (cfg : LBCfg) (svc : KService)
    (lb : VpcLoadbalancer) (dls : List VpcLoadbalancerListener)
    (tgs : List VpcLoadbalancerTargetGroup) (st : CloudState)
    (hnd : (st.listeners.map (fun r => r.2.identity)).Nodup)
    (hres : ∀ x ∈ dls, ¬ getTargetGroupIdentityForListener cfg svc x tgs = "") :
    ∀ x ∈ dls,
      ∃ q ∈ (updateVpcLoadbalancerListener cfg svc lb dls tgs st).1.listeners,
        q.1 = lb.identity ∧ q.2.port = x.port := by
  intro x hx
  simp only [updateVpcLoadbalancerListener]
  by_cases hh : portMapHas (listListenersOf st lb.identity) x.port = true
  · obtain ⟨x', hx', hxp⟩ := exists_of_portMapHas _ _ hh
    obtain ⟨p, hp, hp1, hp2⟩ := (mem_listListenersOf st lb.identity x').mp hx'
    have hid : ∀ z ∈ listListenersOf st lb.identity,
        z.identity = p.2.identity → z.port = p.2.port := by
      intro z hz he
      obtain ⟨pz, hpz, _, hpz2⟩ := (mem_listListenersOf st lb.identity z).mp hz
      have : pz = p := nodup_map_eq (fun r => r.2.identity) st.listeners hnd
        pz hpz p hp (by show pz.2.identity = p.2.identity; rw [hpz2]; exact he)
      rw [← hpz2, this]
    have hphas : portMapHas dls p.2.port = true := by
      rw [hp2, hxp]
      exact portMapHas_of_mem dls x hx
    by_cases hne : dls ≠ listListenersOf st lb.identity
    · rw [if_pos hne]
      obtain ⟨q', hq', hq1, hq2⟩ := ports_track_deleteOrUpdateListeners cfg svc lb dls
        tgs (listListenersOf st lb.identity) st p hp hp1 hphas hid
      refine ⟨q', createMissingListeners_keep cfg svc lb _ tgs dls _ q' hq', hq1, ?_⟩
      rw [hq2, hp2, hxp]
    · rw [if_neg hne]
      refine ⟨p, createMissingListeners_keep cfg svc lb _ tgs dls _ p hp, hp1, ?_⟩
      rw [hp2, hxp]
  · obtain ⟨q, hq, hq1, hq2⟩ := createMissingListeners_creates cfg svc lb
      (listListenersOf st lb.identity) tgs dls _ x hx hh (hres x hx)
    exact ⟨q, hq, hq1, hq2⟩

/-- After the full listener reconciliation, every listener entry of the
balancer carries a desired port. -/
theorem allports_updateVpcLoadbalancerListener (cfg : LBCfg) (svc : KService)
    (lb : VpcLoadbalancer) (dls : List VpcLoadbalancerListener)
    (tgs : List VpcLoadbalancerTargetGroup) (st : CloudState) :
    ∀ p ∈ (updateVpcLoadbalancerListener cfg svc lb dls tgs st).1.listeners,
      p.1 = lb.identity → portMapHas dls p.2.port = true := by
  simp only [updateVpcLoadbalancerListener]
  refine allports_createMissingListeners cfg svc lb _ tgs dls dls _
    (fun z hz => portMapHas_of_mem dls z hz) ?_
  by_cases hne : dls ≠ listListenersOf st lb.identity
  · rw [if_pos hne]
    refine allports_deleteOrUpdateListeners cfg svc lb dls tgs _ st ?_
    intro p hp hp1
    exact Or.inr ⟨p.2, (mem_listListenersOf st lb.identity p.2).mpr ⟨p, hp, hp1, rfl⟩,
      rfl, rfl⟩
  · rw [if_neg hne]
    intro p hp hp1
    have hm : p.2 ∈ listListenersOf st lb.identity :=
      (mem_listListenersOf st lb.identity p.2).mpr ⟨p, hp, hp1, rfl⟩
    rw [not_ne_iff.mp hne]
    exact portMapHas_of_mem _ _ hm

/-! ## Managed security group: existence and call shapes -/

theorem frames_ensureManagedSecurityGroup (cfg : LBCfg) (svc : KService)
    (dls : List VpcLoadbalancerListener) (st : CloudState) :
    (ensureManagedSecurityGroup cfg svc dls st).2.1.tgs = st.tgs ∧
    (ensureManagedSecurityGroup cfg svc dls st).2.1.listeners = st.listeners := by
  simp only [ensureManagedSecurityGroup]
  split
  · exact ⟨rfl, rfl⟩
  · exact ⟨rfl, rfl⟩

theorem frames_updateVpcLoadbalancer (cfg : LBCfg) (svc : KService)
    (v : VpcLoadbalancer) (dls : List VpcLoadbalancerListener) (st : CloudState) :
    (updateVpcLoadbalancer cfg svc v dls st).2.1.tgs = st.tgs ∧
    (updateVpcLoadbalancer cfg svc v dls st).2.1.listeners = st.listeners := by
  simp only [updateVpcLoadbalancer]
  split
  · exact ⟨rfl, rfl⟩
  · split <;> (try split) <;> (try split) <;>
      first
        | exact ⟨rfl, rfl⟩
        | exact ⟨(frames_ensureManagedSecurityGroup cfg svc dls st).1,
            (frames_ensureManagedSecurityGroup cfg svc dls st).2⟩

theorem findManagedSecurityGroup_finds (cfg : LBCfg) (svc : KService)
    (st : CloudState)
    (h : ∃ sg ∈ st.sgs,
      matchLabels (getLabelsForVpcLoadbalancer cfg svc) sg.labels = true) :
    ∃ sg', (findManagedSecurityGroup cfg svc st).1 = some sg' := by
  obtain ⟨sg0, hm, hmat⟩ := h
  have hmf : sg0 ∈ listSecurityGroupsByLabels st (getLabelsForVpcLoadbalancer cfg svc) := by
    simp only [listSecurityGroupsByLabels]
    exact List.mem_filter.mpr ⟨hm, by simpa using hmat⟩
  simp only [findManagedSecurityGroup]
  cases hff : (listSecurityGroupsByLabels st
      (getLabelsForVpcLoadbalancer cfg svc)).find? (fun sg =>
        matchLabels (getLabelsForVpcLoadbalancer cfg svc) sg.labels) with
  | some sg' => exact ⟨sg', rfl⟩
  | none =>
    exfalso
    have := List.find?_eq_none.mp hff sg0 hmf
    simp [hmat] at this

/-- Ensuring the managed security group leaves a group carrying exactly
the canonical service labels in the state. -/
theorem sg_post_ensureManagedSecurityGroup (cfg : LBCfg) (svc : KService)
    (dls : List VpcLoadbalancerListener) (st : CloudState) :
    ∃ sg ∈ (ensureManagedSecurityGroup cfg svc dls st).2.1.sgs,
      sg.labels = getLabelsForVpcLoadbalancer cfg svc := by
  simp only [ensureManagedSecurityGroup]
  cases hf : (findManagedSecurityGroup cfg svc st).1 with
  | none =>
    simp only [hf]
    simp only [applyCreateSG]
    exact ⟨_, List.mem_append_right _ (List.mem_singleton.mpr rfl), rfl⟩
  | some sg =>
    simp only [hf]
    have hsgm : sg ∈ st.sgs := by
      have hf' : (listSecurityGroupsByLabels st
          (getLabelsForVpcLoadbalancer cfg svc)).find? (fun s =>
            matchLabels (getLabelsForVpcLoadbalancer cfg svc) s.labels) = some sg := hf
      have := List.mem_of_find?_eq_some hf'
      simp only [listSecurityGroupsByLabels] at this
      exact List.mem_of_mem_filter this
    simp only [applyUpdateSG]
    refine ⟨_, List.mem_map_of_mem _ hsgm, ?_⟩
    rw [if_pos rfl]
    rfl

/-- When the managed security group already exists, ensuring it issues
only a list and an update call. -/
theorem calls_ensureManagedSG_no_cd (cfg : LBCfg) (svc : KService)
    (dls : List VpcLoadbalancerListener) (st : CloudState)
    (h : ∃ sg ∈ st.sgs,
      matchLabels (getLabelsForVpcLoadbalancer cfg svc) sg.labels = true) :
    ∀ c ∈ (ensureManagedSecurityGroup cfg svc dls st).2.2,
      c.isCreateOrDelete = false := by
  obtain ⟨sg', hf⟩ := findManagedSecurityGroup_finds cfg svc st h
  intro c hc
  simp only [ensureManagedSecurityGroup, hf] at hc
  simp only [findManagedSecurityGroup] at hc
  rcases List.mem_append.mp hc with h1 | h1
  · rw [List.mem_singleton.mp h1]
    rfl
  · rw [List.mem_singleton.mp h1]
    rfl

theorem calls_updateVpcLoadbalancer_noSG (cfg : LBCfg) (svc : KService)
    (v : VpcLoadbalancer) (dls : List VpcLoadbalancerListener) (st : CloudState)
    (hsc : shouldCreateSecurityGroup svc = false) :
    ∀ c ∈ (updateVpcLoadbalancer cfg svc v dls st).2.2,
      c ∈ (verifySecurityGroupsExist cfg (getSecurityGroupsForService svc) st).2 ∨
      ∃ req, c = CloudCall.updateLoadbalancer v.identity req := by
  intro c hc
  simp only [updateVpcLoadbalancer] at hc
  split at hc
  · exact Or.inl hc
  · rw [if_neg (show ¬ (shouldCreateSecurityGroup svc = true) from by simp [hsc])] at hc
    split at hc <;> (try split at hc) <;>
      first
        | (rcases List.mem_append.mp hc with h1 | h1
           · rcases List.mem_append.mp h1 with h2 | h2
             · exact Or.inl h2
             · simp at h2
           · exact Or.inr ⟨_, List.mem_singleton.mp h1⟩)
        | (rcases List.mem_append.mp hc with h1 | h1
           · exact Or.inl h1
           · simp at h1)

/-- The balancer-attribute update issues no create or delete call as long
as the managed security group, when requested, already exists. -/
theorem calls_updateVpcLoadbalancer_no_cd (cfg : LBCfg) (svc : KService)
    (v : VpcLoadbalancer) (dls : List VpcLoadbalancerListener) (st : CloudState)
    (h : shouldCreateSecurityGroup svc = true → ∃ sg ∈ st.sgs,
      matchLabels (getLabelsForVpcLoadbalancer cfg svc) sg.labels = true) :
    ∀ c ∈ (updateVpcLoadbalancer cfg svc v dls st).2.2,
      c.isCreateOrDelete = false := by
  intro c hc
  by_cases hsc : shouldCreateSecurityGroup svc = true
  · rcases calls_updateVpcLoadbalancer_cases cfg svc v dls st with htr | ⟨mid, hmid, htr⟩
    · rw [htr] at hc
      rw [mem_calls_verify cfg _ st c hc]
      rfl
    · rcases htr with htr | ⟨req, htr, _, _, _, _⟩
      · rw [htr] at hc
        rcases List.mem_append.mp hc with h1 | h1
        · rw [mem_calls_verify cfg _ st c h1]
          rfl
        · rcases hmid with rfl | rfl
          · exact calls_ensureManagedSG_no_cd cfg svc dls st (h hsc) c h1
          · simp at h1
      · rw [htr] at hc
        rcases List.mem_append.mp hc with h1 | h1
        · rcases List.mem_append.mp h1 with h2 | h2
          · rw [mem_calls_verify cfg _ st c h2]
            rfl
          · rcases hmid with rfl | rfl
            · exact calls_ensureManagedSG_no_cd cfg svc dls st (h hsc) c h2
            · simp at h2
        · rw [List.mem_singleton.mp h1]
          rfl
  · have hsc' : shouldCreateSecurityGroup svc = false := by
      revert hsc
      cases shouldCreateSecurityGroup svc <;> simp
    rcases calls_updateVpcLoadbalancer_noSG cfg svc v dls st hsc' c hc with h1 | ⟨req, h1⟩
    · rw [mem_calls_verify cfg _ st c h1]
      rfl
    · rw [h1]
      rfl

/-! ## Fetch stability: the balancer is still found after reconciliation -/

theorem find_append_none {α : Type} (p : α → Bool) :
    ∀ (l1 l2 : List α), l1.find? p = none → (l1 ++ l2).find? p = l2.find? p := by
  intro l1
  induction l1 with
  | nil => intro l2 _; rfl
  | cons a as ih =>
    intro l2 h
    by_cases hpa : p a = true
    · rw [List.find?_cons_of_pos _ hpa] at h
      simp at h
    · rw [List.find?_cons_of_neg _ (by simpa using hpa)] at h
      rw [List.cons_append, List.find?_cons_of_neg _ (by simpa using hpa)]
      exact ih l2 h

theorem find_stab_pos (p : VpcLoadbalancer → Bool)
    (g : VpcLoadbalancer → VpcLoadbalancer) (v : VpcLoadbalancer)
    (hgid : ∀ lb, (g lb).identity = lb.identity)
    (hpg : ∀ lb, lb.identity = v.identity → p (g lb) = p v)
    (hgneq : ∀ lb, lb.identity ≠ v.identity → g lb = lb) :
    ∀ l : List VpcLoadbalancer, l.find? p = some v →
      ∃ w, (l.map g).find? p = some w ∧ w.identity = v.identity := by
  intro l
  induction l with
  | nil => intro h; simp at h
  | cons a as ih =>
    intro h
    have hpv : p v = true := List.find?_some h
    by_cases hpa : p a = true
    · have hav : a = v := by
        rw [List.find?_cons_of_pos _ hpa] at h
        exact Option.some.inj h
      subst hav
      have hpga : p (g a) = true := by rw [hpg a rfl]; exact hpv
      rw [List.map_cons, List.find?_cons_of_pos _ hpga]
      exact ⟨g a, rfl, hgid a⟩
    · have hfind : as.find? p = some v := by
        rw [List.find?_cons_of_neg _ (by simpa using hpa)] at h
        exact h
      by_cases hid : a.identity = v.identity
      · have hpga : p (g a) = true := by rw [hpg a hid]; exact hpv
        rw [List.map_cons, List.find?_cons_of_pos _ hpga]
        exact ⟨g a, rfl, (hgid a).trans hid⟩
      · obtain ⟨w, hw, hwid⟩ := ih hfind
        rw [List.map_cons, hgneq a hid, List.find?_cons_of_neg _ (by simpa using hpa)]
        exact ⟨w, hw, hwid⟩

theorem find_stab_none (p : VpcLoadbalancer → Bool)
    (g : VpcLoadbalancer → VpcLoadbalancer) (v : VpcLoadbalancer)
    (hpg : ∀ lb, lb.identity = v.identity → p (g lb) = p v)
    (hgneq : ∀ lb, lb.identity ≠ v.identity → g lb = lb)
    (hpv : p v = false) :
    ∀ l : List VpcLoadbalancer, l.find? p = none → (l.map g).find? p = none := by
  intro l h
  rw [List.find?_eq_none] at h ⊢
  intro x hx
  obtain ⟨a, ha, hax⟩ := List.mem_map.mp hx
  rw [← hax]
  by_cases hid : a.identity = v.identity
  · rw [hpg a hid, hpv]
    simp
  · rw [hgneq a hid]
    exact h a ha

/-- After an attribute update that preserves the balancer's name and
labels, the fetch still finds a balancer with the same identity. -/
theorem fetch_stab_updateLB (cfg : LBCfg) (svc : KService) (st s' : CloudState)
    (v : VpcLoadbalancer) (req : UpdateLoadbalancerReq)
    (hl : s'.lbs = st.lbs) (hname : req.name = v.name) (hlab : req.labels = v.labels)
    (hf : (fetchVpcLoadbalancerFromCloud cfg svc st).1 = some v) :
    ∃ w, (fetchVpcLoadbalancerFromCloud cfg svc
        (applyUpdateLB s' v.identity req)).1 = some w ∧
      w.identity = v.identity := by
  simp only [fetchVpcLoadbalancerFromCloud, listLoadbalancersInVpc] at hf ⊢
  rw [show (applyUpdateLB s' v.identity req).lbs = s'.lbs.map (fun lb =>
    if lb.identity = v.identity then
      { lb with
        name := req.name
        description := req.description
        labels := req.labels
        annotations := req.annotations
        subnetIdentity := req.subnet.getD lb.subnetIdentity
        deleteProtection := req.deleteProtection
        securityGroups := req.securityGroupAttachments }
    else lb) from rfl, hl]
  have hgid : ∀ lb : VpcLoadbalancer, ((fun lb =>
      if lb.identity = v.identity then
        { lb with
          name := req.name
          description := req.description
          labels := req.labels
          annotations := req.annotations
          subnetIdentity := req.subnet.getD lb.subnetIdentity
          deleteProtection := req.deleteProtection
          securityGroups := req.securityGroupAttachments }
      else lb) lb).identity = lb.identity := by
    intro lb
    by_cases hc : lb.identity = v.identity <;> simp [hc]
  have hgneq : ∀ lb : VpcLoadbalancer, lb.identity ≠ v.identity → (fun lb =>
      if lb.identity = v.identity then
        { lb with
          name := req.name
          description := req.description
          labels := req.labels
          annotations := req.annotations
          subnetIdentity := req.subnet.getD lb.subnetIdentity
          deleteProtection := req.deleteProtection
          securityGroups := req.securityGroupAttachments }
      else lb) lb = lb := by
    intro lb hc
    simp [hc]
  cases hemp : st.lbs.isEmpty with
  | true =>
    rw [if_pos hemp] at hf
    simp at hf
  | false =>
    rw [if_neg (by simp [hemp])] at hf
    have hemp2 : (st.lbs.map (fun lb =>
        if lb.identity = v.identity then
          { lb with
            name := req.name
            description := req.description
            labels := req.labels
            annotations := req.annotations
            subnetIdentity := req.subnet.getD lb.subnetIdentity
            deleteProtection := req.deleteProtection
            securityGroups := req.securityGroupAttachments }
        else lb)).isEmpty = false := by
      cases hst : st.lbs with
      | nil => rw [hst] at hemp; simp at hemp
      | cons a as => simp
    rw [if_neg (by simp [hemp2])]
    cases hfl : st.lbs.find? (fun lb =>
        matchLabels (getLabelsForVpcLoadbalancer cfg svc) lb.labels) with
    | some u =>
      rw [hfl] at hf
      have huv : u = v := Option.some.inj hf
      subst huv
      obtain ⟨w, hw, hwid⟩ := find_stab_pos
        (fun lb => matchLabels (getLabelsForVpcLoadbalancer cfg svc) lb.labels)
        _ u hgid (by
          intro lb hid
          simp [hid, hlab]) hgneq st.lbs hfl
      rw [hw]
      exact ⟨w, rfl, hwid⟩
    | none =>
      rw [hfl] at hf
      have hpn : st.lbs.find? (fun lb =>
          lb.name = defaultLoadBalancerName svc) = some v := hf
      have hvm : v ∈ st.lbs := List.mem_of_find?_eq_some hpn
      have hpv : matchLabels (getLabelsForVpcLoadbalancer cfg svc) v.labels = false := by
        have := List.find?_eq_none.mp hfl v hvm
        simpa using this
      have hnone2 := find_stab_none
        (fun lb => matchLabels (getLabelsForVpcLoadbalancer cfg svc) lb.labels)
        _ v (by
          intro lb hid
          simp [hid, hlab]) hgneq hpv st.lbs hfl
      rw [hnone2]
      obtain ⟨w, hw, hwid⟩ := find_stab_pos
        (fun lb => decide (lb.name = defaultLoadBalancerName svc))
        _ v hgid (by
          intro lb hid
          simp [hid, hname]) hgneq st.lbs hpn
      rw [hw]
      exact ⟨w, rfl, hwid⟩

/-- Creating the balancer with the canonical labels makes the fetch find
it, when nothing matched before. -/
theorem fetch_after_createLB (cfg : LBCfg) (svc : KService) (s' : CloudState)
    (req : CreateLoadbalancerReq)
    (hreq : req.labels = getLabelsForVpcLoadbalancer cfg svc)
    (hpl : s'.lbs.find? (fun lb =>
      matchLabels (getLabelsForVpcLoadbalancer cfg svc) lb.labels) = none) :
    (fetchVpcLoadbalancerFromCloud cfg svc (applyCreateLB s' req).2).1 =
      some (applyCreateLB s' req).1 := by
  simp only [fetchVpcLoadbalancerFromCloud, listLoadbalancersInVpc, applyCreateLB]
  have hemp : (s'.lbs ++ [(applyCreateLB s' req).1]).isEmpty = false := by
    cases hst : s'.lbs with
    | nil => simp
    | cons a as => simp
  rw [if_neg (by simp only [applyCreateLB] at hemp; simp [hemp])]
  rw [find_append_none _ s'.lbs _ hpl]
  rw [List.find?_cons_of_pos _ (by
    show matchLabels (getLabelsForVpcLoadbalancer cfg svc) req.labels = true
    rw [hreq]
    exact matchLabels_self _ (nodupKeys_lbLabels cfg svc))]

/-! ## Assembly helpers: well-formedness projections and phase shapes -/

theorem wf_tg_bound (st : CloudState) (h : st.wf) :
    ∀ i ∈ st.tgs.map (fun t => t.identity), i.length ≤ st.nextId := by
  intro i hi
  exact h.1 i (List.mem_append_left _ (List.mem_append_left _
    (List.mem_append_left _ (List.mem_append_right _ hi))))

theorem fetch_congr (cfg : LBCfg) (svc : KService) (s1 s2 : CloudState)
    (h : s1.lbs = s2.lbs) :
    fetchVpcLoadbalancerFromCloud cfg svc s1 = fetchVpcLoadbalancerFromCloud cfg svc s2 := by
  simp only [fetchVpcLoadbalancerFromCloud, listLoadbalancersInVpc, h]

theorem fetch_none_elim (cfg : LBCfg) (svc : KService) (st : CloudState)
    (h : (fetchVpcLoadbalancerFromCloud cfg svc st).1 = none) :
    st.lbs.find? (fun lb =>
      matchLabels (getLabelsForVpcLoadbalancer cfg svc) lb.labels) = none := by
  simp only [fetchVpcLoadbalancerFromCloud, listLoadbalancersInVpc] at h
  cases hemp : st.lbs.isEmpty with
  | true =>
    rw [List.isEmpty_iff.mp hemp]
    rfl
  | false =>
    rw [if_neg (by simp [hemp])] at h
    cases hfl : st.lbs.find? (fun lb =>
        matchLabels (getLabelsForVpcLoadbalancer cfg svc) lb.labels) with
    | none => rfl
    | some u =>
      rw [hfl] at h
      simp at h

theorem calls_updateExistingTGs_no_cd (nodes : List KNode)
    (desired : List VpcLoadbalancerTargetGroup)
    (l : List VpcLoadbalancerTargetGroup) (st : CloudState) :
    ∀ c ∈ (updateExistingTGs nodes desired l st).2.2, c.isCreateOrDelete = false := by
  intro c hc
  rcases mem_calls_updateExistingTGs nodes desired l st c hc with ⟨id, req, h⟩ | ⟨id, a, h⟩
  · rw [h]; rfl
  · rw [h]; rfl

theorem lbs_updateVpcLoadbalancer_cases2 (cfg : LBCfg) (svc : KService)
    (v : VpcLoadbalancer) (dls : List VpcLoadbalancerListener) (st : CloudState) :
    (updateVpcLoadbalancer cfg svc v dls st).2.1.lbs = st.lbs ∨
    ∃ s' req, s'.lbs = st.lbs ∧
      (updateVpcLoadbalancer cfg svc v dls st).2.1 = applyUpdateLB s' v.identity req ∧
      req.name = v.name ∧ req.labels = v.labels := by
  simp only [updateVpcLoadbalancer]
  split
  · left; rfl
  · split <;> split <;> (try split) <;>
      first
        | (left; rfl)
        | (left; exact lbs_ensureManagedSecurityGroup cfg svc dls st)
        | (right; exact ⟨_, _, lbs_ensureManagedSecurityGroup cfg svc dls st,
            rfl, rfl, rfl⟩)
        | (right; exact ⟨_, _, rfl, rfl, rfl, rfl⟩)

theorem sgs_updateVpcLoadbalancer_ok (cfg : LBCfg) (svc : KService)
    (v : VpcLoadbalancer) (dls : List VpcLoadbalancerListener) (st : CloudState)
    (hsc : shouldCreateSecurityGroup svc = true) :
    (updateVpcLoadbalancer cfg svc v dls st).1 = Except.ok () →
    (updateVpcLoadbalancer cfg svc v dls st).2.1.sgs =
      (ensureManagedSecurityGroup cfg svc dls st).2.1.sgs := by
  simp only [updateVpcLoadbalancer]
  split
  · intro h; simp at h
  · rw [if_pos (show shouldCreateSecurityGroup svc = true from hsc)]
    split <;> (try split) <;> intro _ <;> rfl

theorem nextId_ensureManagedSG (cfg : LBCfg) (svc : KService)
    (dls : List VpcLoadbalancerListener) (st : CloudState) :
    st.nextId ≤ (ensureManagedSecurityGroup cfg svc dls st).2.1.nextId := by
  simp only [ensureManagedSecurityGroup]
  split
  · exact Nat.le_succ _
  · exact Nat.le_refl _

theorem createVpcLoadbalancer_ok_shape (cfg : LBCfg) (n : String) (svc : KService)
    (st : CloudState) :
    ∀ v, (createVpcLoadbalancer cfg n svc st).1 = Except.ok v →
      ∃ s' req, s'.lbs = st.lbs ∧ s'.tgs = st.tgs ∧ s'.listeners = st.listeners ∧
        st.nextId ≤ s'.nextId ∧
        req.labels = getLabelsForVpcLoadbalancer cfg svc ∧
        (createVpcLoadbalancer cfg n svc st).2.1 = (applyCreateLB s' req).2 ∧
        v = (applyCreateLB s' req).1 := by
  intro v
  simp only [createVpcLoadbalancer]
  split
  · intro h; simp at h
  · split <;> (try split) <;> (try split) <;> (try split) <;>
      first
        | (intro h; exact Except.noConfusion h)
        | (intro h
           exact ⟨(ensureManagedSecurityGroup cfg svc
              (desiredVpcLoadbalancerListener cfg svc) st).2.1, _,
             lbs_ensureManagedSecurityGroup cfg svc _ st,
             (frames_ensureManagedSecurityGroup cfg svc _ st).1,
             (frames_ensureManagedSecurityGroup cfg svc _ st).2,
             nextId_ensureManagedSG cfg svc _ st, rfl, rfl,
             (Except.ok.inj h).symm⟩)
        | (intro h
           exact ⟨st, _, rfl, rfl, rfl, Nat.le_refl _, rfl, rfl,
             (Except.ok.inj h).symm⟩)

/-- After one successful pass of the reconcile pipeline (target groups,
listeners, cleanup, balancer attributes), the resulting state satisfies
the convergence bundle the second pass relies on. -/
theorem post_pipeline (cfg : LBCfg) (svc : KService) (nodes : List KNode)
    (v : VpcLoadbalancer) (dtgs : List VpcLoadbalancerTargetGroup)
    (hok : getDesiredVpcLoadbalancerTargetGroups cfg svc = Except.ok dtgs)
    (hkeys : ∀ d ∈ dtgs, ∀ d' ∈ dtgs, tgKey d = tgKey d' → d = d') :
    ∀ (s0 : CloudState)
      (t : List VpcLoadbalancerTargetGroup × CloudState × List CloudCall)
      (l : CloudState × List CloudCall) (k : CloudState × List CloudCall)
      (S1 : CloudState),
      t = createOrUpdateTargetGroups cfg svc dtgs nodes s0 →
      l = updateVpcLoadbalancerListener cfg svc v
        (desiredVpcLoadbalancerListener cfg svc) t.1 t.2.1 →
      k = cleanupUnusedTargetGroups cfg svc dtgs l.1 →
      S1 = (updateVpcLoadbalancer cfg svc v
        (desiredVpcLoadbalancerListener cfg svc) k.1).2.1 →
      (∀ i ∈ s0.tgs.map (fun x => x.identity), i.length ≤ s0.nextId) →
      (s0.tgs.map (fun x => x.identity)).Nodup →
      (∀ tg ∈ s0.tgs, tg.identity ≠ "") →
      (s0.listeners.map (fun r => r.2.identity)).Nodup →
      (fetchVpcLoadbalancerFromCloud cfg svc s0).1 = some v →
      (updateVpcLoadbalancer cfg svc v
        (desiredVpcLoadbalancerListener cfg svc) k.1).1 = Except.ok () →
      ((∃ w, (fetchVpcLoadbalancerFromCloud cfg svc S1).1 = some w ∧
          w.identity = v.identity) ∧
       (∀ p ∈ S1.listeners, p.1 = v.identity →
          portMapHas (desiredVpcLoadbalancerListener cfg svc) p.2.port = true) ∧
       (∀ x ∈ desiredVpcLoadbalancerListener cfg svc,
          ∃ p ∈ S1.listeners, p.1 = v.identity ∧ p.2.port = x.port) ∧
       (∀ d ∈ dtgs, ∃ tg ∈ S1.tgs,
          matchLabels (getLabelsForVpcLoadbalancer cfg svc) tg.labels = true ∧
          tgKey tg = tgKey d) ∧
       (∀ tg ∈ S1.tgs,
          matchLabels (getLabelsForVpcLoadbalancer cfg svc) tg.labels = true →
          hasTgKey dtgs (tgKey tg) = true ∨ tg.loadbalancerListeners ≠ []) ∧
       (shouldCreateSecurityGroup svc = true → ∃ sg ∈ S1.sgs,
          matchLabels (getLabelsForVpcLoadbalancer cfg svc) sg.labels = true)) := by
  intro s0 t l k S1 ht hl hk hS1 hb hnd hid0 hlnd hf huok
  obtain ⟨hcover, hlistcover, hlistids⟩ :=
    tgphase_cover cfg svc dtgs nodes s0 hb hnd hid0 hkeys (gen_lb_match cfg svc dtgs hok)
  have hLf := frames_createOrUpdateTargetGroups cfg svc dtgs nodes s0
  have hres : ∀ x ∈ desiredVpcLoadbalancerListener cfg svc,
      ¬ getTargetGroupIdentityForListener cfg svc x t.1 = "" := by
    intro x hx
    obtain ⟨d, hd, hmx⟩ := gen_match cfg svc dtgs hok x hx
    obtain ⟨e, he, he1, _⟩ := hlistcover d hd
    refine resolution_ok cfg svc x t.1 ⟨e, by rw [ht]; exact he, by rw [he1]; exact hmx⟩ ?_
    intro e' he'
    exact hlistids e' (by rw [← ht]; exact he')
  have hlnd2 : (t.2.1.listeners.map (fun r => r.2.identity)).Nodup := by
    rw [ht, hLf.1]
    exact hlnd
  have hports := ports_cover_updateVpcLoadbalancerListener cfg svc v
    (desiredVpcLoadbalancerListener cfg svc) t.1 t.2.1 hlnd2 hres
  have hallp := allports_updateVpcLoadbalancerListener cfg svc v
    (desiredVpcLoadbalancerListener cfg svc) t.1 t.2.1
  have hkl : k.1.listeners = l.1.listeners := by
    rw [hk]
    simp only [cleanupUnusedTargetGroups]
    exact (frames_cleanupTGsLoop dtgs _ l.1).1
  have hS1f := frames_updateVpcLoadbalancer cfg svc v
    (desiredVpcLoadbalancerListener cfg svc) k.1
  have hlst : S1.listeners = l.1.listeners := by
    rw [hS1, hS1f.2, hkl]
  have hP4 : ∀ p ∈ S1.listeners, p.1 = v.identity →
      portMapHas (desiredVpcLoadbalancerListener cfg svc) p.2.port = true := by
    intro p hp hp1
    rw [hlst, hl] at hp
    exact hallp p hp hp1
  have hP5 : ∀ x ∈ desiredVpcLoadbalancerListener cfg svc,
      ∃ p ∈ S1.listeners, p.1 = v.identity ∧ p.2.port = x.port := by
    intro x hx
    obtain ⟨q, hq, hq1, hq2⟩ := hports x hx
    refine ⟨q, ?_, hq1, hq2⟩
    rw [hlst, hl]
    exact hq
  have h2 : S1.tgs = k.1.tgs := by
    rw [hS1]
    exact hS1f.1
  have hskel : l.1.tgs.map tgSkel = t.2.1.tgs.map tgSkel := by
    rw [hl]
    exact (skel_updateVpcLoadbalancerListener cfg svc v
      (desiredVpcLoadbalancerListener cfg svc) t.1 t.2.1).1
  have hids1 := ids_createOrUpdateTargetGroups cfg svc dtgs nodes s0 hb hnd
  have hndl : (l.1.tgs.map (fun x => x.identity)).Nodup := by
    rw [ids_of_skel hskel, ht]
    exact hids1.2
  have hkk : k.1 = (cleanupTGsLoop dtgs (listTargetGroupsByLabels l.1
      (getLabelsForVpcLoadbalancer cfg svc)) l.1).1 := by
    rw [hk]
    simp only [cleanupUnusedTargetGroups]
  have hP2 : ∀ d ∈ dtgs, ∃ tg ∈ S1.tgs,
      matchLabels (getLabelsForVpcLoadbalancer cfg svc) tg.labels = true ∧
      tgKey tg = tgKey d := by
    intro d hd
    obtain ⟨tg'', htg'', hm1, hk1⟩ := hcover d hd
    have htg2 : tg'' ∈ t.2.1.tgs := by rw [ht]; exact htg''
    obtain ⟨tg3, htg3, hsk⟩ := skel_mem hskel tg'' htg2
    obtain ⟨hsid, hslab, hsprot, hsport⟩ := tgSkel_fields hsk
    have hk3 : tgKey tg3 = tgKey tg'' := by rw [tgKey, tgKey, hsprot, hsport]
    have hsurv : tg3 ∈ (cleanupTGsLoop dtgs (listTargetGroupsByLabels l.1
        (getLabelsForVpcLoadbalancer cfg svc)) l.1).1.tgs := by
      apply cleanupTGsLoop_survives dtgs _ l.1 tg3 htg3
      intro z hz he
      have hzm : z ∈ l.1.tgs := by
        simp only [listTargetGroupsByLabels] at hz
        exact List.mem_of_mem_filter hz
      have hze : z = tg3 :=
        nodup_map_eq (fun x => x.identity) l.1.tgs hndl z hzm tg3 htg3 he
      rw [hze, hk3, hk1]
      exact (hasTgKey_iff dtgs (tgKey d)).mpr ⟨d, hd, rfl⟩
    refine ⟨tg3, ?_, ?_, ?_⟩
    · rw [h2, hkk]
      exact hsurv
    · rw [hslab]
      exact hm1
    · rw [hk3]
      exact hk1
  have hP3 : ∀ tg ∈ S1.tgs,
      matchLabels (getLabelsForVpcLoadbalancer cfg svc) tg.labels = true →
      hasTgKey dtgs (tgKey tg) = true ∨ tg.loadbalancerListeners ≠ [] := by
    intro tg htg hm
    have h3 : tg ∈ (cleanupUnusedTargetGroups cfg svc dtgs l.1).1.tgs := by
      rw [← hk, ← h2]
      exact htg
    exact clean_cleanupUnusedTargetGroups cfg svc dtgs l.1 tg h3 hm
  have hP6 : shouldCreateSecurityGroup svc = true → ∃ sg ∈ S1.sgs,
      matchLabels (getLabelsForVpcLoadbalancer cfg svc) sg.labels = true := by
    intro hsc
    have hsgs := sgs_updateVpcLoadbalancer_ok cfg svc v
      (desiredVpcLoadbalancerListener cfg svc) k.1 hsc huok
    obtain ⟨sg, hsg, hsglab⟩ := sg_post_ensureManagedSecurityGroup cfg svc
      (desiredVpcLoadbalancerListener cfg svc) k.1
    refine ⟨sg, ?_, ?_⟩
    · rw [show S1.sgs = (ensureManagedSecurityGroup cfg svc
        (desiredVpcLoadbalancerListener cfg svc) k.1).2.1.sgs from by
          rw [hS1]; exact hsgs]
      exact hsg
    · rw [hsglab]
      exact matchLabels_self _ (nodupKeys_lbLabels cfg svc)
  have hlbs : k.1.lbs = s0.lbs := by
    rw [hk, lbs_cleanupUnusedTargetGroups, hl, lbs_updateVpcLoadbalancerListener,
      ht, lbs_createOrUpdateTargetGroups]
  have hP1 : ∃ w, (fetchVpcLoadbalancerFromCloud cfg svc S1).1 = some w ∧
      w.identity = v.identity := by
    rcases lbs_updateVpcLoadbalancer_cases2 cfg svc v
        (desiredVpcLoadbalancerListener cfg svc) k.1 with
      hcase | ⟨s', req, hs', heq, hname, hlab⟩
    · have hle : S1.lbs = s0.lbs := by rw [hS1, hcase, hlbs]
      have hfe := fetch_congr cfg svc S1 s0 hle
      exact ⟨v, by rw [hfe]; exact hf, rfl⟩
    · obtain ⟨w, hw, hwid⟩ := fetch_stab_updateLB cfg svc s0 s' v req
        (hs'.trans hlbs) hname hlab hf
      rw [hS1, heq]
      exact ⟨w, hw, hwid⟩
  exact ⟨hP1, hP4, hP5, hP2, hP3, hP6⟩

/-- When every existing listener port is desired and every desired port
exists, the listener phase issues only list and update calls. -/
theorem calls_updLst_no_cd (cfg : LBCfg) (svc : KService) (lb : VpcLoadbalancer)
    (dls : List VpcLoadbalancerListener) (tgs : List VpcLoadbalancerTargetGroup)
    (st : CloudState)
    (hall : ∀ z ∈ listListenersOf st lb.identity, portMapHas dls z.port = true)
    (hcov : ∀ x ∈ dls, portMapHas (listListenersOf st lb.identity) x.port = true) :
    ∀ c ∈ (updateVpcLoadbalancerListener cfg svc lb dls tgs st).2,
      c.isCreateOrDelete = false := by
  intro c hc
  simp only [updateVpcLoadbalancerListener] at hc
  rw [createMissingListeners_noop cfg svc lb (listListenersOf st lb.identity)
    tgs dls _ hcov] at hc
  rcases List.mem_cons.mp hc with rfl | h1
  · rfl
  · rcases List.mem_append.mp h1 with h2 | h2
    · by_cases hne : dls ≠ listListenersOf st lb.identity
      · rw [if_pos hne] at h2
        exact calls_deleteOrUpdateListeners_no_cd cfg svc lb dls tgs _ st hall c h2
      · rw [if_neg hne] at h2
        simp at h2
    · simp at h2

/-- Under the same conditions, the listener phase leaves the target groups
and security groups untouched. -/
theorem frames_updLst_strong (cfg : LBCfg) (svc : KService) (lb : VpcLoadbalancer)
    (dls : List VpcLoadbalancerListener) (tgs : List VpcLoadbalancerTargetGroup)
    (st : CloudState)
    (hall : ∀ z ∈ listListenersOf st lb.identity, portMapHas dls z.port = true)
    (hcov : ∀ x ∈ dls, portMapHas (listListenersOf st lb.identity) x.port = true) :
    (updateVpcLoadbalancerListener cfg svc lb dls tgs st).1.tgs = st.tgs ∧
    (updateVpcLoadbalancerListener cfg svc lb dls tgs st).1.sgs = st.sgs := by
  simp only [updateVpcLoadbalancerListener]
  rw [createMissingListeners_noop cfg svc lb (listListenersOf st lb.identity)
    tgs dls _ hcov]
  by_cases hne : dls ≠ listListenersOf st lb.identity
  · rw [if_pos hne]
    obtain ⟨h1, h2, _⟩ := tgs_frame_deleteOrUpdateListeners cfg svc lb dls tgs
      (listListenersOf st lb.identity) st hall
    exact ⟨h1, h2⟩
  · rw [if_neg hne]
    exact ⟨rfl, rfl⟩

/-- The second reconcile pass over a converged state issues no create or
delete call. -/
theorem run2_no_cd (cfg : LBCfg) (svc : KService) (nodes : List KNode)
    (dtgs : List VpcLoadbalancerTargetGroup) (S1 : CloudState)
    (w : VpcLoadbalancer)
    (hok : getDesiredVpcLoadbalancerTargetGroups cfg svc = Except.ok dtgs)
    (hP4 : ∀ p ∈ S1.listeners, p.1 = w.identity →
      portMapHas (desiredVpcLoadbalancerListener cfg svc) p.2.port = true)
    (hP5 : ∀ x ∈ desiredVpcLoadbalancerListener cfg svc,
      ∃ p ∈ S1.listeners, p.1 = w.identity ∧ p.2.port = x.port)
    (hP2 : ∀ d ∈ dtgs, ∃ tg ∈ S1.tgs,
      matchLabels (getLabelsForVpcLoadbalancer cfg svc) tg.labels = true ∧
      tgKey tg = tgKey d)
    (hP3 : ∀ tg ∈ S1.tgs,
      matchLabels (getLabelsForVpcLoadbalancer cfg svc) tg.labels = true →
      hasTgKey dtgs (tgKey tg) = true ∨ tg.loadbalancerListeners ≠ [])
    (hP6 : shouldCreateSecurityGroup svc = true → ∃ sg ∈ S1.sgs,
      matchLabels (getLabelsForVpcLoadbalancer cfg svc) sg.labels = true) :
    ∀ c ∈ (updateVpcLoadbalancerListenersAndTargetGroups cfg svc nodes
        (some w) S1).2.2,
      c.isCreateOrDelete = false := by
  have hnoop : createMissingTGs cfg nodes (listTargetGroupsByLabels S1
      (getLabelsForVpcLoadbalancer cfg svc)) dtgs S1 = ([], S1, []) := by
    apply createMissingTGs_noop
    intro d hd
    obtain ⟨tg, htg, hm, hkd⟩ := hP2 d hd
    refine (hasTgKey_iff _ _).mpr ⟨tg, ?_, hkd⟩
    simp only [listTargetGroupsByLabels]
    exact List.mem_filter.mpr ⟨htg, by simpa using hm⟩
  have ht21 : (createOrUpdateTargetGroups cfg svc dtgs nodes S1).2.1 =
      (updateExistingTGs nodes dtgs (listTargetGroupsByLabels S1
        (getLabelsForVpcLoadbalancer cfg svc)) S1).2.1 := by
    simp only [createOrUpdateTargetGroups, hnoop]
  have hLfr := frames_createOrUpdateTargetGroups cfg svc dtgs nodes S1
  have hall2 : ∀ z ∈ listListenersOf
      (createOrUpdateTargetGroups cfg svc dtgs nodes S1).2.1 w.identity,
      portMapHas (desiredVpcLoadbalancerListener cfg svc) z.port = true := by
    intro z hz
    obtain ⟨p, hp, hp1, hp2⟩ := (mem_listListenersOf _ _ z).mp hz
    rw [hLfr.1] at hp
    rw [← hp2]
    exact hP4 p hp hp1
  have hcov2 : ∀ x ∈ desiredVpcLoadbalancerListener cfg svc,
      portMapHas (listListenersOf
        (createOrUpdateTargetGroups cfg svc dtgs nodes S1).2.1 w.identity)
        x.port = true := by
    intro x hx
    obtain ⟨p, hp, hp1, hp2⟩ := hP5 x hx
    have hm : p.2 ∈ listListenersOf
        (createOrUpdateTargetGroups cfg svc dtgs nodes S1).2.1 w.identity :=
      (mem_listListenersOf _ _ p.2).mpr ⟨p, by rw [hLfr.1]; exact hp, hp1, rfl⟩
    have := portMapHas_of_mem _ p.2 hm
    rw [hp2] at this
    exact this
  have hfr2 := frames_updLst_strong cfg svc w
    (desiredVpcLoadbalancerListener cfg svc)
    (createOrUpdateTargetGroups cfg svc dtgs nodes S1).1
    (createOrUpdateTargetGroups cfg svc dtgs nodes S1).2.1 hall2 hcov2
  have hclean : ∀ tg ∈ listTargetGroupsByLabels
      (updateVpcLoadbalancerListener cfg svc w
        (desiredVpcLoadbalancerListener cfg svc)
        (createOrUpdateTargetGroups cfg svc dtgs nodes S1).1
        (createOrUpdateTargetGroups cfg svc dtgs nodes S1).2.1).1
      (getLabelsForVpcLoadbalancer cfg svc),
      hasTgKey dtgs (tgKey tg) = true ∨ tg.loadbalancerListeners ≠ [] := by
    intro tg htg
    have hmm : tg ∈ (updateVpcLoadbalancerListener cfg svc w
        (desiredVpcLoadbalancerListener cfg svc)
        (createOrUpdateTargetGroups cfg svc dtgs nodes S1).1
        (createOrUpdateTargetGroups cfg svc dtgs nodes S1).2.1).1.tgs := by
      simp only [listTargetGroupsByLabels] at htg
      exact List.mem_of_mem_filter htg
    have hmatch : matchLabels (getLabelsForVpcLoadbalancer cfg svc) tg.labels = true := by
      simp only [listTargetGroupsByLabels] at htg
      simpa using List.of_mem_filter htg
    rw [hfr2.1, ht21] at hmm
    rcases updateExistingTGs_origin nodes dtgs _ S1 tg hmm with
      ⟨d', hd', hkd⟩ | ⟨tgp, htgp, hlab, hkey, hlst⟩
    · left
      exact (hasTgKey_iff _ _).mpr ⟨d', hd', hkd.symm⟩
    · have hm2 : matchLabels (getLabelsForVpcLoadbalancer cfg svc) tgp.labels = true := by
        rw [← hlab]
        exact hmatch
      rcases hP3 tgp htgp hm2 with h | h
      · left
        rw [hkey]
        exact h
      · right
        rw [hlst]
        exact h
  intro c hc
  simp only [updateVpcLoadbalancerListenersAndTargetGroups, hok] at hc
  split at hc <;>
    (rcases List.mem_append.mp hc with h | h
     · rcases List.mem_append.mp h with h | h
       · rcases List.mem_append.mp h with h | h
         · rcases List.mem_append.mp h with h | h
           · simp at h
           · -- target-group phase
             simp only [createOrUpdateTargetGroups, hnoop] at h
             rcases List.mem_cons.mp h with rfl | h1
             · rfl
             · rcases List.mem_append.mp h1 with h2 | h2
               · simp at h2
               · exact calls_updateExistingTGs_no_cd nodes dtgs _ _ c h2
         · -- listener phase
           exact calls_updLst_no_cd cfg svc w
             (desiredVpcLoadbalancerListener cfg svc)
             (createOrUpdateTargetGroups cfg svc dtgs nodes S1).1
             (createOrUpdateTargetGroups cfg svc dtgs nodes S1).2.1
             hall2 hcov2 c h
       · -- cleanup phase
         simp only [cleanupUnusedTargetGroups] at h
         rw [cleanupTGsLoop_noop dtgs _ _ hclean] at h
         rcases List.mem_cons.mp h with rfl | h1
         · rfl
         · simp at h1
     · -- balancer attribute update
       refine calls_updateVpcLoadbalancer_no_cd cfg svc w
         (desiredVpcLoadbalancerListener cfg svc) _ ?_ c h
       intro hsc
       obtain ⟨sg, hsg, hm⟩ := hP6 hsc
       refine ⟨sg, ?_, hm⟩
       rw [show (cleanupUnusedTargetGroups cfg svc dtgs
           (updateVpcLoadbalancerListener cfg svc w
             (desiredVpcLoadbalancerListener cfg svc)
             (createOrUpdateTargetGroups cfg svc dtgs nodes S1).1
             (createOrUpdateTargetGroups cfg svc dtgs nodes S1).2.1).1).1.sgs =
           S1.sgs from by
         simp only [cleanupUnusedTargetGroups]
         rw [(frames_cleanupTGsLoop dtgs _ _).2.1, hfr2.2, hLfr.2.1]]
       exact hsg)

/-- A successful `EnsureLoadBalancer` leaves the cloud in a state
satisfying the convergence bundle. -/
theorem post_ensureLoadBalancer (cfg : LBCfg) (slices : List KEndpointSlice)
    (svc : KService) (nodes0 : List KNode) (st : CloudState)
    (hwf : st.wf)
    (hkeys : ∀ dtgs, getDesiredVpcLoadbalancerTargetGroups cfg svc = Except.ok dtgs →
      ∀ d ∈ dtgs, ∀ d' ∈ dtgs, tgKey d = tgKey d' → d = d')
    (hok1 : ∃ ings, (ensureLoadBalancer cfg slices svc nodes0 st).1 = Except.ok ings) :
    ∃ dtgs, getDesiredVpcLoadbalancerTargetGroups cfg svc = Except.ok dtgs ∧
    ∃ w, (fetchVpcLoadbalancerFromCloud cfg svc
        (ensureLoadBalancer cfg slices svc nodes0 st).2.1).1 = some w ∧
      (∀ p ∈ (ensureLoadBalancer cfg slices svc nodes0 st).2.1.listeners,
        p.1 = w.identity →
        portMapHas (desiredVpcLoadbalancerListener cfg svc) p.2.port = true) ∧
      (∀ x ∈ desiredVpcLoadbalancerListener cfg svc,
        ∃ p ∈ (ensureLoadBalancer cfg slices svc nodes0 st).2.1.listeners,
          p.1 = w.identity ∧ p.2.port = x.port) ∧
      (∀ d ∈ dtgs, ∃ tg ∈ (ensureLoadBalancer cfg slices svc nodes0 st).2.1.tgs,
        matchLabels (getLabelsForVpcLoadbalancer cfg svc) tg.labels = true ∧
        tgKey tg = tgKey d) ∧
      (∀ tg ∈ (ensureLoadBalancer cfg slices svc nodes0 st).2.1.tgs,
        matchLabels (getLabelsForVpcLoadbalancer cfg svc) tg.labels = true →
        hasTgKey dtgs (tgKey tg) = true ∨ tg.loadbalancerListeners ≠ []) ∧
      (shouldCreateSecurityGroup svc = true →
        ∃ sg ∈ (ensureLoadBalancer cfg slices svc nodes0 st).2.1.sgs,
          matchLabels (getLabelsForVpcLoadbalancer cfg svc) sg.labels = true) := by
  obtain ⟨ings, hok1⟩ := hok1
  cases hf : (fetchVpcLoadbalancerFromCloud cfg svc st).1 with
  | some v =>
    have hres1 : (ensureLoadBalancer cfg slices svc nodes0 st).1 =
        (updateVpcLoadbalancerListenersAndTargetGroups cfg svc
          (nodeFilterFilter slices svc nodes0) (some v) st).1 := by
      simp only [ensureLoadBalancer, hf]
    have hstate : (ensureLoadBalancer cfg slices svc nodes0 st).2.1 =
        (updateVpcLoadbalancerListenersAndTargetGroups cfg svc
          (nodeFilterFilter slices svc nodes0) (some v) st).2.1 := by
      simp only [ensureLoadBalancer, hf]
    rw [hres1] at hok1
    cases hd : getDesiredVpcLoadbalancerTargetGroups cfg svc with
    | error e =>
      exfalso
      simp only [updateVpcLoadbalancerListenersAndTargetGroups, hd] at hok1
      exact absurd hok1 (by simp)
    | ok dtgs =>
      refine ⟨dtgs, rfl, ?_⟩
      cases huu : (updateVpcLoadbalancer cfg svc v
          (desiredVpcLoadbalancerListener cfg svc)
          (cleanupUnusedTargetGroups cfg svc dtgs
            (updateVpcLoadbalancerListener cfg svc v
              (desiredVpcLoadbalancerListener cfg svc)
              (createOrUpdateTargetGroups cfg svc dtgs
                (nodeFilterFilter slices svc nodes0) st).1
              (createOrUpdateTargetGroups cfg svc dtgs
                (nodeFilterFilter slices svc nodes0) st).2.1).1).1).1 with
      | error e =>
        exfalso
        simp only [updateVpcLoadbalancerListenersAndTargetGroups, hd, huu] at hok1
        exact absurd hok1 (by simp)
      | ok u0 =>
        cases u0
        have hstate2 : (updateVpcLoadbalancerListenersAndTargetGroups cfg svc
            (nodeFilterFilter slices svc nodes0) (some v) st).2.1 =
            (updateVpcLoadbalancer cfg svc v
              (desiredVpcLoadbalancerListener cfg svc)
              (cleanupUnusedTargetGroups cfg svc dtgs
                (updateVpcLoadbalancerListener cfg svc v
                  (desiredVpcLoadbalancerListener cfg svc)
                  (createOrUpdateTargetGroups cfg svc dtgs
                    (nodeFilterFilter slices svc nodes0) st).1
                  (createOrUpdateTargetGroups cfg svc dtgs
                    (nodeFilterFilter slices svc nodes0) st).2.1).1).1).2.1 := by
          simp only [updateVpcLoadbalancerListenersAndTargetGroups, hd, huu]
        obtain ⟨⟨w, hw, hwid⟩, hB4, hB5, hB2, hB3, hB6⟩ :=
          post_pipeline cfg svc (nodeFilterFilter slices svc nodes0) v dtgs hd
            (hkeys dtgs hd) st _ _ _ _ rfl rfl rfl rfl
            (wf_tg_bound st hwf) hwf.2.2.1 hwf.2.1 hwf.2.2.2 hf huu
        rw [hstate, hstate2]
        refine ⟨w, hw, ?_, ?_, hB2, hB3, hB6⟩
        · intro p hp hp1
          exact hB4 p hp (hp1.trans hwid)
        · intro x hx
          obtain ⟨p, hp, hp1, hp2⟩ := hB5 x hx
          exact ⟨p, hp, hp1.trans hwid.symm, hp2⟩
  | none =>
    cases hc : (createVpcLoadbalancer cfg (defaultLoadBalancerName svc) svc st).1 with
    | error e =>
      exfalso
      simp only [ensureLoadBalancer, hf, hc] at hok1
      exact absurd hok1 (by simp)
    | ok v =>
      obtain ⟨s', req, hs'lbs, hs'tgs, hs'lst, hs'next, hreqlab, hcst, hcv⟩ :=
        createVpcLoadbalancer_ok_shape cfg (defaultLoadBalancerName svc) svc st v hc
      have hstate : (ensureLoadBalancer cfg slices svc nodes0 st).2.1 =
          (updateVpcLoadbalancerListenersAndTargetGroups cfg svc
            (nodeFilterFilter slices svc nodes0) (some v)
            (createVpcLoadbalancer cfg (defaultLoadBalancerName svc) svc st).2.1).2.1 := by
        simp only [ensureLoadBalancer, hf, hc]
        split <;> (try split) <;> (try split) <;> (try split) <;> rfl
      have hres1 : ∃ ings2, (updateVpcLoadbalancerListenersAndTargetGroups cfg svc
          (nodeFilterFilter slices svc nodes0) (some v)
          (createVpcLoadbalancer cfg (defaultLoadBalancerName svc) svc st).2.1).1 =
          Except.ok ings2 := by
        simp only [ensureLoadBalancer, hf, hc] at hok1
        cases hu2 : (updateVpcLoadbalancerListenersAndTargetGroups cfg svc
            (nodeFilterFilter slices svc nodes0) (some v)
            (createVpcLoadbalancer cfg (defaultLoadBalancerName svc) svc st).2.1).1 with
        | error e =>
          exfalso
          simp only [hu2] at hok1
          exact absurd hok1 (by simp)
        | ok ings2 => exact ⟨ings2, rfl⟩
      obtain ⟨ings2, hok2⟩ := hres1
      have hfc : (fetchVpcLoadbalancerFromCloud cfg svc
          (createVpcLoadbalancer cfg (defaultLoadBalancerName svc) svc st).2.1).1 =
          some v := by
        rw [hcst, hcv]
        exact fetch_after_createLB cfg svc s' req hreqlab
          (by rw [hs'lbs]; exact fetch_none_elim cfg svc st hf)
      have hb' : ∀ i ∈ (createVpcLoadbalancer cfg (defaultLoadBalancerName svc)
          svc st).2.1.tgs.map (fun x => x.identity),
          i.length ≤ (createVpcLoadbalancer cfg
            (defaultLoadBalancerName svc) svc st).2.1.nextId := by
        intro i hi
        rw [hcst] at hi ⊢
        have h1 : (applyCreateLB s' req).2.tgs = s'.tgs := rfl
        have h2 : (applyCreateLB s' req).2.nextId = s'.nextId + 1 := rfl
        rw [h1, hs'tgs] at hi
        rw [h2]
        have := wf_tg_bound st hwf i hi
        omega
      have hnd' : ((createVpcLoadbalancer cfg (defaultLoadBalancerName svc)
          svc st).2.1.tgs.map (fun x => x.identity)).Nodup := by
        rw [hcst, show (applyCreateLB s' req).2.tgs = s'.tgs from rfl, hs'tgs]
        exact hwf.2.2.1
      have hid0' : ∀ tg ∈ (createVpcLoadbalancer cfg (defaultLoadBalancerName svc)
          svc st).2.1.tgs, tg.identity ≠ "" := by
        rw [hcst, show (applyCreateLB s' req).2.tgs = s'.tgs from rfl, hs'tgs]
        exact hwf.2.1
      have hlnd' : ((createVpcLoadbalancer cfg (defaultLoadBalancerName svc)
          svc st).2.1.listeners.map (fun r => r.2.identity)).Nodup := by
        rw [hcst, show (applyCreateLB s' req).2.listeners = s'.listeners from rfl, hs'lst]
        exact hwf.2.2.2
      cases hd : getDesiredVpcLoadbalancerTargetGroups cfg svc with
      | error e =>
        exfalso
        simp only [updateVpcLoadbalancerListenersAndTargetGroups, hd] at hok2
        exact absurd hok2 (by simp)
      | ok dtgs =>
        refine ⟨dtgs, rfl, ?_⟩
        cases huu : (updateVpcLoadbalancer cfg svc v
            (desiredVpcLoadbalancerListener cfg svc)
            (cleanupUnusedTargetGroups cfg svc dtgs
              (updateVpcLoadbalancerListener cfg svc v
                (desiredVpcLoadbalancerListener cfg svc)
                (createOrUpdateTargetGroups cfg svc dtgs
                  (nodeFilterFilter slices svc nodes0)
                  (createVpcLoadbalancer cfg (defaultLoadBalancerName svc) svc st).2.1).1
                (createOrUpdateTargetGroups cfg svc dtgs
                  (nodeFilterFilter slices svc nodes0)
                  (createVpcLoadbalancer cfg (defaultLoadBalancerName svc)
                    svc st).2.1).2.1).1).1).1 with
        | error e =>
          exfalso
          simp only [updateVpcLoadbalancerListenersAndTargetGroups, hd, huu] at hok2
          exact absurd hok2 (by simp)
        | ok u0 =>
          cases u0
          have hstate2 : (updateVpcLoadbalancerListenersAndTargetGroups cfg svc
              (nodeFilterFilter slices svc nodes0) (some v)
              (createVpcLoadbalancer cfg (defaultLoadBalancerName svc) svc st).2.1).2.1 =
              (updateVpcLoadbalancer cfg svc v
                (desiredVpcLoadbalancerListener cfg svc)
                (cleanupUnusedTargetGroups cfg svc dtgs
                  (updateVpcLoadbalancerListener cfg svc v
                    (desiredVpcLoadbalancerListener cfg svc)
                    (createOrUpdateTargetGroups cfg svc dtgs
                      (nodeFilterFilter slices svc nodes0)
                      (createVpcLoadbalancer cfg (defaultLoadBalancerName svc)
                        svc st).2.1).1
                    (createOrUpdateTargetGroups cfg svc dtgs
                      (nodeFilterFilter slices svc nodes0)
                      (createVpcLoadbalancer cfg (defaultLoadBalancerName svc)
                        svc st).2.1).2.1).1).1).2.1 := by
            simp only [updateVpcLoadbalancerListenersAndTargetGroups, hd, huu]
          obtain ⟨⟨w, hw, hwid⟩, hB4, hB5, hB2, hB3, hB6⟩ :=
            post_pipeline cfg svc (nodeFilterFilter slices svc nodes0) v dtgs hd
              (hkeys dtgs hd)
              (createVpcLoadbalancer cfg (defaultLoadBalancerName svc) svc st).2.1
              _ _ _ _ rfl rfl rfl rfl hb' hnd' hid0' hlnd' hfc huu
          rw [hstate, hstate2]
          refine ⟨w, hw, ?_, ?_, hB2, hB3, hB6⟩
          · intro p hp hp1
            exact hB4 p hp (hp1.trans hwid)
          · intro x hx
            obtain ⟨p, hp, hp1, hp2⟩ := hB5 x hx
            exact ⟨p, hp, hp1.trans hwid.symm, hp2⟩

theorem keyinj_singleton : ∀ (l : List VpcLoadbalancerTargetGroup), l.length ≤ 1 →
    ∀ d ∈ l, ∀ d' ∈ l, tgKey d = tgKey d' → d = d' := by
  intro l hl d hd d' hd' _
  cases l with
  | nil => simp at hd
  | cons a as =>
    cases as with
    | nil => rw [List.mem_singleton.mp hd, List.mem_singleton.mp hd']
    | cons b bs => simp at hl

/-- A second `EnsureLoadBalancer` immediately after a successful one still
issues mutations: the fixture's second run performs update and
attachment-replace calls, refuting the claim that the second call performs
no remote mutations at all. -/
theorem c1_counterexample :
    (∃ ings, (ensureLoadBalancer exCfg [] exSvc [exNode] exState0).1 =
      Except.ok ings) ∧
    ((ensureLoadBalancer exCfg [] exSvc [exNode]
        (ensureLoadBalancer exCfg [] exSvc [exNode] exState0).2.1).2.2).any
      CloudCall.isMutation = true :=
  ⟨⟨[⟨"203.0.113.7", "lb.example", "Proxy"⟩], rfl⟩, by decide⟩

/-- **C1** (amended: the second call still issues update and
attachment-replace calls, but no create or delete calls).  For every
Service and node list over a well-formed cloud state whose desired target
groups have pairwise-distinct (protocol, node-port) keys, running
`EnsureLoadBalancer` immediately after a successful `EnsureLoadBalancer`
with the same Service and nodes performs no create or delete cloud-API
call on the second run. -/
theorem c1_second_ensure_no_create_or_delete (cfg : LBCfg)
    (slices : List KEndpointSlice) (svc : KService) (nodes0 : List KNode)
    (st : CloudState) (hwf : st.wf)
    (hkeys : ∀ dtgs, getDesiredVpcLoadbalancerTargetGroups cfg svc = Except.ok dtgs →
      ∀ d ∈ dtgs, ∀ d' ∈ dtgs, tgKey d = tgKey d' → d = d')
    (hok1 : ∃ ings, (ensureLoadBalancer cfg slices svc nodes0 st).1 = Except.ok ings) :
    ((ensureLoadBalancer cfg slices svc nodes0
        (ensureLoadBalancer cfg slices svc nodes0 st).2.1).2.2).any
      CloudCall.isCreateOrDelete = false := by
  obtain ⟨dtgs, hd, w, hw, hB4, hB5, hB2, hB3, hB6⟩ :=
    post_ensureLoadBalancer cfg slices svc nodes0 st hwf hkeys hok1
  have hall : ∀ c ∈ (ensureLoadBalancer cfg slices svc nodes0
      (ensureLoadBalancer cfg slices svc nodes0 st).2.1).2.2,
      c.isCreateOrDelete = false := by
    set S1 := (ensureLoadBalancer cfg slices svc nodes0 st).2.1 with hS1
    intro c hc
    simp only [ensureLoadBalancer, hw] at hc
    rcases List.mem_append.mp hc with h | h
    · rw [List.mem_singleton.mp (show c ∈ [CloudCall.listLoadbalancers] from h)]
      rfl
    · exact run2_no_cd cfg svc (nodeFilterFilter slices svc nodes0) dtgs S1 w
        hd hB4 hB5 hB2 hB3 hB6 c h
  cases hany : ((ensureLoadBalancer cfg slices svc nodes0
      (ensureLoadBalancer cfg slices svc nodes0 st).2.1).2.2).any
      CloudCall.isCreateOrDelete with
  | false => rfl
  | true =>
    exfalso
    obtain ⟨c, hc, hp⟩ := List.any_eq_true.mp hany
    rw [hall c hc] at hp
    exact absurd hp (by simp)

theorem c1_second_ensure_no_create_or_delete_witness :
    CloudState.wf exState0 ∧
    (ensureLoadBalancer exCfg [] exSvc [exNode] exState0).1 =
      Except.ok [⟨"203.0.113.7", "lb.example", "Proxy"⟩] ∧
    ((ensureLoadBalancer exCfg [] exSvc [exNode]
        (ensureLoadBalancer exCfg [] exSvc [exNode] exState0).2.1).2.2).any
      CloudCall.isCreateOrDelete = false :=
  ⟨⟨by decide, by decide, by decide, by decide⟩, rfl,
   c1_second_ensure_no_create_or_delete exCfg [] exSvc [exNode] exState0
     ⟨by decide, by decide, by decide, by decide⟩
     (fun dtgs hd => keyinj_singleton dtgs (by
       have h0 : (getDesiredVpcLoadbalancerTargetGroups exCfg exSvc).toOption.map
           List.length = some 1 := by decide
       rw [hd] at h0
       have h1 : some dtgs.length = some 1 := h0
       exact Nat.le_of_eq (Option.some.inj h1)))
     ⟨[⟨"203.0.113.7", "lb.example", "Proxy"⟩], rfl⟩⟩

end ThalassaProvider
